import Mathlib

/-!
# A user-space network stack: Ethernet, ARP, IPv4, ICMP and UDP

Shallow embedding of `src/utils.c`, `src/ethernet.c`, `src/arp.c`, `src/ip.c`,
`src/icmp.c` and `src/udp.c`.

Conventions of the embedding.

* A byte is a `Nat` below 256; memory is a `List Nat`.
* The host is little-endian (the code relies on `swap16` to produce network
  order): a `uint16_t` read from memory at bytes `b0 b1` has the value
  `b0 + 256 * b1`, and storing `v` writes `v % 256` then `v / 256`.
* `uint32_t` arithmetic is `Nat` arithmetic reduced modulo `2 ^ 32`.
-/

namespace NetLab

/-! ## utils.c : checksum16 -/

/-- The loop `while (sum >> 16) sum = (sum >> 16) + (sum & 0xffff);` on a
`uint32_t`. Every iteration with a non-zero high half strictly decreases `sum`,
so `fuel = sum` iterations are always enough (`fold_carry_exit`). -/
def fold_carry : Nat → Nat → Nat
  | 0, sum => sum
  | fuel + 1, sum =>
    if sum >>> 16 ≠ 0 then
      fold_carry fuel (((sum >>> 16) + (sum &&& 0xffff)) % 2 ^ 32)
    else sum

/-- Steps 1 and 2 of `checksum16`: the region `data[0 .. len)` is consumed two
bytes at a time as host-order 16-bit words (`sum += *data++`, then the carry
loop); a remaining single byte is added as `*(uint8_t *)data`. -/
def checksum16_loop : List Nat → Nat → Nat
  | b0 :: b1 :: rest, sum =>
    let sum1 := (sum + (b0 + 256 * b1)) % 2 ^ 32
    checksum16_loop rest (fold_carry sum1 sum1)
  | [b0], sum => (sum + b0) % 2 ^ 32
  | [], sum => sum

/-- The function `checksum16(data, len)` where the argument is the region
`data[0 .. len)` as a byte list. Step 3 folds the carries once more and
truncates to 16 bits, step 4 complements (`~sum` on `uint32_t`) and the
return truncates to `uint16_t`. -/
def checksum16 (data : List Nat) : Nat :=
  let sum := checksum16_loop data 0
  let sum := fold_carry sum sum
  let sum := sum % 2 ^ 16
  let sum := (2 ^ 32 - 1 - sum) % 2 ^ 32
  sum % 2 ^ 16

/-- Read of `n` bytes of memory starting at position `pos`. -/
def mem_read (mem : List Nat) (pos n : Nat) : List Nat :=
  (mem.drop pos).take n

/-- Write of the bytes `vals` into memory starting at position `pos`
(`memcpy`). A write outside the storage is undefined behaviour in C; the
embedding drops the part that does not fit, so that the storage keeps its
size. -/
def mem_write (mem : List Nat) (pos : Nat) (vals : List Nat) : List Nat :=
  mem.take pos ++ vals.take (mem.length - pos) ++ mem.drop (pos + vals.length)

/-- Native store of a `uint16_t` at byte offset `off` (little-endian host). -/
def store16 (mem : List Nat) (off v : Nat) : List Nat :=
  mem_write mem off [v % 256, v / 256 % 256]

/-- Native load of a `uint8_t` at byte offset `off`. -/
def load8 (mem : List Nat) (off : Nat) : Nat :=
  mem.getD off 0

/-- Native load of a `uint16_t` at byte offset `off` (little-endian host). -/
def load16 (mem : List Nat) (off : Nat) : Nat :=
  mem.getD off 0 + 256 * mem.getD (off + 1) 0

/-- Modelled from the spec: the macro `swap16` of the missing `utils.h`, the
swap of the two bytes of a 16-bit value between host order and the network
order of the wire headers: `(((x) & 0xFF) << 8) | (((x) >> 8) & 0xFF)`. -/
def swap16 (x : Nat) : Nat :=
  (x % 256) * 256 + (x / 256) % 256

/-- Every element of the list is a byte. -/
def IsBytes (l : List Nat) : Prop := ∀ b ∈ l, b < 256

instance (l : List Nat) : Decidable (IsBytes l) := by
  unfold IsBytes; infer_instance

/-! ### Arithmetic of the carry loop -/


/-- Canonical end-around-carry reduction: `0` for `0`, else the representative
of `t` modulo `65535` in `1 .. 65535`. -/
def ocfold (t : Nat) : Nat := if t = 0 then 0 else (t - 1) % 65535 + 1

/-- Plain sum of the host-order 16-bit words of a region (odd tail byte added
as is). -/
def wsum : List Nat → Nat
  | b0 :: b1 :: rest => b0 + 256 * b1 + wsum rest
  | [b0] => b0
  | [] => 0


/-! ## Constants and layouts of the headers

The header files (`net.h`, `ethernet.h`, `arp.h`, `ip.h`, `icmp.h`, `udp.h`,
`buf.h`) are not among the sources. -/

/-- Modelled from the spec: `NET_MAC_LEN`, the length of a hardware address. -/
def NET_MAC_LEN : Nat := 6
/-- Modelled from the spec: `NET_IP_LEN`, the length of an IPv4 address. -/
def NET_IP_LEN : Nat := 4
/-- Modelled from the spec: `NET_PROTOCOL_ARP`, the ethertype of ARP. -/
def NET_PROTOCOL_ARP : Nat := 0x0806
/-- Modelled from the spec: `NET_PROTOCOL_IP`, the ethertype of IPv4. -/
def NET_PROTOCOL_IP : Nat := 0x0800
/-- Modelled from the spec: `NET_PROTOCOL_ICMP`, the IP protocol number of ICMP. -/
def NET_PROTOCOL_ICMP : Nat := 1
/-- Modelled from the spec: `NET_PROTOCOL_UDP`, the IP protocol number of UDP. -/
def NET_PROTOCOL_UDP : Nat := 17
/-- Modelled from the spec: `ETHERNET_MAX_TRANSPORT_UNIT`, the link MTU. -/
def ETHERNET_MAX_TRANSPORT_UNIT : Nat := 1500
/-- Modelled from the spec: `ETHERNET_MIN_TRANSPORT_UNIT`, the minimum payload of a frame. -/
def ETHERNET_MIN_TRANSPORT_UNIT : Nat := 46
/-- Modelled from the spec: `ARP_HW_ETHER`, the ARP hardware type of Ethernet. -/
def ARP_HW_ETHER : Nat := 1
/-- Modelled from the spec: `ARP_REQUEST`, the ARP opcode of a request. -/
def ARP_REQUEST : Nat := 1
/-- Modelled from the spec: `ARP_REPLY`, the ARP opcode of a reply. -/
def ARP_REPLY : Nat := 2
/-- Modelled from the spec: `IP_VERSION_4`. -/
def IP_VERSION_4 : Nat := 4
/-- Modelled from the spec: `IP_HDR_LEN_PER_BYTE`, the unit of the header-length field. -/
def IP_HDR_LEN_PER_BYTE : Nat := 4
/-- Modelled from the spec: `IP_HDR_OFFSET_PER_BYTE`, the unit of the fragment offset. -/
def IP_HDR_OFFSET_PER_BYTE : Nat := 8
/-- Modelled from the spec: `IP_MORE_FRAGMENT`, the more-fragments bit of the
flags/fragment field. -/
def IP_MORE_FRAGMENT : Nat := 0x2000
/-- Modelled from the spec: `IP_DEFALUT_TTL`, the implementation default TTL. -/
def IP_DEFALUT_TTL : Nat := 64
/-- Modelled from the spec: `ICMP_TYPE_ECHO_REQUEST`. -/
def ICMP_TYPE_ECHO_REQUEST : Nat := 8
/-- Modelled from the spec: `ICMP_TYPE_ECHO_REPLY`. -/
def ICMP_TYPE_ECHO_REPLY : Nat := 0
/-- Modelled from the spec: `ICMP_TYPE_UNREACH`, destination unreachable. -/
def ICMP_TYPE_UNREACH : Nat := 3
/-- Modelled from the spec: `ICMP_CODE_PROTOCOL_UNREACH`. -/
def ICMP_CODE_PROTOCOL_UNREACH : Nat := 2
/-- Modelled from the spec: `ICMP_CODE_PORT_UNREACH`. -/
def ICMP_CODE_PORT_UNREACH : Nat := 3
/-- Modelled from the spec: `sizeof(ether_hdr_t)`: dst (0), src (6), protocol16 (12). -/
def sizeof_ether_hdr_t : Nat := 14
/-- Modelled from the spec: `sizeof(arp_pkt_t)`: hw_type16 (0), pro_type16 (2),
hw_len (4), pro_len (5), opcode16 (6), sender_mac (8), sender_ip (14),
target_mac (18), target_ip (24). -/
def sizeof_arp_pkt_t : Nat := 28
/-- Modelled from the spec: `sizeof(ip_hdr_t)`: hdr_len:4 and version:4 (0, low
and high nibble), tos (1), total_len16 (2), id16 (4), flags_fragment16 (6),
ttl (8), protocol (9), hdr_checksum16 (10), src_ip (12), dst_ip (16). -/
def sizeof_ip_hdr_t : Nat := 20
/-- Modelled from the spec: `sizeof(icmp_hdr_t)`: type (0), code (1),
checksum16 (2), id16 (4), seq16 (6). -/
def sizeof_icmp_hdr_t : Nat := 8
/-- Modelled from the spec: `sizeof(udp_hdr_t)`: src_port16 (0), dst_port16 (2),
total_len16 (4), checksum16 (6). -/
def sizeof_udp_hdr_t : Nat := 8
/-- The size of `udp_peso_hdr_t`, laid out as `peso_hdr_t` of `utils.c`:
src_ip (0), dst_ip (4), placeholder (8), protocol (9), total_len16 (10). -/
def sizeof_udp_peso_hdr_t : Nat := 12
/-- Modelled from the spec: `ether_broadcast_mac`. -/
def ether_broadcast_mac : List Nat := [0xff, 0xff, 0xff, 0xff, 0xff, 0xff]

/-! ## Packet buffer (`buf.c` is not among the sources) -/

/-- The type `buf_t`: `payload` is the fixed storage, `data` the offset of the
data start inside it (the C field is the pointer `payload + data`), `len` the
tracked length. -/
structure buf_t where
  len : Nat
  data : Nat
  payload : List Nat
deriving DecidableEq, Repr

/-- The invariant of a packet buffer: the data region lies inside the storage. -/
def buf_t.inv (buf : buf_t) : Prop :=
  buf.data + buf.len ≤ buf.payload.length

instance (buf : buf_t) : Decidable buf.inv := by
  unfold buf_t.inv; infer_instance

/-- The data region `data[0 .. len)` of a buffer. -/
def buf_t.bytes (buf : buf_t) : List Nat :=
  mem_read buf.payload buf.data buf.len

/-- Read of `n` bytes at `buf->data + off`. -/
def buf_t.read (buf : buf_t) (off n : Nat) : List Nat :=
  mem_read buf.payload (buf.data + off) n

/-- Write of `vals` at `buf->data + off` (`memcpy(buf->data + off, vals, n)`). -/
def buf_t.write (buf : buf_t) (off : Nat) (vals : List Nat) : buf_t :=
  { buf with payload := mem_write buf.payload (buf.data + off) vals }

/-- Load of a `uint8_t` field at `buf->data + off`. -/
def buf_t.get8 (buf : buf_t) (off : Nat) : Nat :=
  load8 buf.payload (buf.data + off)

/-- Load of a `uint16_t` field at `buf->data + off`. -/
def buf_t.get16 (buf : buf_t) (off : Nat) : Nat :=
  load16 buf.payload (buf.data + off)

/-- Store of a `uint8_t` field at `buf->data + off`. -/
def buf_t.set8 (buf : buf_t) (off v : Nat) : buf_t :=
  buf.write off [v % 256]

/-- Store of a `uint16_t` field at `buf->data + off`. -/
def buf_t.set16 (buf : buf_t) (off v : Nat) : buf_t :=
  { buf with payload := store16 buf.payload (buf.data + off) v }

/-- Modelled from the spec: `buf_init` of the missing `buf.c`. The buffer is
initialised with the given length; the data region is placed so that it ends
at the middle of the storage, which reserves half of the capacity as header
margin. The storage bytes are not cleared. A length that does not fit leaves
the buffer as it is (the callers ignore the error return). -/
def buf_init (buf : buf_t) (len : Nat) : buf_t :=
  if len ≥ buf.payload.length / 2 then buf
  else { buf with len := len, data := buf.payload.length / 2 - len }

/-- Modelled from the spec: `buf_add_header` of the missing `buf.c`: shifts the
data start back by `len`; fails, leaving the buffer as it is, if the reserved
capacity is insufficient. -/
def buf_add_header (buf : buf_t) (len : Nat) : buf_t :=
  if buf.data < len then buf
  else { buf with len := buf.len + len, data := buf.data - len }

/-- Modelled from the spec: `buf_remove_header` of the missing `buf.c`: shifts
the data start forward by `len`, shrinking the length; fails, leaving the
buffer as it is, if the buffer is shorter than `len`. -/
def buf_remove_header (buf : buf_t) (len : Nat) : buf_t :=
  if buf.len < len then buf
  else { buf with len := buf.len - len, data := buf.data + len }

/-- Modelled from the spec: `buf_add_padding` of the missing `buf.c`: zero-fills
`len` bytes at the tail and extends the length; fails, leaving the buffer as it
is, if the storage is too small. -/
def buf_add_padding (buf : buf_t) (len : Nat) : buf_t :=
  if buf.data + buf.len + len > buf.payload.length then buf
  else { buf with
    payload := mem_write buf.payload (buf.data + buf.len) (List.replicate len 0),
    len := buf.len + len }

/-- Modelled from the spec: `buf_remove_padding` of the missing `buf.c`: shrinks
the length from the tail; fails, leaving the buffer as it is, if the buffer is
shorter than `len`. -/
def buf_remove_padding (buf : buf_t) (len : Nat) : buf_t :=
  if buf.len < len then buf
  else { buf with len := buf.len - len }

/-- Modelled from the spec: `buf_copy` of the missing `buf.c`, the copy hook of
the pending store: a deep copy of length, data start and storage. -/
def buf_copy (src : buf_t) : buf_t :=
  { len := src.len, data := src.data, payload := src.payload }

/-! ## Keyed expiring store (`map.c` is not among the sources) -/

/-- Modelled from the spec: the keyed expiring store `map_t` of the missing
`map.c`: entries `(key, value, last_update)` and a time-to-live `timeout`,
where `timeout = 0` means that entries never expire. -/
structure map_t (κ ν : Type) where
  timeout : Nat
  entries : List (κ × ν × Nat)
deriving DecidableEq, Repr

/-- Modelled from the spec: an entry is considered absent once
`now - last_update > ttl`; `ttl = 0` means it never expires. -/
def map_entry_valid {κ ν : Type} (map : map_t κ ν) (now : Nat) (e : κ × ν × Nat) : Bool :=
  map.timeout = 0 || now - e.2.2 ≤ map.timeout

/-- Modelled from the spec: `map_get` of the missing `map.c`: the value stored
under the key, or absence if it was never set or has expired. -/
def map_get {κ ν : Type} [DecidableEq κ] (map : map_t κ ν) (key : κ) (now : Nat) : Option ν :=
  (map.entries.find? (fun e => e.1 = key && map_entry_valid map now e)).map (fun e => e.2.1)

/-- Modelled from the spec: `map_set` of the missing `map.c`: insert or
overwrite, refreshing the timestamp; the store keeps its own copy of the value
(for the pending store, through the copy hook `buf_copy`). -/
def map_set {κ ν : Type} [DecidableEq κ] (map : map_t κ ν) (key : κ) (value : ν) (now : Nat) :
    map_t κ ν :=
  { map with entries := (key, value, now) :: map.entries.filter (fun e => e.1 ≠ key) }

/-- Modelled from the spec: `map_delete` of the missing `map.c`. -/
def map_delete {κ ν : Type} [DecidableEq κ] (map : map_t κ ν) (key : κ) : map_t κ ν :=
  { map with entries := map.entries.filter (fun e => e.1 ≠ key) }

/-! ## The state of the stack and what it does to its environment -/

/-- What the stack hands to its external collaborators (`driver_send`, the
protocol registry `net_in`, a registered UDP handler), together with a record
of the calls of `ip_out` and `ip_fragment_out` (payload of the buffer at entry
and the scalar arguments), in the order in which they happen. -/
inductive Event where
  | driver_send (frame : List Nat)
  | net_in (payload : List Nat) (protocol : Nat) (src : List Nat)
  | udp_handler (handler : Nat) (data : List Nat) (len : Nat) (src_ip : List Nat)
      (src_port : Nat)
  | ip_out (payload : List Nat) (ip : List Nat) (protocol : Nat)
  | ip_fragment_out (payload : List Nat) (ip : List Nat) (protocol id offset mf : Nat)
deriving DecidableEq, Repr

/-- The handlers which the protocol registry may hold for an IP protocol
number: the two of this repository, or one outside it. -/
inductive net_handler where
  | icmp_in
  | udp_in
  | external (id : Nat)
deriving DecidableEq, Repr

/-- The buffers which a `buf_t *` argument of the output path may point to:
the shared transmit buffer `txbuf`, the local `_ip_buf` of `ip_out`, or a
buffer `ext` owned by the caller. -/
inductive buf_ref where
  | txbuf
  | ip_buf
  | ext
deriving DecidableEq, Repr

/-- The global state: interface identity, the shared transmit buffer, the ARP
table `arp_table`, the pending store `arp_buf`, the UDP port table, the
registry of IP protocol handlers, the static `ip_id` of `ip_out`, the reading
of the clock (`time(NULL)`, taken as constant during one call), and the
events so far. `ip_buf` and `ext` hold the contents of the buffers a `buf_ref`
may point to. -/
structure Net where
  net_if_mac : List Nat
  net_if_ip : List Nat
  txbuf : buf_t
  ip_buf : buf_t
  ext : buf_t
  arp_table : map_t (List Nat) (List Nat)
  arp_buf : map_t (List Nat) buf_t
  udp_table : map_t Nat Nat
  net_table : List (Nat × net_handler)
  ip_id : Nat
  time : Nat
  events : List Event
deriving DecidableEq, Repr

/-- Dereference of a `buf_t *`. -/
def Net.get (s : Net) : buf_ref → buf_t
  | .txbuf => s.txbuf
  | .ip_buf => s.ip_buf
  | .ext => s.ext

/-- Assignment through a `buf_t *`. -/
def Net.set (s : Net) (p : buf_ref) (b : buf_t) : Net :=
  match p with
  | .txbuf => { s with txbuf := b }
  | .ip_buf => { s with ip_buf := b }
  | .ext => { s with ext := b }

/-- Appends an event. -/
def Net.emit (s : Net) (e : Event) : Net :=
  { s with events := s.events ++ [e] }

/-- The frames handed to the driver, in order. -/
def sent_frames : List Event → List (List Nat)
  | [] => []
  | Event.driver_send f :: es => f :: sent_frames es
  | _ :: es => sent_frames es

/-- An address argument (`uint8_t *`) of `transport_checksum`: either memory
outside the buffer, given by its bytes, or the buffer's own storage at an
absolute position (as when `ip_in` passes `hdr->src_ip`). -/
inductive addr_ptr where
  | val (bytes : List Nat)
  | own (pos : Nat)
deriving DecidableEq, Repr

/-- Reads the `n` bytes an address argument points to. -/
def addr_ptr.deref (p : addr_ptr) (buf : buf_t) (n : Nat) : List Nat :=
  match p with
  | .val bytes => bytes
  | .own pos => mem_read buf.payload pos n

/-! ## utils.c : transport_checksum -/

/-- The function `transport_checksum(protocol, buf, src_ip, dst_ip)`; returns
the checksum and the buffer as it is left. -/
def transport_checksum (protocol : Nat) (buf : buf_t) (src_ip dst_ip : addr_ptr) :
    Nat × buf_t :=
  let buf := buf_add_header buf sizeof_udp_peso_hdr_t
  let tmp := buf.read 0 sizeof_udp_peso_hdr_t
  let buf := buf.write 0 (src_ip.deref buf NET_IP_LEN)
  let buf := buf.write 4 (dst_ip.deref buf NET_IP_LEN)
  let buf := buf.set8 8 0
  let buf := buf.set8 9 protocol
  let buf := buf.set16 10 (swap16 (buf.len - sizeof_udp_peso_hdr_t))
  let flag := buf.len % 2
  let buf := if flag ≠ 0 then buf_add_padding buf 1 else buf
  let checksum := checksum16 (buf.read 0 buf.len)
  let buf := if flag ≠ 0 then buf_remove_padding buf 1 else buf
  let buf := buf.write 0 tmp
  let buf := buf_remove_header buf sizeof_udp_peso_hdr_t
  (checksum, buf)

/-! ## ethernet.c -/

/-- The external `driver_send(buf)`: the frame is the data region. -/
def driver_send (s : Net) (buf : buf_t) : Net :=
  s.emit (Event.driver_send buf.bytes)

/-- The steps 1 to 5 of `ethernet_out` on the buffer pointed to. -/
def ethernet_out_buf (net_if_mac : List Nat) (buf : buf_t) (mac : List Nat)
    (protocol : Nat) : buf_t :=
  let buf := if buf.len < ETHERNET_MIN_TRANSPORT_UNIT then
      buf_add_padding buf (ETHERNET_MIN_TRANSPORT_UNIT - buf.len) else buf
  let buf := buf_add_header buf sizeof_ether_hdr_t
  let buf := buf.write 0 mac
  let buf := buf.write 6 net_if_mac
  let buf := buf.set16 12 (swap16 protocol)
  buf

/-- The function `ethernet_out(buf, mac, protocol)`. -/
def ethernet_out (s : Net) (buf : buf_ref) (mac : List Nat) (protocol : Nat) : Net :=
  let b := ethernet_out_buf s.net_if_mac (s.get buf) mac protocol
  let s := s.set buf b
  driver_send s b

/-! ## arp.c -/

/-- The steps 1 to 3 of `arp_req` on `txbuf`. The field `target_mac` is not
written. -/
def arp_req_buf (s : Net) (target_ip : List Nat) : buf_t :=
  let tx := buf_init s.txbuf sizeof_arp_pkt_t
  let tx := tx.set16 0 (swap16 ARP_HW_ETHER)
  let tx := tx.set16 2 (swap16 NET_PROTOCOL_IP)
  let tx := tx.set8 4 NET_MAC_LEN
  let tx := tx.set8 5 NET_IP_LEN
  let tx := tx.write 8 s.net_if_mac
  let tx := tx.write 14 s.net_if_ip
  let tx := tx.write 24 target_ip
  tx.set16 6 (swap16 ARP_REQUEST)

/-- The function `arp_req(target_ip)`. -/
def arp_req (s : Net) (target_ip : List Nat) : Net :=
  ethernet_out { s with txbuf := arp_req_buf s target_ip } .txbuf ether_broadcast_mac
    NET_PROTOCOL_ARP

/-- The steps 1 to 3 of `arp_resp` on `txbuf`. -/
def arp_resp_buf (s : Net) (target_ip target_mac : List Nat) : buf_t :=
  let tx := buf_init s.txbuf sizeof_arp_pkt_t
  let tx := tx.set16 0 (swap16 ARP_HW_ETHER)
  let tx := tx.set16 2 (swap16 NET_PROTOCOL_IP)
  let tx := tx.set8 4 NET_MAC_LEN
  let tx := tx.set8 5 NET_IP_LEN
  let tx := tx.write 8 s.net_if_mac
  let tx := tx.write 14 s.net_if_ip
  let tx := tx.write 18 target_mac
  let tx := tx.write 24 target_ip
  tx.set16 6 (swap16 ARP_REPLY)

/-- The function `arp_resp(target_ip, target_mac)`. -/
def arp_resp (s : Net) (target_ip target_mac : List Nat) : Net :=
  ethernet_out { s with txbuf := arp_resp_buf s target_ip target_mac } .txbuf target_mac
    NET_PROTOCOL_ARP

/-- The header check of `arp_in` (step 2): true when the packet is accepted. -/
def arp_hdr_ok (buf : buf_t) : Bool :=
  !(buf.get16 0 != swap16 ARP_HW_ETHER ||
    buf.get16 2 != swap16 NET_PROTOCOL_IP ||
    buf.get8 4 != NET_MAC_LEN ||
    buf.get8 5 != NET_IP_LEN ||
    (buf.get16 6 != swap16 ARP_REQUEST && buf.get16 6 != swap16 ARP_REPLY))

/-- The function `arp_in(buf, src_mac)`; `buf` is the receive buffer, which no
step writes, and `src_mac` is not used. The buffered packet is framed in place
inside the pending store and the entry is deleted right after. -/
def arp_in (s : Net) (buf : buf_t) : Net :=
  if buf.len < sizeof_arp_pkt_t then s
  else if !arp_hdr_ok buf then s
  else
    let sender_mac := buf.read 8 NET_MAC_LEN
    let sender_ip := buf.read 14 NET_IP_LEN
    let s := { s with arp_table := map_set s.arp_table sender_ip sender_mac s.time }
    let s :=
      match map_get s.arp_buf sender_ip s.time with
      | some arp_buf_pkt =>
        let b := ethernet_out_buf s.net_if_mac arp_buf_pkt sender_mac NET_PROTOCOL_IP
        let s := driver_send s b
        { s with arp_buf := map_delete s.arp_buf sender_ip }
      | none => s
    if buf.get16 6 = swap16 ARP_REQUEST ∧ buf.read 24 NET_IP_LEN = s.net_if_ip then
      arp_resp s sender_ip sender_mac
    else s

/-- The function `arp_out(buf, ip)`. -/
def arp_out (s : Net) (buf : buf_ref) (ip : List Nat) : Net :=
  match map_get s.arp_table ip s.time with
  | some target_mac => ethernet_out s buf target_mac NET_PROTOCOL_IP
  | none =>
    match map_get s.arp_buf ip s.time with
    | none =>
      let s := { s with arp_buf := map_set s.arp_buf ip (buf_copy (s.get buf)) s.time }
      arp_req s ip
    | some _ => s

/-! ## ip.c : output path -/

/-- The steps 1 to 3 of `ip_fragment_out` on the buffer pointed to. The two
bit-fields `version` and `hdr_len` share byte 0 (high and low nibble). -/
def ip_fragment_out_buf (net_if_ip : List Nat) (buf : buf_t) (ip : List Nat)
    (protocol id offset mf : Nat) : buf_t :=
  let b := buf_add_header buf sizeof_ip_hdr_t
  let b := b.set8 0 (b.get8 0 % 16 + 16 * IP_VERSION_4)
  let b := b.set8 0 (b.get8 0 / 16 * 16 + sizeof_ip_hdr_t / IP_HDR_LEN_PER_BYTE)
  let b := b.set8 1 0
  let b := b.set16 2 (swap16 b.len)
  let b := b.set16 4 (swap16 id)
  let b := if mf ≠ 0 then b.set16 6 (swap16 (IP_MORE_FRAGMENT ||| offset))
    else b.set16 6 (swap16 offset)
  let b := b.set8 8 IP_DEFALUT_TTL
  let b := b.set8 9 protocol
  let b := b.set16 10 0
  let b := b.write 12 net_if_ip
  let b := b.write 16 ip
  b.set16 10 (checksum16 (b.read 0 sizeof_ip_hdr_t))

/-- The function `ip_fragment_out(buf, ip, protocol, id, offset, mf)`. -/
def ip_fragment_out (s : Net) (buf : buf_ref) (ip : List Nat) (protocol id offset mf : Nat) :
    Net :=
  let s := s.emit (Event.ip_fragment_out (s.get buf).bytes ip protocol id offset mf)
  let b := ip_fragment_out_buf s.net_if_ip (s.get buf) ip protocol id offset mf
  arp_out (s.set buf b) buf ip

/-- The constant `data_max_len` of `ip_out`. -/
def data_max_len : Nat := ETHERNET_MAX_TRANSPORT_UNIT - sizeof_ip_hdr_t

/-- The loop `while (buf->len > data_max_len)` of `ip_out`, returning the state
and `current_offset` (a `uint16_t`). Every iteration leaves `buf->len`
smaller, so `fuel = buf->len` iterations are enough. -/
def ip_out_loop : Nat → Net → buf_ref → List Nat → Nat → Nat → Net × Nat
  | 0, s, _, _, _, current_offset => (s, current_offset)
  | fuel + 1, s, buf, ip, protocol, current_offset =>
    if (s.get buf).len > data_max_len then
      let ip_buf := buf_init s.ip_buf data_max_len
      let ip_buf := ip_buf.write 0 ((s.get buf).read 0 data_max_len)
      let s := { s with ip_buf := ip_buf }
      let s := s.set buf (buf_remove_header (s.get buf) data_max_len)
      let s := ip_fragment_out s .ip_buf ip protocol s.ip_id
        (current_offset / IP_HDR_OFFSET_PER_BYTE) 1
      ip_out_loop fuel s buf ip protocol ((current_offset + data_max_len) % 2 ^ 16)
    else (s, current_offset)

/-- The function `ip_out(buf, ip, protocol)`. -/
def ip_out (s : Net) (buf : buf_ref) (ip : List Nat) (protocol : Nat) : Net :=
  let s := s.emit (Event.ip_out (s.get buf).bytes ip protocol)
  if (s.get buf).len ≤ data_max_len then
    let id := s.ip_id
    let s := { s with ip_id := (s.ip_id + 1) % 2 ^ 16 }
    ip_fragment_out s buf ip protocol id 0 0
  else
    let (s, current_offset) := ip_out_loop (s.get buf).len s buf ip protocol 0
    let ip_buf := buf_init s.ip_buf (s.get buf).len
    let ip_buf := ip_buf.write 0 ((s.get buf).read 0 (s.get buf).len)
    let s := { s with ip_buf := ip_buf }
    let s := s.set buf (buf_remove_header (s.get buf) (s.get buf).len)
    let id := s.ip_id
    let s := { s with ip_id := (s.ip_id + 1) % 2 ^ 16 }
    ip_fragment_out s .ip_buf ip protocol id (current_offset / IP_HDR_OFFSET_PER_BYTE) 0

/-! ## icmp.c -/

/-- The steps 1 and 2 of `icmp_resp` on `txbuf`. -/
def icmp_resp_buf (txbuf req_buf : buf_t) : buf_t :=
  let tx := buf_init txbuf req_buf.len
  let tx := tx.write 0 (req_buf.read 0 req_buf.len)
  let tx := tx.set8 0 ICMP_TYPE_ECHO_REPLY
  let tx := tx.set8 1 0
  let tx := tx.set16 2 0
  let tx := tx.set16 4 (req_buf.get16 4)
  let tx := tx.set16 6 (req_buf.get16 6)
  tx.set16 2 (checksum16 (tx.read 0 tx.len))

/-- The function `icmp_resp(req_buf, src_ip)`; `req_buf` is the receive buffer. -/
def icmp_resp (s : Net) (req_buf : buf_t) (src_ip : List Nat) : Net :=
  ip_out { s with txbuf := icmp_resp_buf s.txbuf req_buf } .txbuf src_ip NET_PROTOCOL_ICMP

/-- The function `icmp_in(buf, src_ip)`. -/
def icmp_in (s : Net) (buf : buf_t) (src_ip : List Nat) : Net :=
  if buf.len < sizeof_icmp_hdr_t then s
  else if buf.get8 0 = ICMP_TYPE_ECHO_REQUEST ∧ buf.get8 1 = 0 then icmp_resp s buf src_ip
  else s

/-- The steps 1 to 3 of `icmp_unreachable` on `txbuf`. The copy takes
`sizeof(ip_hdr_t) + 8` bytes from `recv_buf->data` whatever `recv_buf->len`
is. -/
def icmp_unreachable_buf (txbuf recv_buf : buf_t) (code : Nat) : buf_t :=
  let tx := buf_init txbuf (sizeof_ip_hdr_t + 8)
  let tx := tx.write 0 (recv_buf.read 0 (sizeof_ip_hdr_t + 8))
  let tx := buf_add_header tx sizeof_icmp_hdr_t
  let tx := tx.set8 0 ICMP_TYPE_UNREACH
  let tx := tx.set8 1 code
  let tx := tx.set16 2 0
  let tx := tx.set16 4 0
  let tx := tx.set16 6 0
  tx.set16 2 (checksum16 (tx.read 0 tx.len))

/-- The function `icmp_unreachable(recv_buf, src_ip, code)`; `recv_buf` is the
receive buffer. -/
def icmp_unreachable (s : Net) (recv_buf : buf_t) (src_ip : List Nat) (code : Nat) : Net :=
  ip_out { s with txbuf := icmp_unreachable_buf s.txbuf recv_buf code } .txbuf src_ip
    NET_PROTOCOL_ICMP

/-! ## udp.c -/

/-- The function `udp_in(buf, src_ip)`; `buf` is the receive buffer and
`src_ip` may point into it. The zeroed checksum field is not written back. -/
def udp_in (s : Net) (buf : buf_t) (src_ip : addr_ptr) : Net :=
  let hdr := buf.data
  if buf.len < sizeof_udp_hdr_t ∨ buf.len < swap16 (buf.get16 4) then s
  else
    let checksum16 := buf.get16 6
    let buf := buf.set16 6 0
    let (checksum, buf) := transport_checksum NET_PROTOCOL_UDP buf src_ip (.val s.net_if_ip)
    if checksum16 ≠ checksum then s
    else
      let dst_port16 := swap16 (load16 buf.payload (hdr + 2))
      match map_get s.udp_table dst_port16 s.time with
      | none =>
        let buf := buf_add_header buf sizeof_ip_hdr_t
        icmp_unreachable s buf (src_ip.deref buf NET_IP_LEN) ICMP_CODE_PORT_UNREACH
      | some handler =>
        let buf := buf_remove_header buf sizeof_udp_hdr_t
        s.emit (Event.udp_handler handler buf.bytes buf.len (src_ip.deref buf NET_IP_LEN)
          (swap16 (load16 buf.payload hdr)))

/-- The steps 1 to 3 of `udp_out` on the buffer pointed to. -/
def udp_out_buf (net_if_ip : List Nat) (buf : buf_t) (src_port : Nat) (dst_ip : List Nat)
    (dst_port : Nat) : buf_t :=
  let b := buf_add_header buf sizeof_udp_hdr_t
  let b := b.set16 0 (swap16 src_port)
  let b := b.set16 2 (swap16 dst_port)
  let b := b.set16 4 (swap16 b.len)
  let b := b.set16 6 0
  let (checksum, b) := transport_checksum NET_PROTOCOL_UDP b (.val net_if_ip) (.val dst_ip)
  b.set16 6 checksum

/-- The function `udp_out(buf, src_port, dst_ip, dst_port)`. -/
def udp_out (s : Net) (buf : buf_ref) (src_port : Nat) (dst_ip : List Nat) (dst_port : Nat) :
    Net :=
  let b := udp_out_buf s.net_if_ip (s.get buf) src_port dst_ip dst_port
  ip_out (s.set buf b) buf dst_ip NET_PROTOCOL_UDP

/-- The function `udp_open(port, handler)`. -/
def udp_open (s : Net) (port handler : Nat) : Net :=
  { s with udp_table := map_set s.udp_table port handler s.time }

/-- The function `udp_close(port)`. -/
def udp_close (s : Net) (port : Nat) : Net :=
  { s with udp_table := map_delete s.udp_table port }

/-- The function `udp_send(data, len, src_port, dst_ip, dst_port)`; `len` is the
length of `data`. -/
def udp_send (s : Net) (data : List Nat) (src_port : Nat) (dst_ip : List Nat)
    (dst_port : Nat) : Net :=
  let tx := buf_init s.txbuf data.length
  let tx := tx.write 0 data
  udp_out { s with txbuf := tx } .txbuf src_port dst_ip dst_port

/-! ## ip.c : input path -/

/-- Modelled from the spec: `net_in` of the missing `net.c`, the dispatch of the
protocol registry: the handler registered for the protocol number is run on
the buffer and the result is `0`; the result is `-1` when there is none. A
handler outside this repository is recorded only. -/
def net_in (s : Net) (buf : buf_t) (protocol : Nat) (src : addr_ptr) : Net × Int :=
  let s := s.emit (Event.net_in buf.bytes protocol (src.deref buf NET_IP_LEN))
  match s.net_table.lookup protocol with
  | none => (s, -1)
  | some .icmp_in => (icmp_in s buf (src.deref buf NET_IP_LEN), 0)
  | some .udp_in => (udp_in s buf src, 0)
  | some (.external _) => (s, 0)

/-- The validation steps 1 to 4 of `ip_in`: the buffer after them (the checksum
field written back) when the datagram is accepted, `none` when it is dropped. -/
def ip_in_check (net_if_ip : List Nat) (buf : buf_t) : Option buf_t :=
  if buf.len < sizeof_ip_hdr_t then none
  else if buf.get8 0 / 16 ≠ IP_VERSION_4 ∨ swap16 (buf.get16 2) > buf.len ∨
      buf.get8 0 % 16 < sizeof_ip_hdr_t / IP_HDR_LEN_PER_BYTE then none
  else
    let hdr_checksum := buf.get16 10
    let buf := buf.set16 10 0
    if hdr_checksum ≠ checksum16 (buf.read 0 (buf.get8 0 % 16 * IP_HDR_LEN_PER_BYTE)) then none
    else
      let buf := buf.set16 10 hdr_checksum
      if buf.read 16 NET_IP_LEN ≠ net_if_ip then none
      else some buf

/-- The function `ip_in(buf, src_mac)`; `buf` is the receive buffer and
`src_mac` is not used. `hdr` keeps pointing at the header after its removal. -/
def ip_in (s : Net) (buf : buf_t) : Net :=
  match ip_in_check s.net_if_ip buf with
  | none => s
  | some buf =>
    let hdr := buf.data
    let hdr_len := load8 buf.payload hdr % 16
    let buf := if swap16 (buf.get16 2) < buf.len then
        buf_remove_padding buf (buf.len - swap16 (buf.get16 2)) else buf
    let buf := buf_remove_header buf (hdr_len * IP_HDR_LEN_PER_BYTE)
    let (s, r) := net_in s buf (load8 buf.payload (hdr + 9)) (.own (hdr + 12))
    if r ≠ 0 then
      let buf := buf_add_header buf (hdr_len * IP_HDR_LEN_PER_BYTE)
      icmp_unreachable s buf (mem_read buf.payload (hdr + 12) NET_IP_LEN)
        ICMP_CODE_PROTOCOL_UNREACH
    else s

/-! ## Predicates used by the statements -/

/-- The later state has the events of the earlier one and possibly more. -/
def Net.extends (s' s : Net) : Prop :=
  ∃ es, s'.events = s.events ++ es

/-- The conditions under which an inbound buffer is a datagram for this host,
in the words of the specification: length at least 20, version 4, total length
(big-endian) at most the buffer length, header length at least 5 words, the
stored header checksum equal to `checksum16` of the header region with the
checksum field zeroed, destination IP equal to the local IP. -/
def ip_in_accepts (net_if_ip : List Nat) (buf : buf_t) : Prop :=
  20 ≤ buf.len ∧ buf.get8 0 / 16 = 4 ∧ swap16 (buf.get16 2) ≤ buf.len ∧
    5 ≤ buf.get8 0 % 16 ∧
    buf.get16 10 = checksum16 ((buf.set16 10 0).read 0 (4 * (buf.get8 0 % 16))) ∧
    buf.read 16 4 = net_if_ip

instance (net_if_ip : List Nat) (buf : buf_t) : Decidable (ip_in_accepts net_if_ip buf) := by
  unfold ip_in_accepts; infer_instance

/-- The eight bytes of a UDP header on the wire: ports and length big-endian,
the checksum as `checksum16` returns it, stored natively. -/
def udp_hdr_bytes (src_port dst_port len checksum : Nat) : List Nat :=
  [src_port / 256 % 256, src_port % 256, dst_port / 256 % 256, dst_port % 256,
    len / 256 % 256, len % 256, checksum % 256, checksum / 256 % 256]

/-- The checksum of a transport segment under its pseudo-header: `checksum16`
of source, destination, zero, protocol, big-endian segment length, the
segment, and one zero byte if the segment length is odd. -/
def pseudo_checksum (protocol : Nat) (src dst seg : List Nat) : Nat :=
  checksum16 (src ++ dst ++ [0, protocol % 256, seg.length / 256 % 256, seg.length % 256] ++
    seg ++ List.replicate (seg.length % 2) 0)

/-- The twenty bytes of an IPv4 header without options on the wire: version 4
and header length 5, type of service 0, total length, identification and
flags/fragment field big-endian, the default TTL, the protocol, the checksum
as `checksum16` returns it, stored natively, and the two addresses. -/
def ip_hdr_bytes (total_len id flags_fragment protocol checksum : Nat) (src dst : List Nat) :
    List Nat :=
  [0x45, 0, total_len / 256 % 256, total_len % 256, id / 256 % 256, id % 256,
    flags_fragment / 256 % 256, flags_fragment % 256, IP_DEFALUT_TTL, protocol % 256,
    checksum % 256, checksum / 256 % 256] ++ src ++ dst

/-- The UDP segment which `udp_send` builds in the shared transmit buffer. -/
def udp_send_segment (s : Net) (data : List Nat) (src_port : Nat) (dst_ip : List Nat)
    (dst_port : Nat) : buf_t :=
  udp_out_buf s.net_if_ip ((buf_init s.txbuf data.length).write 0 data) src_port dst_ip dst_port

/-- The IP datagram which `udp_send` builds in the shared transmit buffer when
the segment fits one datagram. -/
def udp_send_datagram (s : Net) (data : List Nat) (src_port : Nat) (dst_ip : List Nat)
    (dst_port : Nat) : buf_t :=
  ip_fragment_out_buf s.net_if_ip (udp_send_segment s data src_port dst_ip dst_port) dst_ip
    NET_PROTOCOL_UDP s.ip_id 0 0

/-! ## Example states -/

/-- An empty buffer with storage of `cap` bytes, all holding `fill`. -/
def example_buf (cap fill : Nat) : buf_t :=
  { len := 0, data := 0, payload := List.replicate cap fill }

/-- The host A of the end-to-end scenario: IP 10.0.0.2, MAC 00-00-00-00-00-02,
empty ARP table (time-to-live 60), empty pending store (time-to-live 1), no
open port, ICMP and UDP registered; the buffers have a capacity of 256 bytes.
The clock reads 1000. -/
def host_a : Net :=
  { net_if_mac := [0, 0, 0, 0, 0, 2], net_if_ip := [10, 0, 0, 2],
    txbuf := example_buf 256 0xaa, ip_buf := example_buf 256 0xbb,
    ext := example_buf 256 0xcc,
    arp_table := { timeout := 60, entries := [] },
    arp_buf := { timeout := 1, entries := [] },
    udp_table := { timeout := 0, entries := [] },
    net_table := [(NET_PROTOCOL_ICMP, .icmp_in), (NET_PROTOCOL_UDP, .udp_in)],
    ip_id := 0, time := 1000, events := [] }

/-- An IPv4 datagram of 32 bytes (UDP "ping" from 10.0.0.2 port 1234 to
10.0.0.3 port 80) as `ip_fragment_out` leaves it in a buffer of 256 bytes. -/
def example_datagram : buf_t :=
  { len := 32, data := 96,
    payload := List.replicate 96 0 ++
      [69, 0, 0, 32, 0, 0, 0, 0, 64, 17, 102, 201, 10, 0, 0, 2, 10, 0, 0, 3,
        4, 210, 0, 80, 0, 12, 7, 223, 112, 105, 110, 103] ++ List.replicate 128 0 }

/-- Host A with the example datagram pending for 10.0.0.3 since the clock
read 1000. -/
def host_a_pending : Net :=
  { host_a with arp_buf := { timeout := 1, entries := [([10, 0, 0, 3], example_datagram, 1000)] } }

/-- A received ARP packet (28 bytes and 18 bytes of link padding) from
10.0.0.3 at 00-00-00-00-00-03 with the given opcode, for target 10.0.0.2 at
00-00-00-00-00-02, in a receive buffer after the Ethernet header. -/
def example_arp (opcode : Nat) : buf_t :=
  { len := 46, data := 14,
    payload := [0, 0, 0, 0, 0, 2, 0, 0, 0, 0, 0, 3, 8, 6] ++
      [0, 1, 8, 0, 6, 4, 0, opcode, 0, 0, 0, 0, 0, 3, 10, 0, 0, 3,
        0, 0, 0, 0, 0, 2, 10, 0, 0, 2] ++ List.replicate 18 0 ++ List.replicate 40 0 }

/-- A receive buffer holding a frame from 00-00-00-00-00-03 to
00-00-00-00-00-02 of ethertype IPv4 after `ethernet_in` has removed the
Ethernet header: the datagram, link padding up to 46 bytes (bytes `pad`), and
32 more bytes of storage (bytes 0xdd). -/
def example_rx (dgram : List Nat) (pad : Nat) : buf_t :=
  { len := max dgram.length 46, data := 14,
    payload := [0, 0, 0, 0, 0, 2, 0, 0, 0, 0, 0, 3, 8, 0] ++ dgram ++
      List.replicate (46 - dgram.length) pad ++ List.replicate 32 0xdd }

/-- A datagram from 10.0.0.3 to 10.0.0.2 with protocol 6, which has no
handler on host A, and 12 bytes of payload. -/
def example_unknown_protocol : List Nat :=
  [69, 0, 0, 32, 0, 7, 0, 0, 64, 6, 102, 205, 10, 0, 0, 3, 10, 0, 0, 2,
    1, 2, 3, 4, 5, 6, 7, 8, 9, 10, 11, 12]

/-- A datagram from 10.0.0.3 to 10.0.0.2 with protocol 6, which has no
handler on host A, and 4 bytes of payload. -/
def example_unknown_protocol_short : List Nat :=
  [69, 0, 0, 24, 0, 7, 0, 0, 64, 6, 102, 213, 10, 0, 0, 3, 10, 0, 0, 2, 1, 2, 3, 4]

/-- A datagram from 10.0.0.3 to 10.0.0.2 carrying the UDP datagram "ping"
from port 80 to port 1234, with UDP checksum 0x07df. -/
def example_udp : List Nat :=
  [69, 0, 0, 32, 0, 7, 0, 0, 64, 17, 102, 194, 10, 0, 0, 3, 10, 0, 0, 2,
    0, 80, 4, 210, 0, 12, 7, 223, 112, 105, 110, 103]

/-- The calls of `ip_out` among the events: message, destination, protocol. -/
def ip_out_calls : List Event → List (List Nat × List Nat × Nat)
  | [] => []
  | Event.ip_out p ip protocol :: es => (p, ip, protocol) :: ip_out_calls es
  | _ :: es => ip_out_calls es

/-- The calls of `ip_fragment_out` among the events: payload, id, offset, mf. -/
def fragment_calls : List Event → List (List Nat × Nat × Nat × Nat)
  | [] => []
  | Event.ip_fragment_out p _ _ id off mf :: es => (p, id, off, mf) :: fragment_calls es
  | _ :: es => fragment_calls es

/-- The invocations of UDP handlers among the events. -/
def handler_calls : List Event → List (Nat × List Nat × Nat × List Nat × Nat)
  | [] => []
  | Event.udp_handler h data len src_ip src_port :: es =>
    (h, data, len, src_ip, src_port) :: handler_calls es
  | _ :: es => handler_calls es

/-- The buffer which `ip_in` hands to `udp_in` for the example UDP datagram:
the IP header removed, the link padding bytes `pad` cut off. The source
address still lies in the storage at position 26. -/
def example_udp_rx (pad : Nat) : buf_t :=
  { len := 12, data := 34, payload := (example_rx example_udp pad).payload }

/-- Host A with a payload of 2961 bytes, each byte 7, in the shared transmit
buffer (storage of 2961 bytes) and a local buffer of `ip_out` with storage of
3040 bytes; ARP table and pending store are empty. -/
def host_a_large : Net :=
  { host_a with
    txbuf := { len := 2961, data := 0, payload := List.replicate 2961 7 },
    ip_buf := example_buf 3040 0xbb }

/-- Host A with the same payload of 2961 bytes in a buffer of the caller
instead of the shared transmit buffer. -/
def host_a_large_ext : Net :=
  { host_a with
    ext := { len := 2961, data := 0, payload := List.replicate 2961 7 },
    ip_buf := example_buf 3040 0xbb }

/-- Host B of the end-to-end scenario: IP 10.0.0.3, MAC 00-00-00-00-00-03. -/
def host_b : Net :=
  { host_a with net_if_mac := [0, 0, 0, 0, 0, 3], net_if_ip := [10, 0, 0, 3] }

/-- Host A with the payload "ping" in the shared transmit buffer, as
`udp_send` leaves it before the call of `udp_out`. -/
def host_a_ping : Net :=
  { host_a with txbuf := (buf_init host_a.txbuf 4).write 0 [112, 105, 110, 103] }

/-- A receive buffer of host B holding the UDP datagram "ping" from
10.0.0.2 port 1234 to 10.0.0.3 port 80 after the removal of the Ethernet and
IP headers. -/
def example_segment_rx : buf_t :=
  { len := 12, data := 34,
    payload := [0, 0, 0, 0, 0, 3, 0, 0, 0, 0, 0, 2, 8, 0] ++
      [69, 0, 0, 32, 0, 0, 0, 0, 64, 17, 102, 201, 10, 0, 0, 2, 10, 0, 0, 3] ++
      [4, 210, 0, 80, 0, 12, 7, 223, 112, 105, 110, 103] ++ List.replicate 46 0 }

/-! ## Reference Internet checksum (RFC 1071 wording of the spec) -/

/-- The big-endian 16-bit words of a byte region, a trailing odd byte padded by
a zero low byte. -/
def be_words : List Nat → List Nat
  | b0 :: b1 :: rest => (256 * b0 + b1) :: be_words rest
  | [b0] => [256 * b0]
  | [] => []

/-- End-around-carry (one's-complement) addition of two 16-bit values: the
carry out of bit 15 is added back into the low 16 bits. -/
def oc_add (a b : Nat) : Nat :=
  (a + b) % 65536 + (a + b) / 65536

/-- The reference Internet checksum of a region, in the words of the spec: the
bit-complement of the end-around-carry sum of the region read as big-endian
16-bit words. -/
def inet_checksum (data : List Nat) : Nat :=
  0xffff - (be_words data).foldl oc_add 0

/-- The values which the `uint32_t` accumulator of `checksum16` would take in
steps 1 and 2 if the additions `sum += *data++` and `sum += *(uint8_t *)data`
were not truncated, in the order of the additions; the loop is that of
`checksum16_loop`. -/
def checksum16_sums : List Nat → Nat → List Nat
  | b0 :: b1 :: rest, sum =>
    let sum1 := (sum + (b0 + 256 * b1)) % 2 ^ 32
    (sum + (b0 + 256 * b1)) :: checksum16_sums rest (fold_carry sum1 sum1)
  | [b0], sum => [sum + b0]
  | [], _ => []

/-- The validity of an inbound ARP packet, in the words of the specification:
length at least 28, hardware type 1, protocol type 0x0800, hardware length 6,
protocol length 4, opcode REQUEST or REPLY; the 16-bit fields are big-endian on
the wire. -/
def arp_in_valid (buf : buf_t) : Prop :=
  28 ≤ buf.len ∧ swap16 (buf.get16 0) = 1 ∧ swap16 (buf.get16 2) = 0x0800 ∧
    buf.get8 4 = 6 ∧ buf.get8 5 = 4 ∧
    (swap16 (buf.get16 6) = 1 ∨ swap16 (buf.get16 6) = 2)

instance (buf : buf_t) : Decidable (arp_in_valid buf) := by
  unfold arp_in_valid; infer_instance

/-- An inbound ARP packet is a REQUEST for the local IP. -/
def arp_in_request_for (net_if_ip : List Nat) (buf : buf_t) : Prop :=
  swap16 (buf.get16 6) = 1 ∧ buf.read 24 4 = net_if_ip

instance (net_if_ip : List Nat) (buf : buf_t) : Decidable (arp_in_request_for net_if_ip buf) := by
  unfold arp_in_request_for; infer_instance

/-- A frame is an ARP reply: ethertype 0x0806 and ARP opcode 2. -/
def is_arp_reply (frame : List Nat) : Prop :=
  mem_read frame 12 2 = [0x08, 0x06] ∧ mem_read frame 20 2 = [0x00, 0x02]

instance (frame : List Nat) : Decidable (is_arp_reply frame) := by
  unfold is_arp_reply; infer_instance

/-- The ARP reply frame to a requester: unicast to the requester, ethertype
0x0806, opcode 2, the local addresses as sender, the requester's as target,
zero-padded to the minimum frame length. -/
def arp_reply_frame (net_if_mac net_if_ip sender_mac sender_ip : List Nat) : List Nat :=
  sender_mac ++ net_if_mac ++ [0x08, 0x06] ++
    ([0x00, 0x01, 0x08, 0x00, 6, 4, 0x00, 0x02] ++ net_if_mac ++ net_if_ip ++
      sender_mac ++ sender_ip) ++ List.replicate 18 0

/-- A transport segment of the odd length 13 in the receive buffer of the
example UDP datagram: the segment of `example_udp_rx` and one byte more. -/
def example_odd_segment : buf_t :=
  { len := 13, data := 34, payload := (example_rx example_udp 0xee).payload }

/-- The Echo-Reply to an Echo-Request message, in the words of the
specification: type 0 and code 0, identifier, sequence and data as in the
request, and the checksum of the whole message in the checksum field (as
`checksum16` returns it, stored natively). -/
def icmp_echo_reply_msg (req : List Nat) : List Nat :=
  store16 ([0, 0, 0, 0] ++ req.drop 4) 2 (checksum16 ([0, 0, 0, 0] ++ req.drop 4))

/-- A receive buffer of host A holding an ICMP Echo-Request (identifier 1,
sequence 1, data "abcd") from 10.0.0.3, after the removal of the Ethernet and
IP headers, the link padding cut off. -/
def example_echo_request : buf_t :=
  { len := 12, data := 34,
    payload := [0, 0, 0, 0, 0, 2, 0, 0, 0, 0, 0, 3, 8, 0] ++
      [69, 0, 0, 32, 0, 7, 0, 0, 64, 1, 102, 210, 10, 0, 0, 3, 10, 0, 0, 2] ++
      [8, 0, 0x33, 0x37, 0, 1, 0, 1, 97, 98, 99, 100] ++ List.replicate 46 0 }

/-- A receive buffer of host B holding what host A builds from the payload
"ping" with `ip_fragment_out` for 10.0.0.3, protocol 17, id 7, offset 185 and
the more-fragments flag set: a datagram of 24 bytes, and 22 bytes of link
padding `ee`. -/
def example_fragment_rx : buf_t :=
  example_rx (ip_fragment_out_buf host_a_ping.net_if_ip (host_a_ping.get .txbuf)
    host_b.net_if_ip 17 7 185 1).bytes 0xee

/-- The datagram in `buf` with the flags/fragment field set to `ff` (written
big-endian) and the header checksum recomputed over the header region. -/
def with_fragment_field (buf : buf_t) (ff : Nat) : buf_t :=
  let b := buf.set16 6 (swap16 ff)
  let b := b.set16 10 0
  b.set16 10 (checksum16 (b.read 0 (4 * (b.get8 0 % 16))))

/-- A datagram of 20 bytes from 10.0.0.3 to 10.0.0.2 whose header-length field
says 15 words (60 bytes) while its total length says 20; the checksum field
holds `checksum16` of the 60 bytes which start at the header when the datagram
lies in `example_rx` with link padding `ee`. -/
def example_long_header : List Nat :=
  [0x4f, 0, 0, 20, 0, 7, 0, 0, 64, 6, 41, 166, 10, 0, 0, 3, 10, 0, 0, 2]

/-- A datagram of 20 bytes from 10.0.0.3 to 10.0.0.2 whose header-length field
says 6 words (24 bytes) while its total length says 20; the checksum field
holds `checksum16` of the header and the four bytes `ee` of link padding that
follow it. -/
def example_header_over_total : List Nat :=
  [0x46, 0, 0, 20, 0, 7, 0, 0, 64, 6, 135, 251, 10, 0, 0, 3, 10, 0, 0, 2]

/-- An address argument points to four readable bytes: four bytes given by
value, or four bytes inside a storage of `cap` bytes. -/
def addr_ptr.readable (p : addr_ptr) (cap : Nat) : Prop :=
  match p with
  | .val bytes => bytes.length = 4
  | .own pos => pos + 4 ≤ cap

instance (p : addr_ptr) (cap : Nat) : Decidable (p.readable cap) := by
  cases p <;> unfold addr_ptr.readable <;> infer_instance

/-- A buffer of 25 bytes of storage whose segment of the odd length 13 ends at
the last byte of the storage; 12 bytes `bb` of head-room lie before it. -/
def example_tight_segment : buf_t :=
  { len := 13, data := 12,
    payload := List.replicate 12 0xbb ++ [1, 2, 3, 4, 5, 6, 7, 8, 9, 10, 11, 12, 13] }

/-! ## Theorems: checksum arithmetic -/

theorem shr16_eq (s : Nat) : s >>> 16 = s / 65536 := by
  rw [Nat.shiftRight_eq_div_pow]

theorem and_ffff_eq (s : Nat) : s &&& 0xffff = s % 65536 := by
  have h := Nat.and_pow_two_sub_one_eq_mod s 16
  simpa using h

theorem fold_carry_small (fuel s : Nat) (h : s < 65536) : fold_carry fuel s = s := by
  cases fuel with
  | zero => rfl
  | succ n =>
    have : s / 65536 = 0 := Nat.div_eq_of_lt h
    simp [fold_carry, shr16_eq, this]

theorem fold_carry_eq_ocfold (fuel s : Nat) (hf : 1 ≤ fuel) (h : s ≤ 131070) :
    fold_carry fuel s = ocfold s := by
  by_cases hs : s < 65536
  · rw [fold_carry_small fuel s hs]; unfold ocfold; split <;> omega
  · obtain ⟨n, rfl⟩ : ∃ n, fuel = n + 1 := ⟨fuel - 1, by omega⟩
    have h1 : s / 65536 = 1 := by omega
    have h2 : (s / 65536 + s % 65536) % 2 ^ 32 = s - 65535 := by omega
    rw [fold_carry]
    simp only [shr16_eq, and_ffff_eq, h2]
    rw [if_pos (by omega), fold_carry_small n _ (by omega)]
    unfold ocfold; split <;> omega

theorem fold_carry_exit (s : Nat) (h : s < 2 ^ 32) : fold_carry s s < 65536 := by
  by_cases h1 : s < 65536
  · rw [fold_carry_small s s h1]; exact h1
  · obtain ⟨n, hn⟩ : ∃ n, s = n + 1 := ⟨s - 1, by omega⟩
    have e1 : fold_carry s s = fold_carry n ((s / 65536 + s % 65536) % 2 ^ 32) := by
      conv_lhs => rw [hn, fold_carry]
      rw [← hn]
      simp only [shr16_eq, and_ffff_eq]
      rw [if_pos (by omega)]
    rw [e1]
    have hc : s / 65536 ≤ 65535 := by omega
    have hm : s % 65536 ≤ 65535 := by omega
    have hc1 : 1 ≤ s / 65536 := by omega
    have hd : s = 65536 * (s / 65536) + s % 65536 := (Nat.div_add_mod s 65536).symm
    have hx : s / 65536 + s % 65536 ≤ 131070 := by omega
    have hy : (s / 65536 + s % 65536) % 2 ^ 32 = s / 65536 + s % 65536 :=
      Nat.mod_eq_of_lt (by omega)
    have h3 : (s / 65536 + s % 65536) % 2 ^ 32 ≤ 131070 := by rw [hy]; exact hx
    have h4 : (s / 65536 + s % 65536) % 2 ^ 32 < s := by rw [hy]; omega
    by_cases h5 : (s / 65536 + s % 65536) % 2 ^ 32 < 65536
    · rw [fold_carry_small _ _ h5]; exact h5
    · rw [fold_carry_eq_ocfold n _ (by omega) h3]
      unfold ocfold; split <;> omega

theorem ocfold_le (t : Nat) : ocfold t ≤ 65535 := by
  unfold ocfold; split <;> omega

theorem ocfold_add (a b : Nat) : ocfold (ocfold a + b) = ocfold (a + b) := by
  unfold ocfold; split <;> split <;> split <;> omega

theorem ocfold_id (s : Nat) (h : s ≤ 65535) : ocfold s = s := by
  unfold ocfold; split <;> omega

theorem checksum16_loop_spec (data : List Nat) :
    ∀ s, IsBytes data → s ≤ 65535 →
      checksum16_loop data s ≤ 131070 ∧
      ocfold (checksum16_loop data s) = ocfold (s + wsum data) := by
  induction data using wsum.induct with
  | case1 b0 b1 rest ih =>
    intro s hb hs
    have h0 : b0 < 256 := hb b0 (by simp)
    have h1 : b1 < 256 := hb b1 (by simp)
    have hr : IsBytes rest := fun b hm => hb b (by simp [hm])
    have e : (s + (b0 + 256 * b1)) % 2 ^ 32 = s + (b0 + 256 * b1) := by omega
    simp only [checksum16_loop, wsum, e]
    by_cases hz : s + (b0 + 256 * b1) = 0
    · have := ih 0 hr (by omega)
      have e2 : s + (b0 + 256 * b1 + wsum rest) = 0 + wsum rest := by omega
      rw [hz, e2]
      simpa [fold_carry] using this
    · rw [fold_carry_eq_ocfold _ _ (by omega) (by omega)]
      have := ih (ocfold (s + (b0 + 256 * b1))) hr (ocfold_le _)
      refine ⟨this.1, ?_⟩
      rw [this.2, ocfold_add]
      congr 1; omega
  | case2 b0 =>
    intro s hb hs
    have h0 : b0 < 256 := hb b0 (by simp)
    have e : (s + b0) % 2 ^ 32 = s + b0 := by omega
    simp only [checksum16_loop, wsum, e]
    exact ⟨by omega, trivial⟩
  | case3 =>
    intro s _ hs
    simp only [checksum16_loop, wsum, Nat.add_zero]
    exact ⟨by omega, trivial⟩

theorem checksum16_eq (data : List Nat) (hb : IsBytes data) :
    checksum16 data = 65535 - ocfold (wsum data) := by
  have h := checksum16_loop_spec data 0 hb (by omega)
  unfold checksum16
  simp only []
  by_cases hz : checksum16_loop data 0 = 0
  · have h2 := h.2
    rw [hz] at h2 ⊢
    simp only [Nat.zero_add] at h2
    rw [← h2]
    simp [fold_carry, ocfold]
  · rw [fold_carry_eq_ocfold _ _ (by omega) h.1, h.2, Nat.zero_add]
    have := ocfold_le (wsum data)
    omega

/-! ## Theorems: stores into a region and claim C1 -/

theorem store16_zero (a b : Nat) (rest : List Nat) (v : Nat) :
    store16 (a :: b :: rest) 0 v = (v % 256) :: (v / 256 % 256) :: rest := by
  simp [store16, mem_write]

theorem store16_succ2 (a b : Nat) (rest : List Nat) (k v : Nat) :
    store16 (a :: b :: rest) (k + 2) v = a :: b :: store16 rest k v := by
  simp [store16, mem_write, List.take_succ_cons, show k + 2 + 2 = (k + 2) + 1 + 1 by omega]

theorem mem_write_length (mem : List Nat) (pos : Nat) (vals : List Nat) :
    (mem_write mem pos vals).length = mem.length := by
  unfold mem_write
  rw [List.length_append, List.length_append, List.length_take, List.length_take,
    List.length_drop]
  omega

theorem mem_write_eq (mem : List Nat) (pos : Nat) (vals : List Nat)
    (h : pos + vals.length ≤ mem.length) :
    mem_write mem pos vals = mem.take pos ++ vals ++ mem.drop (pos + vals.length) := by
  unfold mem_write
  have e : vals.take (mem.length - pos) = vals := List.take_of_length_le (by omega)
  rw [e]

theorem store16_length (mem : List Nat) (k v : Nat) :
    (store16 mem k v).length = mem.length :=
  mem_write_length mem k _

theorem mem_write_isBytes (mem : List Nat) (pos : Nat) (vals : List Nat)
    (h : IsBytes mem) (hv : IsBytes vals) : IsBytes (mem_write mem pos vals) := by
  intro b hb
  simp only [mem_write, List.mem_append] at hb
  rcases hb with (h1 | h1) | h1
  · exact h b (List.mem_of_mem_take h1)
  · exact hv b (List.mem_of_mem_take h1)
  · exact h b (List.mem_of_mem_drop h1)

theorem store16_isBytes (mem : List Nat) (k v : Nat) (h : IsBytes mem) :
    IsBytes (store16 mem k v) := by
  apply mem_write_isBytes _ _ _ h
  intro b hb
  simp at hb
  omega

theorem load16_zero (a b : Nat) (rest : List Nat) :
    load16 (a :: b :: rest) 0 = a + 256 * b := by
  simp [load16]

theorem load16_succ2 (a b : Nat) (rest : List Nat) (k : Nat) :
    load16 (a :: b :: rest) (k + 2) = load16 rest k := by
  simp [load16]

/-- Storing a 16-bit value at an even offset replaces exactly one summand of
the word sum. -/
theorem wsum_store16 (k : Nat) : ∀ (mem : List Nat) (v : Nat), k % 2 = 0 →
    k + 2 ≤ mem.length → v < 65536 →
    wsum (store16 mem k v) + load16 mem k = wsum mem + v := by
  induction k using Nat.strong_induction_on with
  | _ k ih =>
    intro mem v hk hlen hv
    match mem, hlen with
    | a :: b :: rest, hlen =>
      match k, hk, ih, hlen with
      | 0, _, _, _ =>
        rw [store16_zero, load16_zero]
        simp only [wsum]
        omega
      | 1, hk, _, _ => omega
      | k + 2, hk, ih, hlen =>
        rw [store16_succ2, load16_succ2]
        simp only [wsum]
        have := ih k (by omega) rest v (by omega) (by simpa using hlen) hv
        omega

theorem getD_mem_write (mem : List Nat) (pos : Nat) (vals : List Nat) (i : Nat)
    (hpos : pos + vals.length ≤ mem.length) (hi : i < vals.length) :
    (mem_write mem pos vals).getD (pos + i) 0 = vals.getD i 0 := by
  rw [mem_write_eq _ _ _ hpos]
  have h1 : (List.take pos mem).length = pos := by simp; omega
  rw [List.append_assoc, List.getD_append_right _ _ _ _ (by omega), h1,
    List.getD_append _ _ _ _ (by omega)]
  congr 1; omega

theorem load16_store16 (k : Nat) (mem : List Nat) (v : Nat)
    (hlen : k + 2 ≤ mem.length) (hv : v < 65536) : load16 (store16 mem k v) k = v := by
  unfold load16 store16
  have h0 := getD_mem_write mem k [v % 256, v / 256 % 256] 0 (by simpa using hlen) (by simp)
  have h1 := getD_mem_write mem k [v % 256, v / 256 % 256] 1 (by simpa using hlen) (by simp)
  rw [Nat.add_zero] at h0
  rw [h0, h1]
  simp
  omega

/-- A region whose 16-bit field at an even offset holds zero verifies once the
field is filled with the region's `checksum16`. -/
theorem checksum16_fill (r0 : List Nat) (off : Nat) (hbytes : IsBytes r0)
    (heven : off % 2 = 0) (hin : off + 2 ≤ r0.length) (hzero : load16 r0 off = 0) :
    checksum16 (store16 r0 off (checksum16 r0)) = 0 := by
  have hc : checksum16 r0 = 65535 - ocfold (wsum r0) := checksum16_eq _ hbytes
  have hle := ocfold_le (wsum r0)
  have hw := wsum_store16 off r0 (checksum16 r0) heven hin (by omega)
  rw [hzero] at hw
  rw [checksum16_eq _ (store16_isBytes _ _ _ hbytes)]
  have key : ocfold (wsum (store16 r0 off (checksum16 r0))) = 65535 := by
    have : wsum (store16 r0 off (checksum16 r0)) = wsum r0 + (65535 - ocfold (wsum r0)) := by
      omega
    rw [this]
    generalize wsum r0 = t at hle ⊢
    unfold ocfold at hle ⊢
    split <;> split <;> omega
  rw [key]

/-- Claim C1. For every byte region of length at least 2 and every 2-byte
checksum field at an even offset inside it: zeroing the field, computing
`checksum16` over the whole region and storing the result into the field gives
a region whose `checksum16` is `0x0000`; the region length may be odd or
even. -/
theorem checksum16_verifies_after_store (region : List Nat) (off : Nat)
    (hbytes : IsBytes region) (heven : off % 2 = 0) (hin : off + 2 ≤ region.length) :
    checksum16 (store16 (store16 region off 0) off
      (checksum16 (store16 region off 0))) = 0x0000 := by
  have hb0 : IsBytes (store16 region off 0) := store16_isBytes _ _ _ hbytes
  have hl0 : off + 2 ≤ (store16 region off 0).length := by
    rw [store16_length]; exact hin
  have hz : load16 (store16 region off 0) off = 0 :=
    load16_store16 off region 0 hin (by omega)
  exact checksum16_fill (store16 region off 0) off hb0 heven hl0 hz

/-- Witness for C1: a 5-byte (odd length) region with the field at offset 2. -/
theorem checksum16_verifies_after_store_witness :
    IsBytes [0x12, 0x34, 0xab, 0xcd, 0x56] ∧ 2 % 2 = 0 ∧
      2 + 2 ≤ [0x12, 0x34, 0xab, 0xcd, 0x56].length ∧
      checksum16 (store16 (store16 [0x12, 0x34, 0xab, 0xcd, 0x56] 2 0) 2
        (checksum16 (store16 [0x12, 0x34, 0xab, 0xcd, 0x56] 2 0))) = 0x0000 :=
  ⟨by decide, by decide, by decide,
    checksum16_verifies_after_store [0x12, 0x34, 0xab, 0xcd, 0x56] 2
      (by decide) (by decide) (by decide)⟩

/-! ## Theorems: reads and writes of memory -/

theorem mem_read_length (mem : List Nat) (pos n : Nat) (h : pos + n ≤ mem.length) :
    (mem_read mem pos n).length = n := by
  simp [mem_read]; omega

theorem mem_read_write_left (mem : List Nat) (p : Nat) (v : List Nat) (q n : Nat)
    (hp : p + v.length ≤ mem.length) (h : q + n ≤ p) :
    mem_read (mem_write mem p v) q n = mem_read mem q n := by
  rw [mem_write_eq _ _ _ hp]
  unfold mem_read
  rw [List.append_assoc, List.drop_append_of_le_length (by simp; omega),
    List.take_append_of_le_length (by simp; omega), List.drop_take, List.take_take]
  congr 1; omega

theorem mem_read_write_right (mem : List Nat) (p : Nat) (v : List Nat) (q n : Nat)
    (hp : p + v.length ≤ mem.length) (h : p + v.length ≤ q) :
    mem_read (mem_write mem p v) q n = mem_read mem q n := by
  rw [mem_write_eq _ _ _ hp]
  unfold mem_read
  have h1 : (List.take p mem ++ v).length = p + v.length := by simp; omega
  rw [List.drop_append_eq_append_drop, h1,
    List.drop_eq_nil_of_le (by omega), List.nil_append, List.drop_drop]
  congr 2; omega

theorem mem_read_write_inside (mem : List Nat) (p : Nat) (v : List Nat) (i n : Nat)
    (hp : p + v.length ≤ mem.length) (h : i + n ≤ v.length) :
    mem_read (mem_write mem p v) (p + i) n = mem_read v i n := by
  rw [mem_write_eq _ _ _ hp]
  unfold mem_read
  have h1 : (List.take p mem).length = p := by simp; omega
  rw [List.append_assoc, List.drop_append_eq_append_drop, h1,
    List.drop_eq_nil_of_le (by omega), List.nil_append, Nat.add_sub_cancel_left,
    List.drop_append_of_le_length (by omega),
    List.take_append_of_le_length (by simp; omega)]

theorem mem_read_write_same (mem : List Nat) (p : Nat) (v : List Nat)
    (hp : p + v.length ≤ mem.length) :
    mem_read (mem_write mem p v) p v.length = v := by
  have := mem_read_write_inside mem p v 0 v.length hp (by omega)
  simpa [mem_read] using this

theorem mem_read_write_eq (mem : List Nat) (p : Nat) (v : List Nat) (q n : Nat)
    (hp : p + v.length ≤ mem.length) (hq : q = p) (hn : n = v.length) :
    mem_read (mem_write mem p v) q n = v := by
  rw [hq, hn]; exact mem_read_write_same mem p v hp

theorem mem_read_write_in (mem : List Nat) (p : Nat) (v : List Nat) (q n : Nat)
    (hp : p + v.length ≤ mem.length) (h1 : p ≤ q) (h2 : q + n ≤ p + v.length) :
    mem_read (mem_write mem p v) q n = mem_read v (q - p) n := by
  have h := mem_read_write_inside mem p v (q - p) n hp (by omega)
  have e : p + (q - p) = q := by omega
  rwa [e] at h

theorem mem_read_replicate (k i n : Nat) (h : i + n ≤ k) :
    mem_read (List.replicate k 0) i n = List.replicate n 0 := by
  unfold mem_read
  simp
  omega

theorem mem_read_zero_all (v : List Nat) (n : Nat) (h : n = v.length) : mem_read v 0 n = v := by
  subst h; simp [mem_read]

theorem store16_swap16_bytes (v : Nat) :
    [swap16 v % 256, swap16 v / 256 % 256] = [v / 256 % 256, v % 256] := by
  unfold swap16
  have ha : v % 256 < 256 := Nat.mod_lt _ (by omega)
  have hb : v / 256 % 256 < 256 := Nat.mod_lt _ (by omega)
  generalize v % 256 = a at *
  generalize v / 256 % 256 = b at *
  congr 1
  · omega
  · congr 1; omega

theorem mem_read_add (mem : List Nat) (pos a b : Nat) :
    mem_read mem pos (a + b) = mem_read mem pos a ++ mem_read mem (pos + a) b := by
  unfold mem_read
  rw [List.take_add, List.drop_drop]

theorem mem_read_read (mem : List Nat) (pos n i k : Nat) (h : i + k ≤ n) :
    mem_read (mem_read mem pos n) i k = mem_read mem (pos + i) k := by
  unfold mem_read
  rw [List.drop_take, List.take_take, List.drop_drop]
  congr 1
  omega

theorem take_mem_read (mem : List Nat) (pos n k : Nat) (h : k ≤ n) :
    (mem_read mem pos n).take k = mem_read mem pos k := by
  have := mem_read_read mem pos n 0 k (by omega)
  simpa [mem_read] using this

theorem getD_eq_of_mem_read (mem : List Nat) (pos n i : Nat) (v : List Nat)
    (h : mem_read mem pos n = v) (hi : i < v.length) :
    mem.getD (pos + i) 0 = v.getD i 0 := by
  subst h
  unfold mem_read at *
  rw [List.getD_eq_getElem?_getD, List.getD_eq_getElem?_getD, List.getElem?_take_of_lt,
    List.getElem?_drop]
  simp at hi; omega
/-- The frame which `ethernet_out` builds: destination, source, ethertype in
network order, the payload, and the zero padding up to 46 bytes. -/
theorem ethernet_out_buf_bytes (m : List Nat) (buf : buf_t) (mac : List Nat) (protocol : Nat)
    (hmac : mac.length = 6) (hm : m.length = 6) (hhead : 14 ≤ buf.data)
    (htail : buf.data + max buf.len 46 ≤ buf.payload.length) :
    (ethernet_out_buf m buf mac protocol).bytes =
      mac ++ m ++ [protocol / 256 % 256, protocol % 256] ++ buf.bytes ++
        List.replicate (46 - buf.len) 0 := by
  obtain ⟨len, data, P⟩ := buf
  simp only at hhead htail
  unfold ethernet_out_buf
  simp only [ETHERNET_MIN_TRANSPORT_UNIT, sizeof_ether_hdr_t]
  by_cases hlen : len < 46
  · simp only [hlen, if_true, buf_add_padding]
    rw [if_neg (by omega)]
    simp only [buf_add_header]
    rw [if_neg (by omega)]
    simp only [buf_t.write, buf_t.set16, buf_t.bytes, store16, store16_swap16_bytes]
    rw [show len + (46 - len) + 14 = 6 + (6 + (2 + (len + (46 - len)))) by omega]
    simp only [mem_read_add]
    simp (disch := (first | omega | (simp only [mem_write_length, List.length_cons, List.length_nil, List.length_replicate]; first | done | omega))) only
      [mem_read_write_eq, mem_read_write_right, mem_read_write_left]
    rw [show data - 14 + 6 + 6 + 2 = data by omega]
    simp
  · have hlen2 : ¬ len < 46 := hlen
    simp only [hlen, if_false, buf_add_header]
    rw [if_neg (by omega)]
    simp only [buf_t.write, buf_t.set16, buf_t.bytes, store16, store16_swap16_bytes]
    rw [show len + 14 = 6 + (6 + (2 + len)) by omega]
    simp only [mem_read_add]
    simp (disch := (first | omega | (simp only [mem_write_length, List.length_cons, List.length_nil, List.length_replicate]; first | done | omega))) only
      [mem_read_write_eq, mem_read_write_right, mem_read_write_left]
    rw [show data - 14 + 6 + 6 + 2 = data by omega, show 46 - len = 0 by omega]
    simp

/-! ## Theorems: ARP -/

theorem arp_req_buf_shape (s : Net) (target_ip : List Nat)
    (hcap : 28 < s.txbuf.payload.length / 2) :
    (arp_req_buf s target_ip).len = 28 ∧
      (arp_req_buf s target_ip).data = s.txbuf.payload.length / 2 - 28 ∧
      (arp_req_buf s target_ip).payload.length = s.txbuf.payload.length := by
  unfold arp_req_buf
  simp only [sizeof_arp_pkt_t, buf_init]
  rw [if_neg (by omega)]
  simp [buf_t.set16, buf_t.write, buf_t.set8, store16, mem_write_length]

theorem arp_req_buf_fields (s : Net) (target_ip : List Nat)
    (hcap : 28 < s.txbuf.payload.length / 2) (ht : target_ip.length = 4) :
    mem_read (arp_req_buf s target_ip).bytes 6 2 = [0x00, 0x01] ∧
      mem_read (arp_req_buf s target_ip).bytes 24 4 = target_ip := by
  have hs := arp_req_buf_shape s target_ip hcap
  unfold buf_t.bytes
  rw [mem_read_read _ _ _ _ _ (by omega), mem_read_read _ _ _ _ _ (by omega), hs.2.1]
  unfold arp_req_buf
  simp only [sizeof_arp_pkt_t, buf_init]
  rw [if_neg (by omega)]
  simp only [buf_t.set16, buf_t.write, buf_t.set8, store16, store16_swap16_bytes]
  simp (disch := (first | omega | (simp only [mem_write_length, List.length_cons, List.length_nil, List.length_replicate]; first | done | omega))) only
      [mem_read_write_eq, mem_read_write_right, mem_read_write_left]
  simp [ARP_REQUEST]
theorem get8_of_read (buf : buf_t) (off n i : Nat) (v : List Nat)
    (h : buf.read off n = v) (hi : i < v.length) : buf.get8 (off + i) = v.getD i 0 := by
  unfold buf_t.get8 load8
  rw [← Nat.add_assoc]
  exact getD_eq_of_mem_read _ _ _ _ _ h hi

theorem get16_of_read (buf : buf_t) (off n i : Nat) (v : List Nat)
    (h : buf.read off n = v) (hi : i + 1 < v.length) :
    buf.get16 (off + i) = v.getD i 0 + 256 * v.getD (i + 1) 0 := by
  unfold buf_t.get16 load16
  rw [← Nat.add_assoc, Nat.add_assoc (buf.data + off) i 1]
  rw [getD_eq_of_mem_read _ _ _ _ _ h (by omega), getD_eq_of_mem_read _ _ _ _ _ h hi]

theorem map_get_delete_same {κ ν : Type} [DecidableEq κ] (map : map_t κ ν) (key : κ)
    (now : Nat) : map_get (map_delete map key) key now = none := by
  simp only [map_get, map_delete, Option.map_eq_none', List.find?_eq_none, List.mem_filter]
  intro e he
  simp at he ⊢
  intro h
  exact absurd h he.2

theorem arp_resp_buf_shape (s : Net) (target_ip target_mac : List Nat)
    (hcap : 28 < s.txbuf.payload.length / 2) :
    (arp_resp_buf s target_ip target_mac).len = 28 ∧
      (arp_resp_buf s target_ip target_mac).data = s.txbuf.payload.length / 2 - 28 ∧
      (arp_resp_buf s target_ip target_mac).payload.length = s.txbuf.payload.length := by
  unfold arp_resp_buf
  simp only [sizeof_arp_pkt_t, buf_init]
  rw [if_neg (by omega)]
  simp [buf_t.set16, buf_t.write, buf_t.set8, store16, mem_write_length]

/-- The ARP packet which `arp_resp` builds, field by field. -/
theorem arp_resp_buf_bytes (s : Net) (target_ip target_mac : List Nat)
    (hcap : 28 < s.txbuf.payload.length / 2) (hmac : s.net_if_mac.length = 6)
    (hip : s.net_if_ip.length = 4) (ht : target_ip.length = 4) (htm : target_mac.length = 6) :
    (arp_resp_buf s target_ip target_mac).bytes =
      [0x00, 0x01, 0x08, 0x00, 6, 4, 0x00, 0x02] ++ s.net_if_mac ++ s.net_if_ip ++
        target_mac ++ target_ip := by
  have hs := arp_resp_buf_shape s target_ip target_mac hcap
  unfold buf_t.bytes
  rw [hs.1, hs.2.1]
  unfold arp_resp_buf
  simp only [sizeof_arp_pkt_t, buf_init]
  rw [if_neg (by omega)]
  simp only [buf_t.set16, buf_t.write, buf_t.set8, store16, store16_swap16_bytes]
  rw [show 28 = 2 + (2 + (1 + (1 + (2 + (6 + (4 + (6 + 4))))))) by rfl]
  simp only [mem_read_add]
  simp (disch := (first | omega | (simp only [mem_write_length, List.length_cons, List.length_nil, List.length_replicate]; first | done | omega))) only
      [mem_read_write_eq, mem_read_write_right, mem_read_write_left]
  simp [ARP_REPLY, ARP_HW_ETHER, NET_PROTOCOL_IP, NET_MAC_LEN, NET_IP_LEN]

/-- What `arp_resp` does: the state changes in `txbuf` and by one frame handed
to the driver, the unicast ARP reply. -/
theorem arp_resp_eq (s : Net) (target_ip target_mac : List Nat)
    (hcap : 42 ≤ s.txbuf.payload.length / 2) (hmac : s.net_if_mac.length = 6)
    (hip : s.net_if_ip.length = 4) (ht : target_ip.length = 4) (htm : target_mac.length = 6) :
    arp_resp s target_ip target_mac = { s with
      txbuf := ethernet_out_buf s.net_if_mac (arp_resp_buf s target_ip target_mac) target_mac
        NET_PROTOCOL_ARP,
      events := s.events ++ [Event.driver_send
        (target_mac ++ s.net_if_mac ++ [0x08, 0x06] ++
          ([0x00, 0x01, 0x08, 0x00, 6, 4, 0x00, 0x02] ++ s.net_if_mac ++ s.net_if_ip ++
            target_mac ++ target_ip) ++ List.replicate 18 0)] } := by
  have hs := arp_resp_buf_shape s target_ip target_mac (by omega)
  unfold arp_resp ethernet_out driver_send
  simp only [Net.get, Net.set, Net.emit]
  rw [ethernet_out_buf_bytes s.net_if_mac (arp_resp_buf s target_ip target_mac) target_mac
      NET_PROTOCOL_ARP htm hmac (by omega) (by rw [hs.1, hs.2.1, hs.2.2]; omega),
    hs.1, arp_resp_buf_bytes s target_ip target_mac (by omega) hmac hip ht htm]
  rfl

theorem map_get_set_same {κ ν : Type} [DecidableEq κ] (map : map_t κ ν) (key : κ) (value : ν)
    (now : Nat) : map_get (map_set map key value now) key now = some value := by
  simp [map_get, map_set, map_entry_valid]

/-- What `arp_req` does: the state changes in `txbuf` and by one frame handed
to the driver. -/
theorem arp_req_eq (s : Net) (target_ip : List Nat)
    (hcap : 42 ≤ s.txbuf.payload.length / 2) (hmac : s.net_if_mac.length = 6) :
    arp_req s target_ip = { s with
      txbuf := ethernet_out_buf s.net_if_mac (arp_req_buf s target_ip) ether_broadcast_mac
        NET_PROTOCOL_ARP,
      events := s.events ++ [Event.driver_send
        (ether_broadcast_mac ++ s.net_if_mac ++ [0x08, 0x06] ++
          (arp_req_buf s target_ip).bytes ++ List.replicate 18 0)] } := by
  have hs := arp_req_buf_shape s target_ip (by omega)
  unfold arp_req ethernet_out driver_send
  simp only [Net.get, Net.set, Net.emit]
  rw [ethernet_out_buf_bytes s.net_if_mac (arp_req_buf s target_ip) ether_broadcast_mac
      NET_PROTOCOL_ARP rfl hmac (by omega) (by rw [hs.1, hs.2.1, hs.2.2]; omega),
    hs.1]
  rfl

/-- Claim C3. For every packet buffer (the shared transmit buffer `txbuf`
included) and every destination IP with no live entry in the ARP cache and
none in the pending store, `arp_out` hands the driver exactly one frame: an
Ethernet broadcast of ethertype 0x0806 carrying an ARP packet with opcode
REQUEST and target IP equal to the destination; afterwards the pending store
maps the destination IP to a copy of the buffer as it was passed in. -/
theorem arp_out_unresolved (s : Net) (buf : buf_ref) (ip : List Nat)
    (hcache : map_get s.arp_table ip s.time = none)
    (hpend : map_get s.arp_buf ip s.time = none)
    (hcap : 42 ≤ s.txbuf.payload.length / 2)
    (hmac : s.net_if_mac.length = 6) (hip : ip.length = 4) :
    ∃ pkt, pkt.length = 28 ∧ mem_read pkt 6 2 = [0x00, 0x01] ∧ mem_read pkt 24 4 = ip ∧
      (arp_out s buf ip).events = s.events ++ [Event.driver_send
        ([0xff, 0xff, 0xff, 0xff, 0xff, 0xff] ++ s.net_if_mac ++ [0x08, 0x06] ++ pkt ++
          List.replicate 18 0)] ∧
      map_get (arp_out s buf ip).arp_buf ip (arp_out s buf ip).time = some (s.get buf) ∧
      (map_get (arp_out s buf ip).arp_buf ip (arp_out s buf ip).time).map buf_t.bytes
        = some (s.get buf).bytes := by
  have e : arp_out s buf ip
      = arp_req { s with arp_buf := map_set s.arp_buf ip (buf_copy (s.get buf)) s.time } ip := by
    unfold arp_out
    rw [hcache, hpend]
  rw [e, arp_req_eq { s with arp_buf := map_set s.arp_buf ip (buf_copy (s.get buf)) s.time }
    ip hcap hmac]
  have hs := arp_req_buf_shape
    { s with arp_buf := map_set s.arp_buf ip (buf_copy (s.get buf)) s.time } ip
    (show 28 < s.txbuf.payload.length / 2 by omega)
  have hf := arp_req_buf_fields
    { s with arp_buf := map_set s.arp_buf ip (buf_copy (s.get buf)) s.time } ip
    (show 28 < s.txbuf.payload.length / 2 by omega) hip
  refine ⟨_, ?_, hf.1, hf.2, rfl, ?_, ?_⟩
  · unfold buf_t.bytes
    rw [mem_read_length _ _ _ (by rw [hs.1, hs.2.1, hs.2.2]; simp only; omega), hs.1]
  · simp only [map_get_set_same]
    rfl
  · simp only [map_get_set_same]
    rfl

/-- Witness for C3: host A sends from the shared transmit buffer to the
unknown 10.0.0.3. -/
theorem arp_out_unresolved_witness :
    ∃ pkt, pkt.length = 28 ∧ mem_read pkt 6 2 = [0x00, 0x01] ∧
      mem_read pkt 24 4 = [10, 0, 0, 3] ∧
      (arp_out host_a .txbuf [10, 0, 0, 3]).events = host_a.events ++ [Event.driver_send
        ([0xff, 0xff, 0xff, 0xff, 0xff, 0xff] ++ host_a.net_if_mac ++ [0x08, 0x06] ++ pkt ++
          List.replicate 18 0)] ∧
      map_get (arp_out host_a .txbuf [10, 0, 0, 3]).arp_buf [10, 0, 0, 3]
        (arp_out host_a .txbuf [10, 0, 0, 3]).time = some (host_a.get .txbuf) ∧
      (map_get (arp_out host_a .txbuf [10, 0, 0, 3]).arp_buf [10, 0, 0, 3]
        (arp_out host_a .txbuf [10, 0, 0, 3]).time).map buf_t.bytes
        = some (host_a.get .txbuf).bytes :=
  arp_out_unresolved host_a .txbuf [10, 0, 0, 3] (by decide) (by decide)
    (by decide!) (by decide) (by decide)

/-- Claim C4. For every packet buffer and every destination IP with no live
ARP cache entry but a live pending entry, `arp_out` hands nothing to the
driver and leaves the ARP cache and the pending store (indeed the whole state)
unchanged; the packet already buffered for that IP is not replaced. -/
theorem arp_out_pending_noop (s : Net) (buf : buf_ref) (ip : List Nat) (pkt : buf_t)
    (hcache : map_get s.arp_table ip s.time = none)
    (hpend : map_get s.arp_buf ip s.time = some pkt) :
    arp_out s buf ip = s ∧
      sent_frames (arp_out s buf ip).events = sent_frames s.events ∧
      (arp_out s buf ip).arp_table = s.arp_table ∧
      (arp_out s buf ip).arp_buf = s.arp_buf ∧
      map_get (arp_out s buf ip).arp_buf ip (arp_out s buf ip).time = some pkt := by
  have e : arp_out s buf ip = s := by
    unfold arp_out
    rw [hcache, hpend]
  rw [e]
  exact ⟨rfl, rfl, rfl, rfl, hpend⟩

/-- Witness for C4: host A, a datagram pending for 10.0.0.3, sends again from
the shared transmit buffer. -/
theorem arp_out_pending_noop_witness :
    arp_out host_a_pending .txbuf [10, 0, 0, 3] = host_a_pending ∧
      sent_frames (arp_out host_a_pending .txbuf [10, 0, 0, 3]).events
        = sent_frames host_a_pending.events ∧
      (arp_out host_a_pending .txbuf [10, 0, 0, 3]).arp_table = host_a_pending.arp_table ∧
      (arp_out host_a_pending .txbuf [10, 0, 0, 3]).arp_buf = host_a_pending.arp_buf ∧
      map_get (arp_out host_a_pending .txbuf [10, 0, 0, 3]).arp_buf [10, 0, 0, 3]
        (arp_out host_a_pending .txbuf [10, 0, 0, 3]).time = some example_datagram :=
  arp_out_pending_noop host_a_pending .txbuf [10, 0, 0, 3] example_datagram
    (by decide) (by decide!)

theorem arp_hdr_ok_of_read (buf : buf_t) (op : Nat)
    (hhdr : buf.read 0 8 = [0x00, 0x01, 0x08, 0x00, 6, 4, 0x00, op]) (hop : op = 1 ∨ op = 2) :
    arp_hdr_ok buf = true ∧ buf.get16 6 = 256 * op := by
  have h0 := get16_of_read buf 0 8 0 _ hhdr (by simp)
  have h2 := get16_of_read buf 0 8 2 _ hhdr (by simp)
  have h4 := get8_of_read buf 0 8 4 _ hhdr (by simp)
  have h5 := get8_of_read buf 0 8 5 _ hhdr (by simp)
  have h6 := get16_of_read buf 0 8 6 _ hhdr (by simp)
  simp at h0 h2 h4 h5 h6
  unfold arp_hdr_ok
  rw [h0, h2, h4, h5, h6]
  rcases hop with rfl | rfl <;> simp [swap16, ARP_HW_ETHER, NET_PROTOCOL_IP, NET_MAC_LEN,
    NET_IP_LEN, ARP_REQUEST, ARP_REPLY]

/-- What `arp_in` does with a valid packet: the sender is entered into the ARP
table, a packet pending for the sender is framed, sent and deleted, and a
REQUEST for the local IP is answered. -/
theorem arp_in_valid_eq (s : Net) (buf : buf_t) (op : Nat) (hlen : 28 ≤ buf.len)
    (hhdr : buf.read 0 8 = [0x00, 0x01, 0x08, 0x00, 6, 4, 0x00, op]) (hop : op = 1 ∨ op = 2) :
    arp_in s buf =
      if op = 1 ∧ buf.read 24 4 = s.net_if_ip then
        arp_resp
          (match map_get s.arp_buf (buf.read 14 4) s.time with
          | some pkt =>
            { s with
              arp_table := map_set s.arp_table (buf.read 14 4) (buf.read 8 6) s.time,
              arp_buf := map_delete s.arp_buf (buf.read 14 4),
              events := s.events ++ [Event.driver_send
                (ethernet_out_buf s.net_if_mac pkt (buf.read 8 6) NET_PROTOCOL_IP).bytes] }
          | none =>
            { s with
              arp_table := map_set s.arp_table (buf.read 14 4) (buf.read 8 6) s.time })
          (buf.read 14 4) (buf.read 8 6)
      else
        (match map_get s.arp_buf (buf.read 14 4) s.time with
        | some pkt =>
          { s with
            arp_table := map_set s.arp_table (buf.read 14 4) (buf.read 8 6) s.time,
            arp_buf := map_delete s.arp_buf (buf.read 14 4),
            events := s.events ++ [Event.driver_send
              (ethernet_out_buf s.net_if_mac pkt (buf.read 8 6) NET_PROTOCOL_IP).bytes] }
        | none =>
          { s with
            arp_table := map_set s.arp_table (buf.read 14 4) (buf.read 8 6) s.time }) := by
  obtain ⟨hok, h6⟩ := arp_hdr_ok_of_read buf op hhdr hop
  have hreq : (256 * op = swap16 ARP_REQUEST) ↔ op = 1 := by
    simp [swap16, ARP_REQUEST]
  unfold arp_in
  rw [if_neg (by simp only [sizeof_arp_pkt_t]; omega), hok]
  simp only [Bool.not_true, Bool.false_eq_true, if_false, NET_MAC_LEN, NET_IP_LEN,
    driver_send, Net.emit, h6, hreq]
  cases map_get s.arp_buf (buf.read 14 4) s.time <;> rfl

/-- Claim C5, as amended. For every valid ARP packet whose sender IP has a live
pending entry holding packet `P`, `arp_in` hands the driver the frame carrying
`P` (destination the sender MAC, source the local MAC, ethertype 0x0800, `P`
zero-padded to 46 bytes), and after it, exactly when the packet is a REQUEST
whose target IP is the local IP, the ARP reply to the sender, and no other
frame; afterwards the pending store has no entry for that IP and the ARP cache
maps that IP to the sender MAC. -/
theorem arp_in_flushes_pending (s : Net) (buf P : buf_t) (op : Nat)
    (hinv : buf.inv) (hlen : 28 ≤ buf.len)
    (hhdr : buf.read 0 8 = [0x00, 0x01, 0x08, 0x00, 6, 4, 0x00, op]) (hop : op = 1 ∨ op = 2)
    (hpend : map_get s.arp_buf (buf.read 14 4) s.time = some P)
    (hroom : 14 ≤ P.data ∧ P.data + max P.len 46 ≤ P.payload.length)
    (hmac : s.net_if_mac.length = 6) (hip : s.net_if_ip.length = 4)
    (hcap : 42 ≤ s.txbuf.payload.length / 2) :
    (arp_in s buf).events = s.events ++
      [Event.driver_send (buf.read 8 6 ++ s.net_if_mac ++ [0x08, 0x00] ++ P.bytes ++
        List.replicate (46 - P.len) 0)] ++
      (if op = 1 ∧ buf.read 24 4 = s.net_if_ip then
        [Event.driver_send (buf.read 8 6 ++ s.net_if_mac ++ [0x08, 0x06] ++
          ([0x00, 0x01, 0x08, 0x00, 6, 4, 0x00, 0x02] ++ s.net_if_mac ++ s.net_if_ip ++
            buf.read 8 6 ++ buf.read 14 4) ++ List.replicate 18 0)]
      else []) ∧
    (∀ t, map_get (arp_in s buf).arp_buf (buf.read 14 4) t = none) ∧
    map_get (arp_in s buf).arp_table (buf.read 14 4) (arp_in s buf).time
      = some (buf.read 8 6) := by
  have hsm : (buf.read 8 6).length = 6 := by
    unfold buf_t.read; unfold buf_t.inv at hinv
    exact mem_read_length _ _ _ (by omega)
  have hsi : (buf.read 14 4).length = 4 := by
    unfold buf_t.read; unfold buf_t.inv at hinv
    exact mem_read_length _ _ _ (by omega)
  rw [arp_in_valid_eq s buf op hlen hhdr hop, hpend]
  simp only
  rw [ethernet_out_buf_bytes s.net_if_mac P (buf.read 8 6) NET_PROTOCOL_IP hsm hmac hroom.1
    hroom.2]
  by_cases hreq : op = 1 ∧ buf.read 24 4 = s.net_if_ip
  · rw [if_pos hreq, if_pos hreq, arp_resp_eq { s with
      arp_table := map_set s.arp_table (buf.read 14 4) (buf.read 8 6) s.time,
      arp_buf := map_delete s.arp_buf (buf.read 14 4),
      events := s.events ++ [Event.driver_send (buf.read 8 6 ++ s.net_if_mac ++
        [NET_PROTOCOL_IP / 256 % 256, NET_PROTOCOL_IP % 256] ++ P.bytes ++
        List.replicate (46 - P.len) 0)] } _ _ hcap hmac hip hsi hsm]
    refine ⟨?_, ?_, ?_⟩
    · simp [NET_PROTOCOL_IP]
    · intro t; exact map_get_delete_same _ _ _
    · exact map_get_set_same _ _ _ _
  · rw [if_neg hreq, if_neg hreq]
    refine ⟨?_, ?_, ?_⟩
    · simp [NET_PROTOCOL_IP]
    · intro t; exact map_get_delete_same _ _ _
    · exact map_get_set_same _ _ _ _

/-- Counterexample to C5 as stated: host A has a datagram pending for 10.0.0.3
and receives a valid ARP REQUEST from 10.0.0.3 for its own IP; `arp_in` hands
the driver two frames, the pending datagram and then the ARP reply. -/
theorem arp_in_pending_request_two_frames :
    (example_arp 1).inv ∧ 28 ≤ (example_arp 1).len ∧
      (example_arp 1).read 0 8 = [0x00, 0x01, 0x08, 0x00, 6, 4, 0x00, 1] ∧
      map_get host_a_pending.arp_buf ((example_arp 1).read 14 4) host_a_pending.time
        = some example_datagram ∧
      sent_frames (arp_in host_a_pending (example_arp 1)).events =
        [[0, 0, 0, 0, 0, 3, 0, 0, 0, 0, 0, 2, 8, 0] ++ example_datagram.bytes ++
            List.replicate 14 0,
          [0, 0, 0, 0, 0, 3, 0, 0, 0, 0, 0, 2, 8, 6,
            0, 1, 8, 0, 6, 4, 0, 2, 0, 0, 0, 0, 0, 2, 10, 0, 0, 2,
            0, 0, 0, 0, 0, 3, 10, 0, 0, 3] ++ List.replicate 18 0] ∧
      (sent_frames (arp_in host_a_pending (example_arp 1)).events).length ≠ 1 := by
  decide!

/-- Witness for C5 as amended: host A has a datagram pending for 10.0.0.3 and
receives a valid ARP REPLY from 10.0.0.3. -/
theorem arp_in_flushes_pending_witness :
    (arp_in host_a_pending (example_arp 2)).events = host_a_pending.events ++
      [Event.driver_send ((example_arp 2).read 8 6 ++ host_a_pending.net_if_mac ++
        [0x08, 0x00] ++ example_datagram.bytes ++
        List.replicate (46 - example_datagram.len) 0)] ++
      (if 2 = 1 ∧ (example_arp 2).read 24 4 = host_a_pending.net_if_ip then
        [Event.driver_send ((example_arp 2).read 8 6 ++ host_a_pending.net_if_mac ++
          [0x08, 0x06] ++
          ([0x00, 0x01, 0x08, 0x00, 6, 4, 0x00, 0x02] ++ host_a_pending.net_if_mac ++
            host_a_pending.net_if_ip ++
            (example_arp 2).read 8 6 ++ (example_arp 2).read 14 4) ++ List.replicate 18 0)]
      else []) ∧
    (∀ t, map_get (arp_in host_a_pending (example_arp 2)).arp_buf
      ((example_arp 2).read 14 4) t = none) ∧
    map_get (arp_in host_a_pending (example_arp 2)).arp_table ((example_arp 2).read 14 4)
      (arp_in host_a_pending (example_arp 2)).time = some ((example_arp 2).read 8 6) :=
  arp_in_flushes_pending host_a_pending (example_arp 2) example_datagram 2
    (by decide!) (by decide) (by decide!) (by decide) (by decide!) (by decide!) (by decide)
    (by decide) (by decide!)

/-! ## Theorems: every function only adds events -/

theorem extends_refl (s : Net) : s.extends s := ⟨[], by simp⟩

theorem extends_trans {a b c : Net} (h1 : c.extends b) (h2 : b.extends a) : c.extends a := by
  obtain ⟨e1, h1⟩ := h1
  obtain ⟨e2, h2⟩ := h2
  exact ⟨e2 ++ e1, by rw [h1, h2, List.append_assoc]⟩

theorem extends_of_events_eq {a b : Net} (h : b.events = a.events) : b.extends a :=
  ⟨[], by simp [h]⟩

theorem emit_extends (s : Net) (e : Event) : (s.emit e).extends s := ⟨[e], rfl⟩

theorem ethernet_out_extends (s : Net) (buf : buf_ref) (mac : List Nat) (protocol : Nat) :
    (ethernet_out s buf mac protocol).extends s := by
  unfold ethernet_out driver_send
  refine extends_trans (emit_extends _ _) (extends_of_events_eq ?_)
  cases buf <;> rfl

theorem arp_req_extends (s : Net) (ip : List Nat) : (arp_req s ip).extends s := by
  unfold arp_req
  exact extends_trans (ethernet_out_extends _ _ _ _) (extends_of_events_eq rfl)

theorem arp_resp_extends (s : Net) (ip mac : List Nat) : (arp_resp s ip mac).extends s := by
  unfold arp_resp
  exact extends_trans (ethernet_out_extends _ _ _ _) (extends_of_events_eq rfl)

theorem arp_out_extends (s : Net) (buf : buf_ref) (ip : List Nat) :
    (arp_out s buf ip).extends s := by
  unfold arp_out
  split
  · exact ethernet_out_extends _ _ _ _
  · split
    · exact extends_trans (arp_req_extends _ _) (extends_of_events_eq rfl)
    · exact extends_refl s

theorem set_events (s : Net) (p : buf_ref) (b : buf_t) : (s.set p b).events = s.events := by
  cases p <;> rfl

theorem ip_fragment_out_extends (s : Net) (buf : buf_ref) (ip : List Nat)
    (protocol id offset mf : Nat) :
    (ip_fragment_out s buf ip protocol id offset mf).extends s := by
  unfold ip_fragment_out
  refine extends_trans (arp_out_extends _ _ _) ?_
  exact extends_trans (extends_of_events_eq (set_events _ _ _)) (emit_extends _ _)

theorem ip_out_loop_extends (fuel : Nat) : ∀ (s : Net) (buf : buf_ref) (ip : List Nat)
    (protocol off : Nat), (ip_out_loop fuel s buf ip protocol off).1.extends s := by
  induction fuel with
  | zero => intro s buf ip protocol off; exact extends_refl s
  | succ n ih =>
    intro s buf ip protocol off
    unfold ip_out_loop
    split
    · refine extends_trans (ih _ _ _ _ _) ?_
      refine extends_trans (ip_fragment_out_extends _ _ _ _ _ _ _) ?_
      exact extends_of_events_eq (set_events _ _ _)
    · exact extends_refl s

theorem ip_out_extends (s : Net) (buf : buf_ref) (ip : List Nat) (protocol : Nat) :
    (ip_out s buf ip protocol).extends s := by
  unfold ip_out
  simp only
  split
  · exact extends_trans (ip_fragment_out_extends _ _ _ _ _ _ _)
      (extends_trans (extends_of_events_eq rfl) (emit_extends _ _))
  · refine extends_trans (ip_fragment_out_extends _ _ _ _ _ _ _) ?_
    refine extends_trans (extends_of_events_eq (set_events _ _ _)) ?_
    refine extends_trans (extends_of_events_eq rfl) ?_
    exact extends_trans (ip_out_loop_extends _ _ _ _ _ _) (emit_extends _ _)

theorem icmp_unreachable_extends (s : Net) (recv_buf : buf_t) (src_ip : List Nat) (code : Nat) :
    (icmp_unreachable s recv_buf src_ip code).extends s := by
  unfold icmp_unreachable
  exact extends_trans (ip_out_extends _ _ _ _) (extends_of_events_eq rfl)

theorem icmp_in_extends (s : Net) (buf : buf_t) (src_ip : List Nat) :
    (icmp_in s buf src_ip).extends s := by
  unfold icmp_in
  split
  · exact extends_refl s
  · split
    · unfold icmp_resp
      exact extends_trans (ip_out_extends _ _ _ _) (extends_of_events_eq rfl)
    · exact extends_refl s

theorem udp_in_extends (s : Net) (buf : buf_t) (src_ip : addr_ptr) :
    (udp_in s buf src_ip).extends s := by
  unfold udp_in
  simp only
  split
  · exact extends_refl s
  · split
    · exact extends_refl s
    · split
      · exact icmp_unreachable_extends _ _ _ _
      · exact emit_extends _ _

/-! ## Theorems: ip_in -/

@[simp] theorem set16_len (b : buf_t) (off v : Nat) : (b.set16 off v).len = b.len := rfl
@[simp] theorem set16_data (b : buf_t) (off v : Nat) : (b.set16 off v).data = b.data := rfl
@[simp] theorem set16_payload_length (b : buf_t) (off v : Nat) :
    (b.set16 off v).payload.length = b.payload.length := by
  simp [buf_t.set16, store16, mem_write_length]
@[simp] theorem write_len (b : buf_t) (off : Nat) (v : List Nat) : (b.write off v).len = b.len :=
  rfl
@[simp] theorem write_data (b : buf_t) (off : Nat) (v : List Nat) :
    (b.write off v).data = b.data := rfl
@[simp] theorem write_payload_length (b : buf_t) (off : Nat) (v : List Nat) :
    (b.write off v).payload.length = b.payload.length := by
  simp [buf_t.write, mem_write_length]
@[simp] theorem set8_len (b : buf_t) (off v : Nat) : (b.set8 off v).len = b.len := rfl
@[simp] theorem set8_data (b : buf_t) (off v : Nat) : (b.set8 off v).data = b.data := rfl
@[simp] theorem set8_payload_length (b : buf_t) (off v : Nat) :
    (b.set8 off v).payload.length = b.payload.length := by
  simp [buf_t.set8]

theorem mem_write_mem_write_same (mem : List Nat) (p : Nat) (v w : List Nat)
    (hp : p + v.length ≤ mem.length) (hvw : v.length = w.length) :
    mem_write (mem_write mem p v) p w = mem_write mem p w := by
  rw [mem_write_eq (mem_write mem p v) p w (by rw [mem_write_length]; omega),
    mem_write_eq mem p v hp, mem_write_eq mem p w (by omega)]
  have h1 : (List.take p mem).length = p := by simp; omega
  have h2 : (List.take p mem ++ v).length = p + w.length := by
    rw [List.length_append, h1, hvw]
  rw [List.drop_left' h2, List.append_assoc (List.take p mem) v, List.take_left' h1, hvw]

theorem mem_write_read_self (mem : List Nat) (p n : Nat) (hp : p + n ≤ mem.length) :
    mem_write mem p (mem_read mem p n) = mem := by
  have hl : (mem_read mem p n).length = n := mem_read_length _ _ _ hp
  rw [mem_write_eq _ _ _ (by omega), hl]
  unfold mem_read
  rw [List.append_assoc, ← List.drop_drop, List.take_append_drop, List.take_append_drop]

theorem load16_bytes (mem : List Nat) (p : Nat) (hb : IsBytes mem) (hp : p + 2 ≤ mem.length) :
    [load16 mem p % 256, load16 mem p / 256 % 256] = mem_read mem p 2 := by
  have hl : (mem_read mem p 2).length = 2 := mem_read_length _ _ _ hp
  have a := getD_eq_of_mem_read mem p 2 0 _ rfl (by omega)
  have b := getD_eq_of_mem_read mem p 2 1 _ rfl (by omega)
  have hmem : ∀ x ∈ mem_read mem p 2, x < 256 := by
    intro x hx
    exact hb x (List.mem_of_mem_drop (List.mem_of_mem_take hx))
  match hm : mem_read mem p 2, hl with
  | [x, y], _ =>
    rw [hm] at a b hmem
    have hx : x < 256 := hmem x (by simp)
    have hy : y < 256 := hmem y (by simp)
    simp only [Nat.add_zero, List.getD_cons_zero, List.getD_cons_succ] at a b
    unfold load16
    rw [a, b]
    congr 1
    · omega
    · congr 1; omega

theorem getD_mem_write_left (mem : List Nat) (p : Nat) (v : List Nat) (i : Nat)
    (hp : p + v.length ≤ mem.length) (hi : i < p) :
    (mem_write mem p v).getD i 0 = mem.getD i 0 := by
  have h := mem_read_write_left mem p v i 1 hp (by omega)
  have h1 : (mem_read mem i 1).length = 1 := mem_read_length _ _ _ (by omega)
  have a := getD_eq_of_mem_read (mem_write mem p v) i 1 0 _ h (by omega)
  have b := getD_eq_of_mem_read mem i 1 0 _ rfl (by omega)
  simp only [Nat.add_zero] at a b
  rw [a, b]

theorem getD_mem_write_right (mem : List Nat) (p : Nat) (v : List Nat) (i : Nat)
    (hp : p + v.length ≤ mem.length) (hi : p + v.length ≤ i) :
    (mem_write mem p v).getD i 0 = mem.getD i 0 := by
  by_cases hl : i < mem.length
  · have h := mem_read_write_right mem p v i 1 hp hi
    have h1 : (mem_read mem i 1).length = 1 := mem_read_length _ _ _ (by omega)
    have a := getD_eq_of_mem_read (mem_write mem p v) i 1 0 _ h (by omega)
    have b := getD_eq_of_mem_read mem i 1 0 _ rfl (by omega)
    simp only [Nat.add_zero] at a b
    rw [a, b]
  · rw [List.getD_eq_default _ _ (by rw [mem_write_length]; omega),
      List.getD_eq_default _ _ (by omega)]

/-- The validation of `ip_in` succeeds exactly on the datagrams which the
specification accepts, and gives the buffer back as it was. -/
theorem ip_in_check_eq (net_if_ip : List Nat) (buf : buf_t) (hinv : buf.inv)
    (hbytes : IsBytes buf.payload) :
    ip_in_check net_if_ip buf = if ip_in_accepts net_if_ip buf then some buf else none := by
  unfold buf_t.inv at hinv
  unfold ip_in_check ip_in_accepts
  simp only [sizeof_ip_hdr_t, IP_VERSION_4, IP_HDR_LEN_PER_BYTE, NET_IP_LEN]
  by_cases h1 : buf.len < 20
  · rw [if_pos h1, if_neg (by omega)]
  · rw [if_neg h1]
    have hb : buf.data + 20 ≤ buf.payload.length := by omega
    have e0 : (buf.set16 10 0).get8 0 = buf.get8 0 := by
      unfold buf_t.get8 buf_t.set16 load8 store16
      exact getD_mem_write_left _ _ _ _ (by simp; omega) (by simp)
    have e1 : ((buf.set16 10 0).set16 10 (buf.get16 10)) = buf := by
      obtain ⟨len, data, P⟩ := buf
      simp only [buf_t.set16, buf_t.get16, store16] at *
      rw [mem_write_mem_write_same P (data + 10) [0 % 256, 0 / 256 % 256]
          [load16 P (data + 10) % 256, load16 P (data + 10) / 256 % 256]
          (by simp only [List.length_cons, List.length_nil]; omega) rfl,
        load16_bytes P (data + 10) hbytes (by omega), mem_write_read_self _ _ _ (by omega)]
    by_cases h2 : buf.get8 0 / 16 ≠ 4 ∨ swap16 (buf.get16 2) > buf.len ∨ buf.get8 0 % 16 < 20 / 4
    · rw [if_pos h2, if_neg (by omega)]
    · rw [if_neg h2]
      simp only [e0, e1]
      rw [show buf.get8 0 % 16 * 4 = 4 * (buf.get8 0 % 16) by omega]
      by_cases h3 : buf.get16 10 = checksum16 ((buf.set16 10 0).read 0 (4 * (buf.get8 0 % 16)))
      · rw [if_neg (by simpa using h3)]
        by_cases h4 : buf.read 16 4 = net_if_ip
        · rw [if_neg (by simpa using h4), if_pos ⟨by omega, by omega, by omega, by omega, h3, h4⟩]
        · rw [if_pos (by simpa using h4), if_neg (by tauto)]
      · rw [if_pos (by simpa using h3), if_neg (by tauto)]
theorem net_in_events (s : Net) (buf : buf_t) (protocol : Nat) (src : addr_ptr) :
    ∃ es, (net_in s buf protocol src).1.events =
      s.events ++ Event.net_in buf.bytes protocol (src.deref buf NET_IP_LEN) :: es := by
  unfold net_in
  simp only
  split
  · exact ⟨[], rfl⟩
  · obtain ⟨es, h⟩ := icmp_in_extends
      (s.emit (Event.net_in buf.bytes protocol (src.deref buf NET_IP_LEN))) buf
      (src.deref buf NET_IP_LEN)
    exact ⟨es, by rw [h]; simp [Net.emit]⟩
  · obtain ⟨es, h⟩ := udp_in_extends
      (s.emit (Event.net_in buf.bytes protocol (src.deref buf NET_IP_LEN))) buf src
    exact ⟨es, by rw [h]; simp [Net.emit]⟩
  · exact ⟨[], rfl⟩

/-- The datagrams which `ip_in` drops leave the state as it is. -/
theorem ip_in_drop (s : Net) (buf : buf_t) (hinv : buf.inv) (hbytes : IsBytes buf.payload)
    (h : ¬ ip_in_accepts s.net_if_ip buf) : ip_in s buf = s := by
  unfold ip_in
  rw [ip_in_check_eq _ _ hinv hbytes, if_neg h]

/-- The datagrams which `ip_in` accepts are handed to the registry first. -/
theorem ip_in_accept_events (s : Net) (buf : buf_t) (hinv : buf.inv)
    (hbytes : IsBytes buf.payload) (h : ip_in_accepts s.net_if_ip buf) :
    ∃ p proto src rest,
      (ip_in s buf).events = s.events ++ Event.net_in p proto src :: rest := by
  unfold ip_in
  rw [ip_in_check_eq _ _ hinv hbytes, if_pos h]
  simp only
  generalize hb : buf_remove_header _ _ = b
  obtain ⟨es, he⟩ := net_in_events s b (load8 b.payload (buf.data + 9)) (.own (buf.data + 12))
  split
  · obtain ⟨es2, he2⟩ := icmp_unreachable_extends (net_in s b (load8 b.payload (buf.data + 9))
      (.own (buf.data + 12))).1
      (buf_add_header b (load8 buf.payload buf.data % 16 * IP_HDR_LEN_PER_BYTE))
      (mem_read (buf_add_header b (load8 buf.payload buf.data % 16 * IP_HDR_LEN_PER_BYTE)).payload
        (buf.data + 12) NET_IP_LEN) ICMP_CODE_PROTOCOL_UNREACH
    exact ⟨b.bytes, load8 b.payload (buf.data + 9),
      (addr_ptr.own (buf.data + 12)).deref b NET_IP_LEN, es ++ es2, by rw [he2, he]; simp⟩
  · exact ⟨_, _, _, es, he⟩

/-- Claim C6. For every inbound buffer, `ip_in` hands a payload to the protocol
registry if and only if the buffer has at least 20 bytes, version 4, a total
length not above the buffer length, a header length of at least 5, a stored
header checksum equal to `checksum16` of the header region with the checksum
field zeroed, and the local IP as destination; in every other case the state
is unchanged (nothing dispatched, nothing transmitted). In particular a
datagram for another IP, and an accepted datagram whose checksum field is
changed to any other value, are dropped. -/
theorem ip_in_dispatch_iff (s : Net) (buf : buf_t) (hinv : buf.inv)
    (hbytes : IsBytes buf.payload) :
    ((∃ p proto src rest,
        (ip_in s buf).events = s.events ++ Event.net_in p proto src :: rest)
      ↔ ip_in_accepts s.net_if_ip buf) ∧
    (¬ ip_in_accepts s.net_if_ip buf → ip_in s buf = s) ∧
    (buf.read 16 4 ≠ s.net_if_ip → ip_in s buf = s) ∧
    (∀ c, c < 65536 → ip_in_accepts s.net_if_ip buf → c ≠ buf.get16 10 →
      ip_in s (buf.set16 10 c) = s) := by
  refine ⟨⟨?_, ip_in_accept_events s buf hinv hbytes⟩, ip_in_drop s buf hinv hbytes, ?_, ?_⟩
  · intro ⟨p, proto, src, rest, h⟩
    by_contra hn
    rw [ip_in_drop s buf hinv hbytes hn] at h
    have := congrArg List.length h
    simp at this
  · intro hd
    apply ip_in_drop s buf hinv hbytes
    intro ha
    exact hd ha.2.2.2.2.2
  · intro c hc ha hne
    have hlen := ha.1
    unfold buf_t.inv at hinv
    have hinv2 : (buf.set16 10 c).inv := by
      unfold buf_t.inv; simpa using hinv
    have hb2 : IsBytes (buf.set16 10 c).payload := store16_isBytes _ _ _ hbytes
    apply ip_in_drop s _ hinv2 hb2
    intro ha2
    have e1 : (buf.set16 10 c).get16 10 = c := by
      unfold buf_t.get16 buf_t.set16
      exact load16_store16 _ _ _ (by omega) hc
    have e2 : (buf.set16 10 c).set16 10 0 = buf.set16 10 0 := by
      unfold buf_t.set16 store16
      simp only
      rw [mem_write_mem_write_same buf.payload (buf.data + 10) [c % 256, c / 256 % 256]
        [0 % 256, 0 / 256 % 256] (by simp only [List.length_cons, List.length_nil]; omega) rfl]
    have e3 : (buf.set16 10 c).get8 0 = buf.get8 0 := by
      unfold buf_t.get8 buf_t.set16 load8 store16
      exact getD_mem_write_left _ _ _ _ (by simp; omega) (by simp)
    have h5 := ha2.2.2.2.2.1
    rw [e1, e2, e3] at h5
    exact hne (h5.trans ha.2.2.2.2.1.symm)
/-- Witness for C6: host A receives a datagram addressed to it. -/
theorem ip_in_dispatch_iff_witness :
    (example_rx example_udp 0).inv ∧ IsBytes (example_rx example_udp 0).payload ∧
      ip_in_accepts host_a.net_if_ip (example_rx example_udp 0) ∧
      ((∃ p proto src rest, (ip_in host_a (example_rx example_udp 0)).events =
          host_a.events ++ Event.net_in p proto src :: rest)
        ↔ ip_in_accepts host_a.net_if_ip (example_rx example_udp 0)) :=
  ⟨by decide!, by decide!, by decide!,
    (ip_in_dispatch_iff host_a (example_rx example_udp 0) (by decide!) (by decide!)).1⟩
/-- Evaluation for C7 at a datagram with 4 bytes of payload: host A receives a
valid datagram for the unregistered protocol 6 in a frame whose link padding
holds the bytes 0xee. The one ICMP message handed to `ip_out` has 36 bytes:
after the ICMP header and the IP header come the 4 payload bytes and then 4
bytes of link padding, which are not part of the datagram. The message for the
example datagram with 12 bytes of payload quotes its first 8 bytes. -/
theorem icmp_unreachable_reads_past_datagram :
    ip_in_accepts host_a.net_if_ip (example_rx example_unknown_protocol_short 0xee) ∧
      host_a.net_table.lookup 6 = none ∧
      ip_out_calls (ip_in host_a (example_rx example_unknown_protocol_short 0xee)).events =
        [([3, 2, 27, 26, 0, 0, 0, 0] ++ example_unknown_protocol_short ++
            [0xee, 0xee, 0xee, 0xee], [10, 0, 0, 3], 1)] ∧
      ip_out_calls (ip_in host_a (example_rx example_unknown_protocol_short 0xee)).events ≠
        [([3, 2, 27, 26, 0, 0, 0, 0] ++ example_unknown_protocol_short.take 20 ++
            (example_unknown_protocol_short.drop 20).take 8, [10, 0, 0, 3], 1)] ∧
      checksum16 ([3, 2, 27, 26, 0, 0, 0, 0] ++ example_unknown_protocol_short ++
        [0xee, 0xee, 0xee, 0xee]) = 0 ∧
      ip_out_calls (ip_in host_a (example_rx example_unknown_protocol 0xee)).events =
        [([3, 2, 236, 233, 0, 0, 0, 0] ++ example_unknown_protocol.take 20 ++
            (example_unknown_protocol.drop 20).take 8, [10, 0, 0, 3], 1)] := by
  decide!

/-- Evaluation for C8: host A, with no open port, receives the example UDP
datagram, whose UDP checksum field holds 0x07 0xdf. The ICMP port-unreachable
message handed to `ip_out` quotes the IP header and the UDP header with the
checksum field zeroed. -/
theorem udp_in_quotes_zeroed_checksum :
    (example_udp_rx 0).read 6 2 = [0x07, 0xdf] ∧
      handler_calls (udp_in host_a (example_udp_rx 0) (.own 26)).events = [] ∧
      ip_out_calls (udp_in host_a (example_udp_rx 0) (.own 26)).events =
        [([3, 3, 247, 206, 0, 0, 0, 0] ++ example_udp.take 20 ++
            [0, 80, 4, 210, 0, 12, 0, 0], [10, 0, 0, 3], 1)] ∧
      ip_out_calls (ip_in host_a (example_rx example_udp 0)).events =
        [([3, 3, 247, 206, 0, 0, 0, 0] ++ example_udp.take 20 ++
            [0, 80, 4, 210, 0, 12, 0, 0], [10, 0, 0, 3], 1)] ∧
      (example_udp.drop 20).take 8 = [0, 80, 4, 210, 0, 12, 0x07, 0xdf] := by
  decide!

/-! ## Theorems: transport_checksum and UDP -/

theorem getD_mem_write_full (mem : List Nat) (p : Nat) (v : List Nat) (i : Nat)
    (hp : p + v.length ≤ mem.length) :
    (mem_write mem p v).getD i 0 =
      if p ≤ i ∧ i < p + v.length then v.getD (i - p) 0 else mem.getD i 0 := by
  by_cases h1 : i < p
  · rw [if_neg (by omega)]; exact getD_mem_write_left _ _ _ _ hp h1
  · by_cases h2 : i < p + v.length
    · rw [if_pos ⟨by omega, h2⟩]
      have := getD_mem_write mem p v (i - p) hp (by omega)
      rwa [show p + (i - p) = i by omega] at this
    · rw [if_neg (by omega)]; exact getD_mem_write_right _ _ _ _ hp (by omega)

theorem getD_mem_read (mem : List Nat) (p n j : Nat) :
    (mem_read mem p n).getD j 0 = if j < n then mem.getD (p + j) 0 else 0 := by
  unfold mem_read
  by_cases h : j < n
  · rw [if_pos h, List.getD_eq_getElem?_getD, List.getD_eq_getElem?_getD,
      List.getElem?_take_of_lt h, List.getElem?_drop]
  · rw [if_neg h, List.getD_eq_default]
    simp; omega

theorem list_ext_getD (l1 l2 : List Nat) (hl : l1.length = l2.length)
    (h : ∀ i, i < l1.length → l1.getD i 0 = l2.getD i 0) : l1 = l2 := by
  apply List.ext_getElem hl
  intro i h1 h2
  have := h i h1
  rw [List.getD_eq_getElem _ _ h1, List.getD_eq_getElem _ _ h2] at this
  exact this

/-- The bytes over which `transport_checksum` computes: the pseudo-header, the
segment, and one zero byte if the segment length is odd. -/
theorem transport_checksum_fst (protocol : Nat) (buf : buf_t) (src dst : List Nat)
    (hsrc : src.length = 4) (hdst : dst.length = 4) (hhead : 12 ≤ buf.data)
    (htail : buf.data + buf.len + buf.len % 2 ≤ buf.payload.length) :
    (transport_checksum protocol buf (.val src) (.val dst)).1 =
      checksum16 (src ++ dst ++ [0, protocol % 256, buf.len / 256 % 256, buf.len % 256] ++
        buf.bytes ++ List.replicate (buf.len % 2) 0) := by
  obtain ⟨len, data, P⟩ := buf
  simp only at hhead htail
  unfold transport_checksum
  have hd : ¬ data < 12 := by omega
  simp only [sizeof_udp_peso_hdr_t, buf_add_header, NET_IP_LEN, addr_ptr.deref, hd, if_false]
  simp only [buf_t.write, buf_t.set8, buf_t.set16, buf_t.read, buf_t.bytes, store16,
    store16_swap16_bytes, Nat.add_sub_cancel, Nat.add_zero]
  have hpar : (len + 12) % 2 = len % 2 := by omega
  rcases Nat.mod_two_eq_zero_or_one len with h0 | h1
  · rw [hpar, h0]
    simp only [ne_eq, not_true_eq_false, if_false]
    rw [show len + 12 = 4 + (4 + (1 + (1 + (2 + len)))) by omega]
    simp only [mem_read_add]
    simp (disch := (first | omega | (simp only [mem_write_length, List.length_cons, List.length_nil, List.length_replicate]; first | done | omega))) only
      [mem_read_write_eq, mem_read_write_right, mem_read_write_left]
    rw [show data - 12 + 4 + 4 + 1 + 1 + 2 = data by omega]
    simp
  · rw [hpar, h1]
    simp only [ne_eq, one_ne_zero, not_false_eq_true, if_true, buf_add_padding]
    rw [if_neg (by simp only [mem_write_length]; omega)]
    simp only
    rw [show len + 12 + 1 = 4 + (4 + (1 + (1 + (2 + (len + 1))))) by omega]
    simp only [mem_read_add]
    simp (disch := (first | omega | (simp only [mem_write_length, List.length_cons, List.length_nil, List.length_replicate]; first | done | omega))) only
      [mem_read_write_eq, mem_read_write_right, mem_read_write_left]
    rw [show data - 12 + 4 + 4 + 1 + 1 + 2 = data by omega]
    simp

/-- The buffer which `transport_checksum` leaves: the bytes under the
pseudo-header are restored; for an odd segment length the byte after the
segment has been zeroed by the padding. -/
theorem transport_checksum_snd (protocol : Nat) (buf : buf_t) (src dst : List Nat)
    (hsrc : src.length = 4) (hdst : dst.length = 4) (hhead : 12 ≤ buf.data)
    (htail : buf.data + buf.len + buf.len % 2 ≤ buf.payload.length) :
    (transport_checksum protocol buf (.val src) (.val dst)).2 =
      if buf.len % 2 = 0 then buf
      else { buf with payload := mem_write buf.payload (buf.data + buf.len) [0] } := by
  obtain ⟨len, data, P⟩ := buf
  simp only at hhead htail
  unfold transport_checksum
  have hd : ¬ data < 12 := by omega
  simp only [sizeof_udp_peso_hdr_t, buf_add_header, NET_IP_LEN, addr_ptr.deref, hd, if_false]
  simp only [buf_t.write, buf_t.set8, buf_t.set16, buf_t.read, buf_t.bytes, store16,
    store16_swap16_bytes, Nat.add_sub_cancel, Nat.add_zero]
  have hpar : (len + 12) % 2 = len % 2 := by omega
  rcases Nat.mod_two_eq_zero_or_one len with h0 | h1
  · rw [hpar, h0]
    simp only [ne_eq, not_true_eq_false, if_false, if_true, buf_remove_header]
    rw [if_neg (by omega)]
    simp only [Nat.add_sub_cancel, buf_t.mk.injEq, true_and]
    refine ⟨by omega, ?_⟩
    apply list_ext_getD
    · simp only [mem_write_length]
    · intro i hi
      have htmp : (mem_read P (data - 12) 12).length = 12 := mem_read_length _ _ _ (by omega)
      simp (disch := (first | omega | (simp only [mem_write_length, mem_read_length, List.length_cons, List.length_nil, List.length_replicate]; first | done | omega))) only
        [getD_mem_write_full, getD_mem_read, mem_read_length]
      simp only [List.length_cons, List.length_nil, hsrc, hdst]
      split_ifs <;> first | rfl | omega | (congr 1; omega)
  · rw [hpar, h1]
    simp only [ne_eq, one_ne_zero, not_false_eq_true, if_true, if_false, buf_add_padding]
    rw [if_neg (by simp only [mem_write_length]; omega)]
    have hp1 : ¬ (len + 12 + 1 < 1) := by omega
    have hp2 : ¬ (len + 12 < 12) := by omega
    simp only [buf_remove_padding, buf_remove_header, hp1, hp2, if_false, Nat.add_sub_cancel,
      buf_t.mk.injEq, true_and]
    refine ⟨by omega, ?_⟩
    apply list_ext_getD
    · simp only [mem_write_length]
    · intro i hi
      have htmp : (mem_read P (data - 12) 12).length = 12 := mem_read_length _ _ _ (by omega)
      simp (disch := (first | omega | (simp only [mem_write_length, mem_read_length, List.length_cons, List.length_nil, List.length_replicate]; first | done | omega))) only
        [getD_mem_write_full, getD_mem_read, mem_read_length]
      simp only [List.length_cons, List.length_nil, List.length_replicate, hsrc, hdst]
      split_ifs <;> first | rfl | omega | (congr 1; omega)
theorem bytes_length (b : buf_t) (h : b.inv) : b.bytes.length = b.len :=
  mem_read_length _ _ _ h

theorem load16_of_bytes (b : buf_t) (k : Nat) (hk : k + 2 ≤ b.len) :
    load16 b.payload (b.data + k) = load16 b.bytes k := by
  unfold load16 buf_t.bytes
  rw [getD_mem_read, getD_mem_read, if_pos (by omega), if_pos (by omega), Nat.add_assoc]

theorem bytes_write (b : buf_t) (k : Nat) (v : List Nat) (h : b.inv) (hk : k + v.length ≤ b.len) :
    (b.write k v).bytes = mem_write b.bytes k v := by
  unfold buf_t.inv at h
  have hl : b.bytes.length = b.len := bytes_length b h
  unfold buf_t.bytes at *
  simp only [buf_t.write]
  apply list_ext_getD
  · rw [mem_write_length, hl, mem_read_length _ _ _ (by rw [mem_write_length]; omega)]
  · intro i _
    rw [getD_mem_read, getD_mem_write_full _ _ _ _ (by omega),
      getD_mem_write_full _ _ _ _ (by omega), getD_mem_read]
    split_ifs <;> first | rfl | omega | (congr 1; omega)

theorem bytes_set16 (b : buf_t) (k v : Nat) (h : b.inv) (hk : k + 2 ≤ b.len) :
    (b.set16 k v).bytes = store16 b.bytes k v :=
  bytes_write b k [v % 256, v / 256 % 256] h hk

theorem bytes_remove_header (b : buf_t) (n : Nat) (hn : n ≤ b.len) :
    (buf_remove_header b n).bytes = b.bytes.drop n := by
  unfold buf_remove_header
  rw [if_neg (by omega)]
  unfold buf_t.bytes mem_read
  simp only
  rw [List.drop_take, List.drop_drop]

theorem bytes_add_header (b : buf_t) (n : Nat) (hn : n ≤ b.data) :
    (buf_add_header b n).bytes = mem_read b.payload (b.data - n) n ++ b.bytes := by
  unfold buf_add_header
  rw [if_neg (by omega)]
  unfold buf_t.bytes
  simp only
  rw [Nat.add_comm b.len n, mem_read_add, show b.data - n + n = b.data by omega]

theorem bytes_write_outside (b : buf_t) (v : List Nat)
    (h : b.data + b.len + v.length ≤ b.payload.length) :
    ({ b with payload := mem_write b.payload (b.data + b.len) v } : buf_t).bytes = b.bytes := by
  unfold buf_t.bytes
  simp only
  exact mem_read_write_left _ _ _ _ _ (by omega) (by omega)

/-- After `transport_checksum` the buffer has its length, data start and data
region as before. -/
theorem transport_checksum_frame (protocol : Nat) (buf : buf_t) (src dst : List Nat)
    (hsrc : src.length = 4) (hdst : dst.length = 4) (hhead : 12 ≤ buf.data)
    (htail : buf.data + buf.len + buf.len % 2 ≤ buf.payload.length) :
    (transport_checksum protocol buf (.val src) (.val dst)).2.len = buf.len ∧
      (transport_checksum protocol buf (.val src) (.val dst)).2.data = buf.data ∧
      (transport_checksum protocol buf (.val src) (.val dst)).2.payload.length
        = buf.payload.length ∧
      (transport_checksum protocol buf (.val src) (.val dst)).2.bytes = buf.bytes := by
  rw [transport_checksum_snd protocol buf src dst hsrc hdst hhead htail]
  split
  · exact ⟨rfl, rfl, rfl, rfl⟩
  · refine ⟨rfl, rfl, by simp only [mem_write_length], ?_⟩
    exact bytes_write_outside buf [0] (by simp only [List.length_cons, List.length_nil]; omega)
theorem udp_out_buf_eq (A : List Nat) (buf : buf_t) (sp : Nat) (B : List Nat) (dp : Nat) :
    udp_out_buf A buf sp B dp =
      (transport_checksum NET_PROTOCOL_UDP
        (((((buf_add_header buf 8).set16 0 (swap16 sp)).set16 2 (swap16 dp)).set16 4
          (swap16 (buf_add_header buf 8).len)).set16 6 0) (.val A) (.val B)).2.set16 6
      (transport_checksum NET_PROTOCOL_UDP
        (((((buf_add_header buf 8).set16 0 (swap16 sp)).set16 2 (swap16 dp)).set16 4
          (swap16 (buf_add_header buf 8).len)).set16 6 0) (.val A) (.val B)).1 := rfl

/-- The UDP header which `udp_out` prepends, before the checksum is filled in. -/
theorem udp_out_hdr_bytes (buf : buf_t) (sp dp : Nat) (hhead : 8 ≤ buf.data)
    (hinv : buf.inv) :
    (((((buf_add_header buf 8).set16 0 (swap16 sp)).set16 2 (swap16 dp)).set16 4
      (swap16 (buf_add_header buf 8).len)).set16 6 0).bytes =
      udp_hdr_bytes sp dp (buf.len + 8) 0 ++ buf.bytes := by
  obtain ⟨len, data, P⟩ := buf
  unfold buf_t.inv at hinv
  simp only at hhead hinv
  have hd : ¬ data < 8 := by omega
  simp only [buf_add_header, hd, if_false, buf_t.set16, buf_t.bytes, store16,
    store16_swap16_bytes, Nat.add_zero]
  rw [show len + 8 = 2 + (2 + (2 + (2 + len))) by omega]
  simp only [mem_read_add]
  simp (disch := (first | omega | (simp only [mem_write_length, List.length_cons, List.length_nil, List.length_replicate]; first | done | omega))) only
      [mem_read_write_eq, mem_read_write_right, mem_read_write_left]
  rw [show data - 8 + 2 + 2 + 2 + 2 = data by omega]
  simp [udp_hdr_bytes]

/-- The segment which `udp_out` builds: the header with the checksum of the
segment under its pseudo-header, then the payload. -/
theorem udp_out_buf_bytes (A : List Nat) (buf : buf_t) (sp : Nat) (B : List Nat) (dp : Nat)
    (hA : A.length = 4) (hB : B.length = 4) (hhead : 20 ≤ buf.data)
    (htail : buf.data + buf.len + buf.len % 2 ≤ buf.payload.length) :
    (udp_out_buf A buf sp B dp).bytes =
      udp_hdr_bytes sp dp (buf.len + 8)
        (pseudo_checksum NET_PROTOCOL_UDP A B
          (udp_hdr_bytes sp dp (buf.len + 8) 0 ++ buf.bytes)) ++ buf.bytes := by
  have hinv : buf.inv := by unfold buf_t.inv; omega
  have hb1 := udp_out_hdr_bytes buf sp dp (by omega) hinv
  rw [udp_out_buf_eq]
  generalize hg : ((((buf_add_header buf 8).set16 0 (swap16 sp)).set16 2 (swap16 dp)).set16 4
      (swap16 (buf_add_header buf 8).len)).set16 6 0 = b1 at hb1
  have hl1 : b1.len = buf.len + 8 ∧ b1.data = buf.data - 8 ∧
      b1.payload.length = buf.payload.length := by
    rw [← hg]
    simp only [set16_len, set16_data, set16_payload_length, buf_add_header]
    rw [if_neg (by omega)]
    exact ⟨rfl, rfl, rfl⟩
  have hfr := transport_checksum_frame NET_PROTOCOL_UDP b1 A B hA hB (by omega) (by omega)
  have hfst := transport_checksum_fst NET_PROTOCOL_UDP b1 A B hA hB (by omega) (by omega)
  have hlen : buf.bytes.length = buf.len := bytes_length buf hinv
  rw [bytes_set16 _ _ _ (by unfold buf_t.inv; rw [hfr.1, hfr.2.1, hfr.2.2.1]; omega)
    (by rw [hfr.1]; omega), hfr.2.2.2, hfst, hb1]
  have e : pseudo_checksum NET_PROTOCOL_UDP A B (udp_hdr_bytes sp dp (buf.len + 8) 0 ++ buf.bytes)
      = checksum16 (A ++ B ++ [0, NET_PROTOCOL_UDP % 256, b1.len / 256 % 256, b1.len % 256] ++
        (udp_hdr_bytes sp dp (buf.len + 8) 0 ++ buf.bytes) ++ List.replicate (b1.len % 2) 0) := by
    unfold pseudo_checksum
    have : (udp_hdr_bytes sp dp (buf.len + 8) 0 ++ buf.bytes).length = b1.len := by
      rw [hl1.1, List.length_append, hlen]; simp [udp_hdr_bytes]; omega
    rw [this]
  rw [← e]
  simp [store16, mem_write, udp_hdr_bytes]
theorem checksum16_lt (data : List Nat) : checksum16 data < 65536 := by
  unfold checksum16
  simp only
  exact Nat.mod_lt _ (by norm_num)

theorem swap16_be (v : Nat) (hv : v < 65536) : swap16 (v / 256 % 256 + 256 * (v % 256)) = v := by
  unfold swap16
  have ha : v / 256 % 256 = v / 256 := Nat.mod_eq_of_lt (by omega)
  have hb : v % 256 < 256 := Nat.mod_lt _ (by omega)
  have hv2 : v = 256 * (v / 256) + v % 256 := (Nat.div_add_mod v 256).symm
  have ha2 : v / 256 < 256 := by omega
  rw [ha]
  generalize v / 256 = a at *
  generalize v % 256 = b at *
  have h1 : (a + 256 * b) % 256 = a := by omega
  have h2 : (a + 256 * b) / 256 = b := by omega
  rw [h1, h2, Nat.mod_eq_of_lt hb]
  omega

theorem udp_in_eq (s : Net) (buf : buf_t) (src_ip : addr_ptr) :
    udp_in s buf src_ip =
      if buf.len < sizeof_udp_hdr_t ∨ buf.len < swap16 (buf.get16 4) then s
      else if buf.get16 6 ≠
          (transport_checksum NET_PROTOCOL_UDP (buf.set16 6 0) src_ip (.val s.net_if_ip)).1 then s
      else
        match map_get s.udp_table (swap16 (load16
          (transport_checksum NET_PROTOCOL_UDP (buf.set16 6 0) src_ip
            (.val s.net_if_ip)).2.payload (buf.data + 2))) s.time with
        | none =>
          icmp_unreachable s
            (buf_add_header (transport_checksum NET_PROTOCOL_UDP (buf.set16 6 0) src_ip
              (.val s.net_if_ip)).2 sizeof_ip_hdr_t)
            (src_ip.deref (buf_add_header (transport_checksum NET_PROTOCOL_UDP (buf.set16 6 0)
              src_ip (.val s.net_if_ip)).2 sizeof_ip_hdr_t) NET_IP_LEN) ICMP_CODE_PORT_UNREACH
        | some handler =>
          s.emit (Event.udp_handler handler
            (buf_remove_header (transport_checksum NET_PROTOCOL_UDP (buf.set16 6 0) src_ip
              (.val s.net_if_ip)).2 sizeof_udp_hdr_t).bytes
            (buf_remove_header (transport_checksum NET_PROTOCOL_UDP (buf.set16 6 0) src_ip
              (.val s.net_if_ip)).2 sizeof_udp_hdr_t).len
            (src_ip.deref (buf_remove_header (transport_checksum NET_PROTOCOL_UDP
              (buf.set16 6 0) src_ip (.val s.net_if_ip)).2 sizeof_udp_hdr_t) NET_IP_LEN)
            (swap16 (load16 (buf_remove_header (transport_checksum NET_PROTOCOL_UDP
              (buf.set16 6 0) src_ip (.val s.net_if_ip)).2 sizeof_udp_hdr_t).payload
              buf.data))) := rfl

/-- What `udp_in` does with a segment as `udp_out` builds it, addressed to an
open port: the handler is invoked once, with the payload, its length, the
source IP and the source port. -/
theorem udp_in_delivers (s : Net) (rb : buf_t) (src : List Nat) (sp dp h : Nat)
    (payload : List Nat) (hsrc : src.length = 4) (hloc : s.net_if_ip.length = 4)
    (hsp : sp < 65536) (hdp : dp < 65536) (hn : payload.length + 8 < 65536)
    (hbytes : rb.bytes = udp_hdr_bytes sp dp (payload.length + 8)
      (pseudo_checksum NET_PROTOCOL_UDP src s.net_if_ip
        (udp_hdr_bytes sp dp (payload.length + 8) 0 ++ payload)) ++ payload)
    (hlen : rb.len = payload.length + 8) (hhead : 12 ≤ rb.data)
    (htail : rb.data + rb.len + rb.len % 2 ≤ rb.payload.length)
    (hport : map_get s.udp_table dp s.time = some h) :
    udp_in s rb (.val src) = s.emit (Event.udp_handler h payload payload.length src sp) := by
  have hinv : rb.inv := by unfold buf_t.inv; omega
  have hc := checksum16_lt (src ++ s.net_if_ip ++
    [0, NET_PROTOCOL_UDP % 256, (udp_hdr_bytes sp dp (payload.length + 8) 0 ++ payload).length
      / 256 % 256, (udp_hdr_bytes sp dp (payload.length + 8) 0 ++ payload).length % 256] ++
    (udp_hdr_bytes sp dp (payload.length + 8) 0 ++ payload) ++
    List.replicate ((udp_hdr_bytes sp dp (payload.length + 8) 0 ++ payload).length % 2) 0)
  change pseudo_checksum NET_PROTOCOL_UDP src s.net_if_ip
    (udp_hdr_bytes sp dp (payload.length + 8) 0 ++ payload) < 65536 at hc
  generalize hcdef : pseudo_checksum NET_PROTOCOL_UDP src s.net_if_ip
    (udp_hdr_bytes sp dp (payload.length + 8) 0 ++ payload) = c at hc hbytes
  -- the fields of the header as the code reads them
  have g4 : rb.get16 4 = (payload.length + 8) / 256 % 256 + 256 * ((payload.length + 8) % 256) := by
    unfold buf_t.get16
    rw [load16_of_bytes rb 4 (by omega), hbytes]
    simp [load16, udp_hdr_bytes]
  have g6 : rb.get16 6 = c := by
    unfold buf_t.get16
    rw [load16_of_bytes rb 6 (by omega), hbytes]
    simp [load16, udp_hdr_bytes]
    omega
  -- the buffer with the checksum field zeroed
  have hb0 : (rb.set16 6 0).bytes = udp_hdr_bytes sp dp (payload.length + 8) 0 ++ payload := by
    rw [bytes_set16 rb 6 0 hinv (by omega), hbytes]
    simp [store16, mem_write, udp_hdr_bytes]
  have hfr := transport_checksum_frame NET_PROTOCOL_UDP (rb.set16 6 0) src s.net_if_ip hsrc hloc
    (by simpa using hhead) (by simpa using htail)
  have hfst := transport_checksum_fst NET_PROTOCOL_UDP (rb.set16 6 0) src s.net_if_ip hsrc hloc
    (by simpa using hhead) (by simpa using htail)
  simp only [set16_len, set16_data, set16_payload_length] at hfr hfst
  have hck : (transport_checksum NET_PROTOCOL_UDP (rb.set16 6 0) (.val src)
      (.val s.net_if_ip)).1 = c := by
    rw [hfst, hb0, ← hcdef]
    unfold pseudo_checksum
    have : (udp_hdr_bytes sp dp (payload.length + 8) 0 ++ payload).length = rb.len := by
      rw [hlen, List.length_append]; simp [udp_hdr_bytes]; omega
    rw [this]
  rw [udp_in_eq]
  rw [if_neg (by rw [g4, swap16_be _ hn]; simp only [sizeof_udp_hdr_t]; omega),
    if_neg (by rw [g6, hck]; simp)]
  generalize hb2 : (transport_checksum NET_PROTOCOL_UDP (rb.set16 6 0) (.val src)
      (.val s.net_if_ip)).2 = b2 at hfr
  have hport2 : swap16 (load16 b2.payload (rb.data + 2)) = dp := by
    rw [← hfr.2.1, load16_of_bytes b2 2 (by rw [hfr.1]; omega), hfr.2.2.2, hb0]
    simp only [load16, udp_hdr_bytes, List.cons_append, List.getD_cons_succ, List.getD_cons_zero]
    exact swap16_be dp hdp
  rw [hport2, hport]
  simp only [sizeof_udp_hdr_t, addr_ptr.deref]
  have e1 : (buf_remove_header b2 8).bytes = payload := by
    rw [bytes_remove_header b2 8 (by rw [hfr.1]; omega), hfr.2.2.2, hb0]
    simp [udp_hdr_bytes]
  have e2 : (buf_remove_header b2 8).len = payload.length := by
    unfold buf_remove_header
    rw [if_neg (by rw [hfr.1]; omega)]
    simp only [hfr.1]; omega
  have e3 : swap16 (load16 (buf_remove_header b2 8).payload rb.data) = sp := by
    unfold buf_remove_header
    rw [if_neg (by rw [hfr.1]; omega)]
    simp only
    have := load16_of_bytes b2 0 (by rw [hfr.1]; omega)
    rw [Nat.add_zero, hfr.2.1] at this
    rw [this, hfr.2.2.2, hb0]
    simp only [load16, udp_hdr_bytes, List.cons_append, List.getD_cons_succ, List.getD_cons_zero]
    exact swap16_be sp hsp
  rw [e1, e2, e3]
theorem ip_out_extends_emit (s : Net) (buf : buf_ref) (ip : List Nat) (protocol : Nat) :
    (ip_out s buf ip protocol).extends (s.emit (Event.ip_out (s.get buf).bytes ip protocol)) := by
  unfold ip_out
  simp only
  split
  · exact extends_trans (ip_fragment_out_extends _ _ _ _ _ _ _) (extends_of_events_eq rfl)
  · refine extends_trans (ip_fragment_out_extends _ _ _ _ _ _ _) ?_
    refine extends_trans (extends_of_events_eq (set_events _ _ _)) ?_
    refine extends_trans (extends_of_events_eq rfl) ?_
    exact ip_out_loop_extends _ _ _ _ _ _

/-- The first thing `ip_out` does to its environment is to record its call. -/
theorem ip_out_events (s : Net) (buf : buf_ref) (ip : List Nat) (protocol : Nat) :
    ∃ rest, (ip_out s buf ip protocol).events = s.events ++
      Event.ip_out (s.get buf).bytes ip protocol :: rest := by
  obtain ⟨es, he⟩ := ip_out_extends_emit s buf ip protocol
  exact ⟨es, by rw [he]; simp [Net.emit]⟩

/-- The first thing `udp_out` does to its environment is the call of `ip_out`
with the segment it has built. -/
theorem udp_out_events (s : Net) (buf : buf_ref) (sp : Nat) (dst_ip : List Nat) (dp : Nat) :
    ∃ rest, (udp_out s buf sp dst_ip dp).events = s.events ++
      Event.ip_out (udp_out_buf s.net_if_ip (s.get buf) sp dst_ip dp).bytes dst_ip
        NET_PROTOCOL_UDP :: rest := by
  unfold udp_out
  simp only
  obtain ⟨es, he⟩ := ip_out_events (s.set buf (udp_out_buf s.net_if_ip (s.get buf) sp dst_ip dp))
    buf dst_ip NET_PROTOCOL_UDP
  have hget : ((s.set buf (udp_out_buf s.net_if_ip (s.get buf) sp dst_ip dp)).get buf)
      = udp_out_buf s.net_if_ip (s.get buf) sp dst_ip dp := by
    cases buf <;> rfl
  rw [hget, set_events] at he
  exact ⟨es, he⟩

/-- Claim C9. Round trip `udp_out` -> `udp_in`: for every payload of length
n ≤ 65527, ports `sp` and `dp`, sender IP A and receiver IP B, the segment
which `udp_out` builds on the host with IP A for destination B (and hands to
`ip_out`), given to `udp_in` on the host with IP B with `src_ip` = A after
`udp_open(dp, h)`, passes the length and checksum checks and invokes `h`
exactly once, with the original payload, its length n, the source IP A and
the source port `sp`. -/
theorem udp_round_trip (sA sB : Net) (buf : buf_ref) (rb : buf_t) (sp dp h : Nat)
    (hA : sA.net_if_ip.length = 4) (hB : sB.net_if_ip.length = 4)
    (hsp : sp < 65536) (hdp : dp < 65536) (hn : (sA.get buf).len ≤ 65527)
    (hroomA : 20 ≤ (sA.get buf).data ∧
      (sA.get buf).data + (sA.get buf).len + (sA.get buf).len % 2 ≤ (sA.get buf).payload.length)
    (hrb : rb.bytes = (udp_out_buf sA.net_if_ip (sA.get buf) sp sB.net_if_ip dp).bytes)
    (hroomB : 12 ≤ rb.data ∧ rb.data + rb.len + rb.len % 2 ≤ rb.payload.length) :
    (∃ rest, (udp_out sA buf sp sB.net_if_ip dp).events = sA.events ++
      Event.ip_out rb.bytes sB.net_if_ip NET_PROTOCOL_UDP :: rest) ∧
    (udp_in (udp_open sB dp h) rb (.val sA.net_if_ip)).events = sB.events ++
      [Event.udp_handler h (sA.get buf).bytes (sA.get buf).len sA.net_if_ip sp] := by
  have hinvA : (sA.get buf).inv := by unfold buf_t.inv; omega
  have hinvB : rb.inv := by unfold buf_t.inv; omega
  have hlA := bytes_length _ hinvA
  have hseg := udp_out_buf_bytes sA.net_if_ip (sA.get buf) sp sB.net_if_ip dp hA hB hroomA.1
    hroomA.2
  refine ⟨by rw [hrb]; exact udp_out_events sA buf sp sB.net_if_ip dp, ?_⟩
  rw [hseg] at hrb
  have hlen : rb.len = (sA.get buf).bytes.length + 8 := by
    rw [← bytes_length rb hinvB, hrb, List.length_append]
    simp [udp_hdr_bytes]; omega
  rw [← hlA] at hrb
  have := udp_in_delivers (udp_open sB dp h) rb sA.net_if_ip sp dp h (sA.get buf).bytes hA hB
    hsp hdp (by omega) hrb hlen hroomB.1 hroomB.2 (map_get_set_same _ _ _ _)
  rw [this, hlA]
  rfl
/-- Witness for C9: "ping" from 10.0.0.2 port 1234 to 10.0.0.3 port 80, where
handler 5 is registered. -/
theorem udp_round_trip_witness :
    (∃ rest, (udp_out host_a_ping .txbuf 1234 host_b.net_if_ip 80).events =
      host_a_ping.events ++
        Event.ip_out example_segment_rx.bytes host_b.net_if_ip NET_PROTOCOL_UDP :: rest) ∧
    (udp_in (udp_open host_b 80 5) example_segment_rx (.val host_a_ping.net_if_ip)).events =
      host_b.events ++ [Event.udp_handler 5 (host_a_ping.get .txbuf).bytes
        (host_a_ping.get .txbuf).len host_a_ping.net_if_ip 1234] :=
  udp_round_trip host_a_ping host_b .txbuf example_segment_rx 1234 80 5 (by decide) (by decide)
    (by decide) (by decide) (by decide!) (by decide!) (by decide!) (by decide!)

/-! ## Theorems: ip_fragment_out -/

theorem get8_set8_same (b : buf_t) (k v : Nat) (h : b.data + k + 1 ≤ b.payload.length) :
    (b.set8 k v).get8 k = v % 256 := by
  unfold buf_t.get8 buf_t.set8 buf_t.write load8
  simp only
  have := getD_mem_write b.payload (b.data + k) [v % 256] 0 (by simpa using h) (by simp)
  simpa using this

theorem set16_ite (b : buf_t) (off : Nat) (c : Prop) [Decidable c] (x y : Nat) :
    (if c then b.set16 off (swap16 x) else b.set16 off (swap16 y))
      = b.set16 off (swap16 (if c then x else y)) := by
  split <;> rfl

theorem ip_fragment_out_buf_shape (lip : List Nat) (buf : buf_t) (ip : List Nat)
    (protocol id offset mf : Nat) (hhead : 20 ≤ buf.data) :
    (ip_fragment_out_buf lip buf ip protocol id offset mf).len = buf.len + 20 ∧
      (ip_fragment_out_buf lip buf ip protocol id offset mf).data = buf.data - 20 ∧
      (ip_fragment_out_buf lip buf ip protocol id offset mf).payload.length
        = buf.payload.length := by
  have hd : ¬ buf.data < 20 := by omega
  unfold ip_fragment_out_buf
  simp only [sizeof_ip_hdr_t, buf_add_header, hd, if_false, set16_ite]
  simp

/-- The datagram which `ip_fragment_out` builds: the header, with the checksum
of the header computed with a zero checksum field, then the payload. -/
theorem ip_fragment_out_buf_bytes (lip : List Nat) (buf : buf_t) (ip : List Nat)
    (protocol id offset mf : Nat) (hlip : lip.length = 4) (hip : ip.length = 4)
    (hhead : 20 ≤ buf.data) (hinv : buf.inv) :
    (ip_fragment_out_buf lip buf ip protocol id offset mf).bytes =
      ip_hdr_bytes (buf.len + 20) id (if mf ≠ 0 then IP_MORE_FRAGMENT ||| offset else offset)
        protocol
        (checksum16 (ip_hdr_bytes (buf.len + 20) id
          (if mf ≠ 0 then IP_MORE_FRAGMENT ||| offset else offset) protocol 0 lip ip))
        lip ip ++ buf.bytes := by
  obtain ⟨len, data, P⟩ := buf
  unfold buf_t.inv at hinv
  simp only at hhead hinv
  have hd : ¬ data < 20 := by omega
  unfold ip_fragment_out_buf
  simp only [sizeof_ip_hdr_t, buf_add_header, hd, if_false, IP_VERSION_4, IP_HDR_LEN_PER_BYTE,
    set16_ite]
  generalize (if mf ≠ 0 then IP_MORE_FRAGMENT ||| offset else offset) = ff
  rw [get8_set8_same _ _ _ (by simp only; omega)]
  generalize ({ len := len + 20, data := data - 20, payload := P } : buf_t).get8 0 = x0
  have hb0 : (x0 % 16 + 16 * 4) % 256 / 16 * 16 + 20 / 4 = 0x45 := by omega
  rw [hb0]
  simp only [buf_t.set8, buf_t.set16, buf_t.write, buf_t.read, buf_t.bytes, store16,
    store16_swap16_bytes, Nat.add_zero]
  generalize (x0 % 16 + 16 * 4) % 256 = x1
  have hck : mem_read (mem_write (mem_write (mem_write (mem_write (mem_write (mem_write
      (mem_write (mem_write (mem_write (mem_write (mem_write P (data - 20) [x1])
        (data - 20) [69 % 256]) (data - 20 + 1) [0 % 256])
        (data - 20 + 2) [(len + 20) / 256 % 256, (len + 20) % 256])
        (data - 20 + 4) [id / 256 % 256, id % 256])
        (data - 20 + 6) [ff / 256 % 256, ff % 256])
        (data - 20 + 8) [IP_DEFALUT_TTL % 256]) (data - 20 + 9) [protocol % 256])
        (data - 20 + 10) [0 % 256, 0 / 256 % 256]) (data - 20 + 12) lip) (data - 20 + 16) ip)
        (data - 20) 20 = ip_hdr_bytes (len + 20) id ff protocol 0 lip ip := by
    rw [show 20 = 1 + (1 + (2 + (2 + (2 + (1 + (1 + (2 + (4 + 4)))))))) by rfl]
    simp only [mem_read_add]
    simp (disch := (first | omega | (simp only [mem_write_length, List.length_cons, List.length_nil, List.length_replicate]; first | done | omega))) only
      [mem_read_write_eq, mem_read_write_right, mem_read_write_left]
    simp [ip_hdr_bytes, IP_DEFALUT_TTL]
  rw [hck]
  generalize checksum16 (ip_hdr_bytes (len + 20) id ff protocol 0 lip ip) = ck
  rw [show len + 20 = 1 + (1 + (2 + (2 + (2 + (1 + (1 + (2 + (4 + (4 + len))))))))) by omega]
  simp only [mem_read_add]
  simp (disch := (first | omega | (simp only [mem_write_length, List.length_cons, List.length_nil, List.length_replicate]; first | done | omega))) only
      [mem_read_write_eq, mem_read_write_right, mem_read_write_left]
  rw [show data - 20 + 1 + 1 + 2 + 2 + 2 + 1 + 1 + 2 + 4 + 4 = data by omega]
  simp [ip_hdr_bytes, IP_DEFALUT_TTL]

/-! ## Theorems: the end-to-end scenario -/

theorem map_get_set_live {κ ν : Type} [DecidableEq κ] (map : map_t κ ν) (key : κ) (value : ν)
    (now t : Nat) (h : map.timeout = 0 ∨ t - now ≤ map.timeout) :
    map_get (map_set map key value now) key t = some value := by
  simp only [map_get, map_set, map_entry_valid, List.find?_cons]
  rcases h with h | h <;> simp [h]

theorem sent_frames_append (a b : List Event) :
    sent_frames (a ++ b) = sent_frames a ++ sent_frames b := by
  induction a with
  | nil => rfl
  | cons e es ih =>
    cases e <;> simp [sent_frames, ih]

theorem udp_send_txbuf (s : Net) (data : List Nat) (hcap : data.length < s.txbuf.payload.length / 2) :
    ((buf_init s.txbuf data.length).write 0 data).len = data.length ∧
      ((buf_init s.txbuf data.length).write 0 data).data
        = s.txbuf.payload.length / 2 - data.length ∧
      ((buf_init s.txbuf data.length).write 0 data).payload.length = s.txbuf.payload.length ∧
      ((buf_init s.txbuf data.length).write 0 data).bytes = data := by
  have hd : ¬ data.length ≥ s.txbuf.payload.length / 2 := by omega
  simp only [buf_init, hd, if_false, buf_t.write, buf_t.bytes, mem_write_length, Nat.add_zero,
    true_and]
  exact mem_read_write_eq _ _ _ _ _ (by omega) rfl rfl

theorem udp_out_buf_shape (A : List Nat) (buf : buf_t) (sp : Nat) (B : List Nat) (dp : Nat)
    (hA : A.length = 4) (hB : B.length = 4) (hhead : 20 ≤ buf.data)
    (htail : buf.data + buf.len + buf.len % 2 ≤ buf.payload.length) :
    (udp_out_buf A buf sp B dp).len = buf.len + 8 ∧
      (udp_out_buf A buf sp B dp).data = buf.data - 8 ∧
      (udp_out_buf A buf sp B dp).payload.length = buf.payload.length := by
  rw [udp_out_buf_eq]
  have hl1 : (((((buf_add_header buf 8).set16 0 (swap16 sp)).set16 2 (swap16 dp)).set16 4
      (swap16 (buf_add_header buf 8).len)).set16 6 0).len = buf.len + 8 ∧
      (((((buf_add_header buf 8).set16 0 (swap16 sp)).set16 2 (swap16 dp)).set16 4
      (swap16 (buf_add_header buf 8).len)).set16 6 0).data = buf.data - 8 ∧
      (((((buf_add_header buf 8).set16 0 (swap16 sp)).set16 2 (swap16 dp)).set16 4
      (swap16 (buf_add_header buf 8).len)).set16 6 0).payload.length = buf.payload.length := by
    simp only [set16_len, set16_data, set16_payload_length, buf_add_header]
    rw [if_neg (by omega)]
    exact ⟨rfl, rfl, rfl⟩
  have hfr := transport_checksum_frame NET_PROTOCOL_UDP _ A B hA hB
    (by rw [hl1.2.1]; omega) (by rw [hl1.1, hl1.2.1, hl1.2.2]; omega)
  simp only [set16_len, set16_data, set16_payload_length]
  rw [hfr.1, hfr.2.1, hfr.2.2.1]
  exact hl1

/-- The header which `ip_fragment_out` builds verifies: `checksum16` over its
twenty bytes is zero. -/
theorem ip_hdr_bytes_checksum (total_len id ff protocol : Nat) (src dst : List Nat)
    (hsrc : src.length = 4) (hdst : dst.length = 4) (hs : IsBytes src) (hd : IsBytes dst) :
    checksum16 (ip_hdr_bytes total_len id ff protocol
      (checksum16 (ip_hdr_bytes total_len id ff protocol 0 src dst)) src dst) = 0 := by
  have hb : IsBytes (ip_hdr_bytes total_len id ff protocol 0 src dst) := by
    intro b hb
    simp only [ip_hdr_bytes, IP_DEFALUT_TTL, List.mem_append, List.mem_cons, List.mem_nil_iff,
      or_false] at hb
    rcases hb with (h | h) | h
    · rcases h with h | h | h | h | h | h | h | h | h | h | h | h <;> omega
    · exact hs b h
    · exact hd b h
  have hfill := checksum16_fill (ip_hdr_bytes total_len id ff protocol 0 src dst) 10 hb
    (by decide) (by simp [ip_hdr_bytes, hsrc, hdst]) (by simp [ip_hdr_bytes, load16])
  have e : store16 (ip_hdr_bytes total_len id ff protocol 0 src dst) 10
      (checksum16 (ip_hdr_bytes total_len id ff protocol 0 src dst))
      = ip_hdr_bytes total_len id ff protocol
        (checksum16 (ip_hdr_bytes total_len id ff protocol 0 src dst)) src dst := by
    simp [store16, mem_write, ip_hdr_bytes]
  rw [e] at hfill
  exact hfill
/-- What `udp_send` does when the payload fits one datagram and the
destination is neither in the ARP table nor pending: the datagram is copied
into the pending store and the ARP request is the one frame handed to the
driver. -/
theorem udp_send_unresolved_eq (s : Net) (data B : List Nat) (sp dp : Nat)
    (hn : data.length ≤ 1472) (hB : B.length = 4) (hmac : s.net_if_mac.length = 6)
    (hip : s.net_if_ip.length = 4)
    (hcap : data.length + 42 ≤ s.txbuf.payload.length / 2)
    (hcache : map_get s.arp_table B s.time = none)
    (hpend : map_get s.arp_buf B s.time = none) :
    udp_send s data sp B dp = { s with
      txbuf := ethernet_out_buf s.net_if_mac
        (arp_req_buf { s with txbuf := udp_send_datagram s data sp B dp } B)
        ether_broadcast_mac NET_PROTOCOL_ARP,
      arp_buf := map_set s.arp_buf B (udp_send_datagram s data sp B dp) s.time,
      ip_id := (s.ip_id + 1) % 2 ^ 16,
      events := s.events ++
        [Event.ip_out (udp_send_segment s data sp B dp).bytes B NET_PROTOCOL_UDP,
        Event.ip_fragment_out (udp_send_segment s data sp B dp).bytes B NET_PROTOCOL_UDP
          s.ip_id 0 0,
        Event.driver_send (ether_broadcast_mac ++ s.net_if_mac ++ [0x08, 0x06] ++
          (arp_req_buf { s with txbuf := udp_send_datagram s data sp B dp } B).bytes ++
          List.replicate 18 0)] } := by
  have htx := udp_send_txbuf s data (by omega)
  have hb1 := udp_out_buf_shape s.net_if_ip ((buf_init s.txbuf data.length).write 0 data) sp B dp
    hip hB (by rw [htx.2.1]; omega) (by rw [htx.1, htx.2.1, htx.2.2.1]; omega)
  have hb2 := ip_fragment_out_buf_shape s.net_if_ip
    (udp_out_buf s.net_if_ip ((buf_init s.txbuf data.length).write 0 data) sp B dp) B
    NET_PROTOCOL_UDP s.ip_id 0 0 (by rw [hb1.2.1, htx.2.1]; omega)
  unfold udp_send_datagram udp_send_segment
  generalize hg1 : udp_out_buf s.net_if_ip ((buf_init s.txbuf data.length).write 0 data) sp B dp
    = b1 at hb1 hb2 ⊢
  generalize hg2 : ip_fragment_out_buf s.net_if_ip b1 B NET_PROTOCOL_UDP s.ip_id 0 0 = b2
    at hb2 ⊢
  have hle : b1.len ≤ data_max_len := by
    rw [hb1.1, htx.1]; simp only [data_max_len, ETHERNET_MAX_TRANSPORT_UNIT, sizeof_ip_hdr_t]
    omega
  unfold udp_send udp_out
  simp only [Net.get, Net.set, hg1]
  unfold ip_out
  simp only [Net.get, Net.emit, hle, if_true]
  unfold ip_fragment_out
  simp only [Net.get, Net.set, Net.emit, hg2]
  unfold arp_out
  simp only [hcache, hpend, Net.get, buf_copy]
  rw [arp_req_eq _ _ (by simp only; rw [hb2.2.2, hb1.2.2, htx.2.2.1]; omega) (by exact hmac)]
  simp only [List.append_assoc, List.cons_append, List.nil_append]
  rfl
/-- The datagram which `udp_send` builds: IP header, UDP header, payload. -/
theorem udp_send_datagram_bytes (s : Net) (data B : List Nat) (sp dp : Nat)
    (hB : B.length = 4) (hip : s.net_if_ip.length = 4)
    (hcap : data.length + 42 ≤ s.txbuf.payload.length / 2) :
    (udp_send_datagram s data sp B dp).len = data.length + 28 ∧
      (udp_send_datagram s data sp B dp).data = s.txbuf.payload.length / 2 - data.length - 28 ∧
      (udp_send_datagram s data sp B dp).payload.length = s.txbuf.payload.length ∧
      (udp_send_datagram s data sp B dp).bytes =
        ip_hdr_bytes (data.length + 28) s.ip_id 0 NET_PROTOCOL_UDP
          (checksum16 (ip_hdr_bytes (data.length + 28) s.ip_id 0 NET_PROTOCOL_UDP 0
            s.net_if_ip B)) s.net_if_ip B ++
        (udp_hdr_bytes sp dp (data.length + 8)
          (pseudo_checksum NET_PROTOCOL_UDP s.net_if_ip B
            (udp_hdr_bytes sp dp (data.length + 8) 0 ++ data)) ++ data) := by
  have htx := udp_send_txbuf s data (by omega)
  have hb1 := udp_out_buf_shape s.net_if_ip ((buf_init s.txbuf data.length).write 0 data) sp B dp
    hip hB (by rw [htx.2.1]; omega) (by rw [htx.1, htx.2.1, htx.2.2.1]; omega)
  have hb1b := udp_out_buf_bytes s.net_if_ip ((buf_init s.txbuf data.length).write 0 data) sp B
    dp hip hB (by rw [htx.2.1]; omega) (by rw [htx.1, htx.2.1, htx.2.2.1]; omega)
  have hb2 := ip_fragment_out_buf_shape s.net_if_ip
    (udp_out_buf s.net_if_ip ((buf_init s.txbuf data.length).write 0 data) sp B dp) B
    NET_PROTOCOL_UDP s.ip_id 0 0 (by rw [hb1.2.1, htx.2.1]; omega)
  have hb2b := ip_fragment_out_buf_bytes s.net_if_ip
    (udp_out_buf s.net_if_ip ((buf_init s.txbuf data.length).write 0 data) sp B dp) B
    NET_PROTOCOL_UDP s.ip_id 0 0 hip hB (by rw [hb1.2.1, htx.2.1]; omega)
    (by unfold buf_t.inv; rw [hb1.1, hb1.2.1, hb1.2.2, htx.1, htx.2.1, htx.2.2.1]; omega)
  unfold udp_send_datagram udp_send_segment
  rw [hb2.1, hb2.2.1, hb2.2.2, hb2b, hb1.1, hb1.2.1, hb1.2.2, hb1b, htx.1, htx.2.1, htx.2.2.1,
    htx.2.2.2]
  refine ⟨by omega, by omega, rfl, ?_⟩
  simp only [ne_eq, not_true_eq_false, if_false]
/-- Claim C10, as amended. End to end, for every payload of n ≤ 1472 bytes:
from a state with no live ARP cache entry and no live pending entry for the
destination B, `udp_send(data, n, sp, B, dp)` hands the driver exactly one
frame, an ARP broadcast request for B; a subsequent `arp_in` of a valid ARP
REPLY whose sender IP is B and sender MAC is M, received while the pending
entry is still live (the clock reads `t`, not more than the pending
time-to-live after the send), hands the driver exactly one further frame: to
M, from the local MAC, ethertype 0x0800, carrying the IPv4 datagram (source
the local IP, destination B, protocol 17, header checksum that verifies) which
carries the UDP datagram with source port `sp`, destination port `dp` and the
payload `data`. -/
theorem udp_send_then_arp_reply (s : Net) (data B : List Nat) (sp dp : Nat) (reply : buf_t)
    (t : Nat) (hn : data.length ≤ 1472) (hB : B.length = 4) (hBb : IsBytes B)
    (hmac : s.net_if_mac.length = 6) (hip : s.net_if_ip.length = 4)
    (hipb : IsBytes s.net_if_ip)
    (hcap : data.length + 42 ≤ s.txbuf.payload.length / 2)
    (hcache : map_get s.arp_table B s.time = none)
    (hpend : map_get s.arp_buf B s.time = none)
    (hrinv : reply.inv) (hrlen : 28 ≤ reply.len)
    (hrhdr : reply.read 0 8 = [0x00, 0x01, 0x08, 0x00, 6, 4, 0x00, 2])
    (hrip : reply.read 14 4 = B)
    (hlive : s.arp_buf.timeout = 0 ∨ t - s.time ≤ s.arp_buf.timeout) :
    ∃ pkt, pkt.length = 28 ∧ mem_read pkt 6 2 = [0x00, 0x01] ∧ mem_read pkt 24 4 = B ∧
      sent_frames (udp_send s data sp B dp).events = sent_frames s.events ++
        [[0xff, 0xff, 0xff, 0xff, 0xff, 0xff] ++ s.net_if_mac ++ [0x08, 0x06] ++ pkt ++
          List.replicate 18 0] ∧
      sent_frames (arp_in { udp_send s data sp B dp with time := t } reply).events =
        sent_frames (udp_send s data sp B dp).events ++
          [reply.read 8 6 ++ s.net_if_mac ++ [0x08, 0x00] ++
            (ip_hdr_bytes (data.length + 28) s.ip_id 0 17
              (checksum16 (ip_hdr_bytes (data.length + 28) s.ip_id 0 17 0 s.net_if_ip B))
              s.net_if_ip B ++
            (udp_hdr_bytes sp dp (data.length + 8)
              (pseudo_checksum 17 s.net_if_ip B
                (udp_hdr_bytes sp dp (data.length + 8) 0 ++ data)) ++ data)) ++
            List.replicate (46 - (data.length + 28)) 0] ∧
      checksum16 (ip_hdr_bytes (data.length + 28) s.ip_id 0 17
        (checksum16 (ip_hdr_bytes (data.length + 28) s.ip_id 0 17 0 s.net_if_ip B))
        s.net_if_ip B) = 0 := by
  have hdg := udp_send_datagram_bytes s data B sp dp hB hip hcap
  have hsm : (reply.read 8 6).length = 6 := by
    unfold buf_t.read; unfold buf_t.inv at hrinv
    exact mem_read_length _ _ _ (by omega)
  have hshape := arp_req_buf_shape { s with txbuf := udp_send_datagram s data sp B dp } B
    (by simp only; rw [hdg.2.2.1]; omega)
  have hfields := arp_req_buf_fields { s with txbuf := udp_send_datagram s data sp B dp } B
    (by simp only; rw [hdg.2.2.1]; omega) hB
  rw [udp_send_unresolved_eq s data B sp dp hn hB hmac hip hcap hcache hpend]
  refine ⟨(arp_req_buf { s with txbuf := udp_send_datagram s data sp B dp } B).bytes,
    ?_, hfields.1, hfields.2, ?_, ?_, ip_hdr_bytes_checksum _ _ _ _ _ _ hip hB hipb hBb⟩
  · unfold buf_t.bytes
    rw [mem_read_length _ _ _ (by rw [hshape.1, hshape.2.1, hshape.2.2]; simp only; omega),
      hshape.1]
  · simp only [sent_frames_append, sent_frames, ether_broadcast_mac]
  · rw [arp_in_valid_eq _ reply 2 hrlen hrhdr (Or.inr rfl)]
    simp only [show ¬ (2 = 1) by decide, false_and, if_false, hrip]
    rw [map_get_set_live _ _ _ _ _ hlive]
    simp only [sent_frames_append, sent_frames]
    rw [ethernet_out_buf_bytes s.net_if_mac _ (reply.read 8 6) NET_PROTOCOL_IP hsm hmac
      (by rw [hdg.2.1]; omega) (by rw [hdg.1, hdg.2.1, hdg.2.2.1]; omega), hdg.1, hdg.2.2.2]
    simp [NET_PROTOCOL_IP, NET_PROTOCOL_UDP]
/-- Counterexample to C10 as stated: host A (pending time-to-live 1) sends
"ping" to the unknown 10.0.0.3 when the clock reads 1000; the valid ARP REPLY
of 10.0.0.3 is received when the clock reads 1005. The pending entry has
expired and `arp_in` hands no further frame to the driver. -/
theorem late_arp_reply_sends_nothing :
    map_get host_a.arp_table [10, 0, 0, 3] host_a.time = none ∧
      map_get host_a.arp_buf [10, 0, 0, 3] host_a.time = none ∧
      (example_arp 2).read 0 8 = [0x00, 0x01, 0x08, 0x00, 6, 4, 0x00, 2] ∧
      (example_arp 2).read 14 4 = [10, 0, 0, 3] ∧
      (sent_frames (udp_send host_a [112, 105, 110, 103] 1234 [10, 0, 0, 3] 80).events).length
        = 1 ∧
      sent_frames (arp_in { udp_send host_a [112, 105, 110, 103] 1234 [10, 0, 0, 3] 80 with
          time := 1005 } (example_arp 2)).events =
        sent_frames (udp_send host_a [112, 105, 110, 103] 1234 [10, 0, 0, 3] 80).events := by
  decide!

/-- Witness for C10 as amended: host A sends "ping" from port 1234 to
10.0.0.3 port 80; the ARP REPLY of 10.0.0.3 at 00-00-00-00-00-03 is received
while the clock still reads 1000. -/
theorem udp_send_then_arp_reply_witness :
    ∃ pkt, pkt.length = 28 ∧ mem_read pkt 6 2 = [0x00, 0x01] ∧
      mem_read pkt 24 4 = [10, 0, 0, 3] ∧
      sent_frames (udp_send host_a [112, 105, 110, 103] 1234 [10, 0, 0, 3] 80).events =
        sent_frames host_a.events ++
        [[0xff, 0xff, 0xff, 0xff, 0xff, 0xff] ++ host_a.net_if_mac ++ [0x08, 0x06] ++ pkt ++
          List.replicate 18 0] ∧
      sent_frames (arp_in { udp_send host_a [112, 105, 110, 103] 1234 [10, 0, 0, 3] 80 with
          time := 1000 } (example_arp 2)).events =
        sent_frames (udp_send host_a [112, 105, 110, 103] 1234 [10, 0, 0, 3] 80).events ++
          [(example_arp 2).read 8 6 ++ host_a.net_if_mac ++ [0x08, 0x00] ++
            (ip_hdr_bytes ([112, 105, 110, 103].length + 28) host_a.ip_id 0 17
              (checksum16 (ip_hdr_bytes ([112, 105, 110, 103].length + 28) host_a.ip_id 0 17 0
                host_a.net_if_ip [10, 0, 0, 3]))
              host_a.net_if_ip [10, 0, 0, 3] ++
            (udp_hdr_bytes 1234 80 ([112, 105, 110, 103].length + 8)
              (pseudo_checksum 17 host_a.net_if_ip [10, 0, 0, 3]
                (udp_hdr_bytes 1234 80 ([112, 105, 110, 103].length + 8) 0 ++
                  [112, 105, 110, 103])) ++ [112, 105, 110, 103])) ++
            List.replicate (46 - ([112, 105, 110, 103].length + 28)) 0] ∧
      checksum16 (ip_hdr_bytes ([112, 105, 110, 103].length + 28) host_a.ip_id 0 17
        (checksum16 (ip_hdr_bytes ([112, 105, 110, 103].length + 28) host_a.ip_id 0 17 0
          host_a.net_if_ip [10, 0, 0, 3]))
        host_a.net_if_ip [10, 0, 0, 3]) = 0 :=
  udp_send_then_arp_reply host_a [112, 105, 110, 103] [10, 0, 0, 3] 1234 80 (example_arp 2) 1000
    (by decide) (by decide) (by decide) (by decide) (by decide) (by decide) (by decide!)
    (by decide) (by decide) (by decide!) (by decide) (by decide!) (by decide!) (by decide)

/-! ## Theorems: ip_out -/

/-- Evaluation for C2: host A, with an empty ARP table and an empty pending
store, calls `ip_out` on the shared transmit buffer holding 2961 bytes (as
`udp_send` and `icmp_resp` do). Three fragments of 1480, 1480 and 1 bytes are
due. The first call of `ip_fragment_out` misses the ARP cache, `arp_req`
rebuilds `txbuf` as the 60-byte ARP request frame, and the loop of `ip_out`
ends: there are two calls only, and the second, with offset 185 and
more_fragments 0, carries the ARP request frame in place of the payload. The
same payload in a buffer of the caller is split as due. -/
theorem ip_out_txbuf_loses_fragments :
    host_a_large.txbuf.bytes = List.replicate 2961 7 ∧
      map_get host_a_large.arp_table [10, 0, 0, 3] host_a_large.time = none ∧
      map_get host_a_large.arp_buf [10, 0, 0, 3] host_a_large.time = none ∧
      fragment_calls (ip_out host_a_large .txbuf [10, 0, 0, 3] 17).events =
        [(List.replicate 1480 7, 0, 0, 1),
          ([255, 255, 255, 255, 255, 255, 0, 0, 0, 0, 0, 2, 8, 6,
            0, 1, 8, 0, 6, 4, 0, 1, 0, 0, 0, 0, 0, 2, 10, 0, 0, 2,
            7, 7, 7, 7, 7, 7, 10, 0, 0, 3] ++ List.replicate 18 0, 0, 185, 0)] ∧
      fragment_calls (ip_out host_a_large_ext .ext [10, 0, 0, 3] 17).events =
        [(List.replicate 1480 7, 0, 0, 1), (List.replicate 1480 7, 0, 185, 1),
          ([7], 0, 370, 0)] := by
  decide!

/-! ## Theorems: checksum16 against the reference Internet checksum -/

theorem oc_add_eq_ocfold (a b : Nat) (ha : a ≤ 65535) (hb : b ≤ 65535) :
    oc_add a b = ocfold (a + b) := by
  unfold oc_add ocfold
  split <;> omega

theorem be_words_le (data : List Nat) (hb : IsBytes data) : ∀ w ∈ be_words data, w ≤ 65535 := by
  induction data using be_words.induct with
  | case1 b0 b1 rest ih =>
    intro w hw
    have h0 : b0 < 256 := hb b0 (by simp)
    have h1 : b1 < 256 := hb b1 (by simp)
    simp only [be_words, List.mem_cons] at hw
    rcases hw with rfl | hw
    · omega
    · exact ih (fun b hm => hb b (by simp [hm])) w hw
  | case2 b0 =>
    intro w hw
    have h0 : b0 < 256 := hb b0 (by simp)
    simp only [be_words, List.mem_singleton] at hw
    omega
  | case3 => intro w hw; simp [be_words] at hw

theorem foldl_oc_add (ws : List Nat) : ∀ acc, acc ≤ 65535 → (∀ w ∈ ws, w ≤ 65535) →
    ws.foldl oc_add acc = ocfold (acc + ws.sum) := by
  induction ws with
  | nil => intro acc h _; simp [ocfold_id acc h]
  | cons w ws ih =>
    intro acc h hw
    have h1 : w ≤ 65535 := hw w (by simp)
    rw [List.foldl_cons, oc_add_eq_ocfold acc w h h1,
      ih _ (ocfold_le _) (fun x hx => hw x (by simp [hx])), ocfold_add, List.sum_cons]
    congr 1; omega

/-- The host-order word sum and the big-endian word sum of a region are related
by a multiplication by 256 modulo 65535. -/
theorem wsum_be_words (data : List Nat) :
    ∃ k, wsum data + 65535 * k = 256 * (be_words data).sum ∧ 256 * k ≤ (be_words data).sum := by
  induction data using be_words.induct with
  | case1 b0 b1 rest ih =>
    obtain ⟨k, h1, h2⟩ := ih
    refine ⟨b0 + k, ?_, ?_⟩
    · simp only [wsum, be_words, List.sum_cons]; omega
    · simp only [be_words, List.sum_cons]; omega
  | case2 b0 => exact ⟨b0, by simp [wsum, be_words]; omega, by simp [be_words]⟩
  | case3 => exact ⟨0, by simp [wsum, be_words], by simp [be_words]⟩

theorem ocfold_decomp (t : Nat) : ∃ k, t = ocfold t + 65535 * k := by
  unfold ocfold
  split
  · exact ⟨0, by omega⟩
  · exact ⟨(t - 1) / 65535, by omega⟩

theorem ocfold_unique (t z a b : Nat) (h : t + 65535 * a = z + 65535 * b) (ht : 0 < t)
    (hz1 : 1 ≤ z) (hz2 : z ≤ 65535) : ocfold t = z := by
  unfold ocfold
  rw [if_neg (by omega)]
  omega

theorem ocfold_pos (t : Nat) (h : 0 < t) : 1 ≤ ocfold t := by
  unfold ocfold; rw [if_neg (by omega)]; omega

/-- The end-around-carry sum over host-order words is the byte swap of the one
over big-endian words. -/
theorem ocfold_wsum_swap (data : List Nat) :
    ocfold (wsum data) =
      256 * (ocfold (be_words data).sum % 256) + ocfold (be_words data).sum / 256 := by
  obtain ⟨k, h1, h2⟩ := wsum_be_words data
  obtain ⟨j, h3⟩ := ocfold_decomp (be_words data).sum
  have h4 := ocfold_le (be_words data).sum
  by_cases hz : (be_words data).sum = 0
  · have hw : wsum data = 0 := by omega
    rw [hw, hz]; simp [ocfold]
  · have h5 := ocfold_pos (be_words data).sum (by omega)
    have hw : 0 < wsum data := by omega
    generalize ocfold (be_words data).sum = y at *
    generalize (be_words data).sum = B at *
    generalize wsum data = W at *
    apply ocfold_unique W _ k (y / 256 + 256 * j)
    · omega
    · exact hw
    · omega
    · omega

theorem checksum16_sums_lt (data : List Nat) :
    ∀ s, IsBytes data → s ≤ 65535 → ∀ v ∈ checksum16_sums data s, v < 2 ^ 17 := by
  induction data using wsum.induct with
  | case1 b0 b1 rest ih =>
    intro s hb hs v hv
    have h0 : b0 < 256 := hb b0 (by simp)
    have h1 : b1 < 256 := hb b1 (by simp)
    have hr : IsBytes rest := fun b hm => hb b (by simp [hm])
    simp only [checksum16_sums, List.mem_cons] at hv
    rcases hv with rfl | hv
    · omega
    · refine ih _ hr ?_ v hv
      have := fold_carry_exit ((s + (b0 + 256 * b1)) % 2 ^ 32) (Nat.mod_lt _ (by norm_num))
      omega
  | case2 b0 =>
    intro s hb hs v hv
    have h0 : b0 < 256 := hb b0 (by simp)
    simp only [checksum16_sums, List.mem_singleton] at hv
    omega
  | case3 => intro s _ _ v hv; simp [checksum16_sums] at hv

/-- Claim C11. For every byte region, of even or odd length, the two bytes
which the result of `checksum16` occupies when stored natively into a header
field are the big-endian encoding (high byte, low byte) of the reference
Internet checksum of the region, although the code reads the words in host
byte order and folds the carries after every addition; and no addition into
the 32-bit accumulator overflows (every untruncated sum is below `2 ^ 17`). -/
theorem checksum16_is_internet_checksum (data mem : List Nat) (off : Nat)
    (hb : IsBytes data) (hin : off + 2 ≤ mem.length) :
    mem_read (store16 mem off (checksum16 data)) off 2 =
        [inet_checksum data / 256, inet_checksum data % 256] ∧
      inet_checksum data < 65536 ∧
      ∀ v ∈ checksum16_sums data 0, v < 2 ^ 32 := by
  have hsw := ocfold_wsum_swap data
  have hle := ocfold_le (be_words data).sum
  have hle2 := ocfold_le (wsum data)
  have hi : inet_checksum data = 65535 - ocfold (be_words data).sum := by
    unfold inet_checksum
    rw [foldl_oc_add _ 0 (by omega) (be_words_le data hb), Nat.zero_add]
  refine ⟨?_, by rw [hi]; omega, fun v hv => ?_⟩
  · have e0 := mem_read_write_same mem off [checksum16 data % 256, checksum16 data / 256 % 256]
      (by simpa using hin)
    simp only [List.length_cons, List.length_nil] at e0
    rw [store16, e0, checksum16_eq data hb, hi]
    generalize ocfold (be_words data).sum = y at *
    generalize ocfold (wsum data) = x at *
    obtain ⟨yh, yl, hy, hyl, hyh⟩ : ∃ yh yl, y = 256 * yh + yl ∧ yl < 256 ∧ yh < 256 :=
      ⟨y / 256, y % 256, by omega, by omega, by omega⟩
    have hx : x = 256 * yl + yh := by rw [hsw, hy]; omega
    have e1 : (65535 - x) % 256 = 255 - yh := by rw [hx]; omega
    have e2 : (65535 - x) / 256 % 256 = 255 - yl := by
      have e : (65535 - x) / 256 = 255 - yl := by rw [hx]; omega
      rw [e]; omega
    have e3 : (65535 - y) / 256 = 255 - yh := by rw [hy]; omega
    have e4 : (65535 - y) % 256 = 255 - yl := by rw [hy]; omega
    rw [e1, e2, e3, e4]
  · have := checksum16_sums_lt data 0 hb (by omega) v hv
    omega

/-- Witness for C11: the region `45 00 00 1c 01` of odd length, stored at
offset 0 of a two-byte field. -/
theorem checksum16_is_internet_checksum_witness :
    mem_read (store16 [0, 0] 0 (checksum16 [0x45, 0x00, 0x00, 0x1c, 0x01])) 0 2 =
        [inet_checksum [0x45, 0x00, 0x00, 0x1c, 0x01] / 256,
          inet_checksum [0x45, 0x00, 0x00, 0x1c, 0x01] % 256] ∧
      inet_checksum [0x45, 0x00, 0x00, 0x1c, 0x01] < 65536 ∧
      ∀ v ∈ checksum16_sums [0x45, 0x00, 0x00, 0x1c, 0x01] 0, v < 2 ^ 32 :=
  checksum16_is_internet_checksum [0x45, 0x00, 0x00, 0x1c, 0x01] [0, 0] 0 (by decide) (by decide)

/-! ## Theorems: the value of transport_checksum -/

theorem checksum16_loop_append_zero (l : List Nat) : ∀ s, l.length % 2 = 1 →
    checksum16_loop (l ++ [0]) s =
      fold_carry (checksum16_loop l s) (checksum16_loop l s) := by
  induction l using wsum.induct with
  | case1 b0 b1 rest ih =>
    intro s h
    simp only [List.length_cons] at h
    simp only [List.cons_append, checksum16_loop]
    exact ih _ (by omega)
  | case2 b0 =>
    intro s _
    simp [checksum16_loop]
  | case3 => intro s h; simp at h

/-- A zero byte appended to a region of odd length does not change its
checksum. -/
theorem checksum16_append_zero (l : List Nat) (h : l.length % 2 = 1) :
    checksum16 (l ++ [0]) = checksum16 l := by
  unfold checksum16
  simp only [checksum16_loop_append_zero l 0 h]
  have hx : checksum16_loop l 0 < 2 ^ 32 := by
    revert h
    generalize (0 : Nat) = s
    induction l using wsum.induct generalizing s with
    | case1 b0 b1 rest ih =>
      intro h
      simp only [List.length_cons] at h
      simp only [checksum16_loop]
      exact ih _ (by omega)
    | case2 b0 => intro _; simp only [checksum16_loop]; exact Nat.mod_lt _ (by norm_num)
    | case3 => intro h; simp at h
  have hy := fold_carry_exit _ hx
  rw [fold_carry_small _ _ hy]

/-- The value `transport_checksum` returns, for a source address read through
any pointer: `src` is what the pointer yields once the pseudo-header space has
been added and before the pseudo-header is written. -/
theorem transport_checksum_fst_ptr (protocol : Nat) (buf : buf_t) (sp : addr_ptr)
    (src dst : List Nat) (hsrc : src.length = 4) (hdst : dst.length = 4)
    (hhead : 12 ≤ buf.data) (hinv : buf.inv)
    (hs : sp.deref { len := buf.len + 12, data := buf.data - 12, payload := buf.payload } 4
      = src) :
    (transport_checksum protocol buf sp (.val dst)).1 =
      checksum16 (src ++ dst ++ [0, protocol % 256, buf.len / 256 % 256, buf.len % 256] ++
        buf.bytes) := by
  obtain ⟨len, data, P⟩ := buf
  simp only at hhead hs
  unfold buf_t.inv at hinv
  simp only at hinv
  unfold transport_checksum
  have hd : ¬ data < 12 := by omega
  simp only [sizeof_udp_peso_hdr_t, buf_add_header, NET_IP_LEN, hd, if_false, hs]
  simp only [addr_ptr.deref]
  simp only [buf_t.write, buf_t.set8, buf_t.set16, buf_t.read, buf_t.bytes, store16,
    store16_swap16_bytes, Nat.add_sub_cancel, Nat.add_zero]
  have hpar : (len + 12) % 2 = len % 2 := by omega
  have hbl : (mem_read P data len).length = len := mem_read_length _ _ _ hinv
  rcases Nat.mod_two_eq_zero_or_one len with h0 | h1
  · rw [hpar, h0]
    simp only [ne_eq, not_true_eq_false, if_false]
    rw [show len + 12 = 4 + (4 + (1 + (1 + (2 + len)))) by omega]
    simp only [mem_read_add]
    simp (disch := (first | omega | (simp only [mem_write_length, List.length_cons, List.length_nil, List.length_replicate]; first | done | omega))) only
      [mem_read_write_eq, mem_read_write_right, mem_read_write_left]
    rw [show data - 12 + 4 + 4 + 1 + 1 + 2 = data by omega]
    simp
  · rw [hpar, h1]
    simp only [ne_eq, one_ne_zero, not_false_eq_true, if_true, buf_add_padding]
    by_cases hroom : data + len + 1 ≤ P.length
    · rw [if_neg (by simp only [mem_write_length]; omega)]
      simp only
      rw [show len + 12 + 1 = 4 + (4 + (1 + (1 + (2 + (len + 1))))) by omega]
      simp only [mem_read_add]
      simp (disch := (first | omega | (simp only [mem_write_length, List.length_cons, List.length_nil, List.length_replicate]; first | done | omega))) only
        [mem_read_write_eq, mem_read_write_right, mem_read_write_left]
      rw [show data - 12 + 4 + 4 + 1 + 1 + 2 = data by omega]
      rw [← checksum16_append_zero (src ++ dst ++ [0, protocol % 256, len / 256 % 256, len % 256] ++
        mem_read P data len) (by simp [hsrc, hdst, hbl]; omega)]
      simp
    · rw [if_pos (by simp only [mem_write_length]; omega)]
      simp only
      rw [show len + 12 = 4 + (4 + (1 + (1 + (2 + len)))) by omega]
      simp only [mem_read_add]
      simp (disch := (first | omega | (simp only [mem_write_length, List.length_cons, List.length_nil, List.length_replicate]; first | done | omega))) only
        [mem_read_write_eq, mem_read_write_right, mem_read_write_left]
      rw [show data - 12 + 4 + 4 + 1 + 1 + 2 = data by omega]
      simp

/-- Claim C12. For every transport segment of length `n ≤ 65535`, even or
odd, every protocol number and addresses, `transport_checksum` returns exactly
`checksum16` of source, destination, a zero byte, the protocol, `n` as a
big-endian 16-bit value and the segment, where `n` is the segment length
without pseudo-header or padding; the one-byte zero padding for odd `n` does
not change the value. The same holds when the source address is read from the
buffer's own storage, 8 to 5 bytes before the segment start, which the
pseudo-header overwrites in place. -/
theorem transport_checksum_is_pseudo_checksum (protocol : Nat) (buf : buf_t)
    (src dst : List Nat) (hsrc : src.length = 4) (hdst : dst.length = 4)
    (hp : protocol < 256) (hn : buf.len ≤ 65535) (hhead : 12 ≤ buf.data) (hinv : buf.inv) :
    (transport_checksum protocol buf (.val src) (.val dst)).1 =
        checksum16 (src ++ dst ++ [0x00, protocol, buf.len / 256, buf.len % 256] ++
          buf.bytes) ∧
      (transport_checksum protocol buf (.own (buf.data - 8)) (.val dst)).1 =
        checksum16 (mem_read buf.payload (buf.data - 8) 4 ++ dst ++
          [0x00, protocol, buf.len / 256, buf.len % 256] ++ buf.bytes) ∧
      (buf.len % 2 = 1 →
        checksum16 (src ++ dst ++ [0x00, protocol, buf.len / 256, buf.len % 256] ++
          buf.bytes ++ [0]) =
        checksum16 (src ++ dst ++ [0x00, protocol, buf.len / 256, buf.len % 256] ++
          buf.bytes)) := by
  have e1 : protocol % 256 = protocol := Nat.mod_eq_of_lt hp
  have e2 : buf.len / 256 % 256 = buf.len / 256 := Nat.mod_eq_of_lt (by omega)
  have hl : (mem_read buf.payload (buf.data - 8) 4).length = 4 := by
    unfold buf_t.inv at hinv
    exact mem_read_length _ _ _ (by omega)
  refine ⟨?_, ?_, ?_⟩
  · rw [transport_checksum_fst_ptr protocol buf (.val src) src dst hsrc hdst hhead hinv rfl,
      e1, e2]
  · rw [transport_checksum_fst_ptr protocol buf (.own (buf.data - 8))
      (mem_read buf.payload (buf.data - 8) 4) dst hl hdst hhead hinv rfl, e1, e2]
  · intro hodd
    apply checksum16_append_zero
    simp [hsrc, hdst, bytes_length buf hinv]
    omega

/-- Witness for C12: a segment of the odd length 13 in the receive buffer of
the example datagram, the source address lying in the IP header before it. -/
theorem transport_checksum_is_pseudo_checksum_witness :
    (transport_checksum 17 example_odd_segment (.val [10, 0, 0, 3]) (.val [10, 0, 0, 2])).1 =
        checksum16 ([10, 0, 0, 3] ++ [10, 0, 0, 2] ++
          [0x00, 17, example_odd_segment.len / 256, example_odd_segment.len % 256] ++
          example_odd_segment.bytes) ∧
      (transport_checksum 17 example_odd_segment (.own (example_odd_segment.data - 8))
          (.val [10, 0, 0, 2])).1 =
        checksum16 (mem_read example_odd_segment.payload (example_odd_segment.data - 8) 4 ++
          [10, 0, 0, 2] ++
          [0x00, 17, example_odd_segment.len / 256, example_odd_segment.len % 256] ++
          example_odd_segment.bytes) ∧
      example_odd_segment.len % 2 = 1 ∧
      checksum16 ([10, 0, 0, 3] ++ [10, 0, 0, 2] ++
          [0x00, 17, example_odd_segment.len / 256, example_odd_segment.len % 256] ++
          example_odd_segment.bytes ++ [0]) =
        checksum16 ([10, 0, 0, 3] ++ [10, 0, 0, 2] ++
          [0x00, 17, example_odd_segment.len / 256, example_odd_segment.len % 256] ++
          example_odd_segment.bytes) :=
  have h := transport_checksum_is_pseudo_checksum 17 example_odd_segment [10, 0, 0, 3]
    [10, 0, 0, 2] (by decide) (by decide) (by decide) (by decide) (by decide) (by decide!)
  ⟨h.1, h.2.1, by decide, h.2.2 (by decide)⟩

/-! ## Theorems: the frame of arp_req -/

/-- The ARP packet which `arp_req` builds, field by field: the target hardware
address is whatever the storage of `txbuf` held at that place before. -/
theorem arp_req_buf_bytes (s : Net) (target_ip : List Nat)
    (hcap : 28 < s.txbuf.payload.length / 2) (hmac : s.net_if_mac.length = 6)
    (hip : s.net_if_ip.length = 4) (ht : target_ip.length = 4) :
    (arp_req_buf s target_ip).bytes =
      [0x00, 0x01, 0x08, 0x00, 6, 4, 0x00, 0x01] ++ s.net_if_mac ++ s.net_if_ip ++
        mem_read s.txbuf.payload (s.txbuf.payload.length / 2 - 28 + 18) 6 ++ target_ip := by
  have hs := arp_req_buf_shape s target_ip hcap
  unfold buf_t.bytes
  rw [hs.1, hs.2.1]
  unfold arp_req_buf
  simp only [sizeof_arp_pkt_t, buf_init]
  rw [if_neg (by omega)]
  simp only [buf_t.set16, buf_t.write, buf_t.set8, store16, store16_swap16_bytes]
  rw [show 28 = 2 + (2 + (1 + (1 + (2 + (6 + (4 + (6 + 4))))))) by rfl]
  simp only [mem_read_add]
  simp (disch := (first | omega | (simp only [mem_write_length, List.length_cons, List.length_nil, List.length_replicate]; first | done | omega))) only
      [mem_read_write_eq, mem_read_write_right, mem_read_write_left]
  simp [ARP_REQUEST, ARP_HW_ETHER, NET_PROTOCOL_IP, NET_MAC_LEN, NET_IP_LEN]

/-- The frame which `arp_req` hands to the driver: as a broadcast ARP request
should be, except for the target hardware address, which is not written and
shows the six bytes that the storage of `txbuf` held there before the call. -/
theorem arp_req_frame (s : Net) (target_ip : List Nat)
    (hcap : 42 ≤ s.txbuf.payload.length / 2) (hmac : s.net_if_mac.length = 6)
    (hip : s.net_if_ip.length = 4) (ht : target_ip.length = 4) :
    (arp_req s target_ip).events = s.events ++ [Event.driver_send
      ([0xff, 0xff, 0xff, 0xff, 0xff, 0xff] ++ s.net_if_mac ++ [0x08, 0x06] ++
        ([0x00, 0x01, 0x08, 0x00, 6, 4, 0x00, 0x01] ++ s.net_if_mac ++ s.net_if_ip ++
          mem_read s.txbuf.payload (s.txbuf.payload.length / 2 - 10) 6 ++ target_ip) ++
        List.replicate 18 0)] := by
  rw [arp_req_eq s target_ip hcap hmac, arp_req_buf_bytes s target_ip (by omega) hmac hip ht]
  simp only [ether_broadcast_mac]
  rw [show s.txbuf.payload.length / 2 - 28 + 18 = s.txbuf.payload.length / 2 - 10 by omega]

/-- Evaluation for C13: the target hardware address of the ARP request is not
zero. With the storage of `txbuf` filled with `aa` the request for 10.0.0.3
carries the target address `aa:aa:aa:aa:aa:aa`; sent by `udp_send` of "ping"
from a host whose `txbuf` was all zero, it carries `00:50:00:0c:07:df`, six
bytes of the UDP header that was in `txbuf`. Only over zero bytes is the frame
the one of the claim. -/
theorem arp_req_target_mac_stale :
    sent_frames (arp_req host_a [10, 0, 0, 3]).events =
        [[0xff, 0xff, 0xff, 0xff, 0xff, 0xff, 0, 0, 0, 0, 0, 2, 0x08, 0x06,
          0, 1, 8, 0, 6, 4, 0, 1, 0, 0, 0, 0, 0, 2, 10, 0, 0, 2,
          0xaa, 0xaa, 0xaa, 0xaa, 0xaa, 0xaa, 10, 0, 0, 3] ++ List.replicate 18 0] ∧
      sent_frames (udp_send { host_a with txbuf := example_buf 256 0 } [112, 105, 110, 103]
          1234 [10, 0, 0, 3] 80).events =
        [[0xff, 0xff, 0xff, 0xff, 0xff, 0xff, 0, 0, 0, 0, 0, 2, 0x08, 0x06,
          0, 1, 8, 0, 6, 4, 0, 1, 0, 0, 0, 0, 0, 2, 10, 0, 0, 2,
          0x00, 0x50, 0x00, 0x0c, 0x07, 0xdf, 10, 0, 0, 3] ++ List.replicate 18 0] ∧
      sent_frames (arp_req { host_a with txbuf := example_buf 256 0 } [10, 0, 0, 3]).events =
        [[0xff, 0xff, 0xff, 0xff, 0xff, 0xff, 0, 0, 0, 0, 0, 2, 0x08, 0x06,
          0, 1, 8, 0, 6, 4, 0, 1, 0, 0, 0, 0, 0, 2, 10, 0, 0, 2,
          0, 0, 0, 0, 0, 0, 10, 0, 0, 3] ++ List.replicate 18 0] := by
  decide!

/-! ## Theorems: arp_in, replies and the cache -/

theorem getD_lt_of_isBytes (mem : List Nat) (i : Nat) (hb : IsBytes mem) :
    mem.getD i 0 < 256 := by
  by_cases h : i < mem.length
  · rw [List.getD_eq_getElem _ _ h]
    exact hb _ (List.getElem_mem h)
  · rw [List.getD_eq_default _ _ (by omega)]
    omega

theorem swap16_load16_eq (mem : List Nat) (off c : Nat) (hb : IsBytes mem) (hc : c < 65536) :
    swap16 (load16 mem off) = c ↔ load16 mem off = swap16 c := by
  have h0 := getD_lt_of_isBytes mem off hb
  have h1 := getD_lt_of_isBytes mem (off + 1) hb
  unfold load16 swap16
  generalize mem.getD off 0 = a at *
  generalize mem.getD (off + 1) 0 = b at *
  have e1 : (a + 256 * b) % 256 = a := by omega
  have e2 : (a + 256 * b) / 256 % 256 = b := by
    have : (a + 256 * b) / 256 = b := by omega
    rw [this]; omega
  obtain ⟨ch, cl, hcc, hcl, hch⟩ : ∃ ch cl, c = 256 * ch + cl ∧ cl < 256 ∧ ch < 256 :=
    ⟨c / 256, c % 256, by omega, by omega, by omega⟩
  have e3 : c % 256 = cl := by omega
  have e4 : c / 256 % 256 = ch := by
    have : c / 256 = ch := by omega
    rw [this]; omega
  rw [e1, e2, e3, e4]
  constructor <;> intro h <;> omega

/-- The header check of `arp_in` accepts exactly the valid packets. -/
theorem arp_in_valid_iff (buf : buf_t) (hb : IsBytes buf.payload) :
    arp_in_valid buf ↔ (28 ≤ buf.len ∧ arp_hdr_ok buf = true) := by
  unfold arp_in_valid arp_hdr_ok buf_t.get16
  rw [swap16_load16_eq _ _ 1 hb (by norm_num), swap16_load16_eq _ _ 0x0800 hb (by norm_num),
    swap16_load16_eq _ _ 1 hb (by norm_num), swap16_load16_eq _ _ 2 hb (by norm_num)]
  simp only [ARP_HW_ETHER, NET_PROTOCOL_IP, NET_MAC_LEN, NET_IP_LEN, ARP_REQUEST, ARP_REPLY,
    Bool.not_eq_true', Bool.or_eq_false_iff, Bool.and_eq_false_imp, bne_eq_false_iff_eq,
    bne_iff_ne, ne_eq, Bool.not_eq_eq_eq_not, Bool.not_true]
  constructor
  · rintro ⟨h1, h2, h3, h4, h5, h6⟩
    refine ⟨h1, ?_⟩
    simp [h2, h3, h4, h5]
    tauto
  · rintro ⟨h1, h2⟩
    simp at h2
    refine ⟨h1, h2.1.1.1.1, h2.1.1.1.2, h2.1.1.2, h2.1.2, ?_⟩
    tauto

theorem arp_in_invalid (s : Net) (buf : buf_t) (h : ¬ (28 ≤ buf.len ∧ arp_hdr_ok buf = true)) :
    arp_in s buf = s := by
  unfold arp_in
  by_cases hlen : buf.len < sizeof_arp_pkt_t
  · rw [if_pos hlen]
  · rw [if_neg hlen]
    have hok : arp_hdr_ok buf = false := by
      simp only [sizeof_arp_pkt_t] at hlen
      cases hh : arp_hdr_ok buf with
      | false => rfl
      | true => exact absurd ⟨by omega, hh⟩ h
    simp [hok]

/-- What `arp_in` does with a packet that passes its checks. -/
theorem arp_in_ok_eq (s : Net) (buf : buf_t) (hlen : 28 ≤ buf.len)
    (hok : arp_hdr_ok buf = true) :
    arp_in s buf =
      if buf.get16 6 = swap16 ARP_REQUEST ∧ buf.read 24 4 = s.net_if_ip then
        arp_resp
          (match map_get s.arp_buf (buf.read 14 4) s.time with
          | some pkt =>
            { s with
              arp_table := map_set s.arp_table (buf.read 14 4) (buf.read 8 6) s.time,
              arp_buf := map_delete s.arp_buf (buf.read 14 4),
              events := s.events ++ [Event.driver_send
                (ethernet_out_buf s.net_if_mac pkt (buf.read 8 6) NET_PROTOCOL_IP).bytes] }
          | none =>
            { s with
              arp_table := map_set s.arp_table (buf.read 14 4) (buf.read 8 6) s.time })
          (buf.read 14 4) (buf.read 8 6)
      else
        (match map_get s.arp_buf (buf.read 14 4) s.time with
        | some pkt =>
          { s with
            arp_table := map_set s.arp_table (buf.read 14 4) (buf.read 8 6) s.time,
            arp_buf := map_delete s.arp_buf (buf.read 14 4),
            events := s.events ++ [Event.driver_send
              (ethernet_out_buf s.net_if_mac pkt (buf.read 8 6) NET_PROTOCOL_IP).bytes] }
        | none =>
          { s with
            arp_table := map_set s.arp_table (buf.read 14 4) (buf.read 8 6) s.time }) := by
  unfold arp_in
  rw [if_neg (by simp only [sizeof_arp_pkt_t]; omega), hok]
  simp only [Bool.not_true, Bool.false_eq_true, if_false, NET_MAC_LEN, NET_IP_LEN,
    driver_send, Net.emit]
  cases map_get s.arp_buf (buf.read 14 4) s.time <;> rfl

/-- A frame which `ethernet_out` builds with the ethertype of IP is not an ARP
reply, whatever the buffer. -/
theorem ethernet_out_buf_ip_not_arp (m : List Nat) (buf : buf_t) (mac : List Nat) :
    ¬ is_arp_reply (ethernet_out_buf m buf mac NET_PROTOCOL_IP).bytes := by
  intro h
  have h13 := getD_eq_of_mem_read _ 12 2 1 _ h.1 (by simp)
  have hl : 14 ≤ (ethernet_out_buf m buf mac NET_PROTOCOL_IP).bytes.length := by
    have := congrArg List.length h.1
    unfold mem_read at this
    simp only [List.length_take, List.length_drop, List.length_cons, List.length_nil] at this
    omega
  simp only [List.getD_cons_succ, List.getD_cons_zero] at h13
  unfold ethernet_out_buf at h13 hl
  simp only [buf_t.bytes, buf_t.set16, buf_t.write, store16, store16_swap16_bytes] at h13 hl
  generalize (buf_add_header (if buf.len < ETHERNET_MIN_TRANSPORT_UNIT then
    buf_add_padding buf (ETHERNET_MIN_TRANSPORT_UNIT - buf.len) else buf)
    sizeof_ether_hdr_t) = b at h13 hl
  unfold mem_read at hl
  simp only [List.length_take, List.length_drop, mem_write_length] at hl
  rw [getD_mem_read, if_pos (by omega),
    getD_mem_write_full _ _ _ _ (by simp only [mem_write_length, List.length_cons, List.length_nil]; omega)] at h13
  rw [if_pos ⟨by omega, by simp only [List.length_cons, List.length_nil]; omega⟩] at h13
  rw [show b.data + (12 + 1) - (b.data + 12) = 1 by omega] at h13
  simp [NET_PROTOCOL_IP] at h13

theorem arp_reply_frame_is_arp_reply (m ip sm si : List Nat) (hm : m.length = 6)
    (hsm : sm.length = 6) : is_arp_reply (arp_reply_frame m ip sm si) := by
  match sm, hsm, m, hm with
  | [a0, a1, a2, a3, a4, a5], _, [b0, b1, b2, b3, b4, b5], _ =>
    simp [is_arp_reply, arp_reply_frame, mem_read]

theorem arp_in_request_iff (s : Net) (buf : buf_t) (hb : IsBytes buf.payload) :
    arp_in_request_for s.net_if_ip buf ↔
      (buf.get16 6 = swap16 ARP_REQUEST ∧ buf.read 24 4 = s.net_if_ip) := by
  unfold arp_in_request_for buf_t.get16
  rw [swap16_load16_eq _ _ 1 hb (by norm_num)]
  simp [ARP_REQUEST]

/-- Claim C14. For every inbound buffer, the ARP replies among the frames
which `arp_in` hands to the driver are: exactly one, if the packet is valid
(length at least 28, hardware type 1, protocol type 0x0800, hardware length 6,
protocol length 4, opcode REQUEST or REPLY), its opcode is REQUEST and its
target IP is the local IP; none otherwise. That reply is the frame sent
unicast to the requester's sender MAC with ethertype 0x0806 whose ARP packet
has opcode 2, the local MAC and IP as sender and the requester's sender MAC and
IP as target. -/
theorem arp_in_reply_iff (s : Net) (buf : buf_t) (hinv : buf.inv) (hb : IsBytes buf.payload)
    (hcap : 42 ≤ s.txbuf.payload.length / 2) (hmac : s.net_if_mac.length = 6)
    (hip : s.net_if_ip.length = 4) :
    ∃ new, sent_frames (arp_in s buf).events = sent_frames s.events ++ new ∧
      new.filter (fun f => decide (is_arp_reply f)) =
        (if arp_in_valid buf ∧ arp_in_request_for s.net_if_ip buf then
          [arp_reply_frame s.net_if_mac s.net_if_ip (buf.read 8 6) (buf.read 14 4)]
        else []) ∧
      ((∃ f ∈ new, is_arp_reply f) ↔
        (arp_in_valid buf ∧ arp_in_request_for s.net_if_ip buf)) := by
  have key : ∃ new, sent_frames (arp_in s buf).events = sent_frames s.events ++ new ∧
      new.filter (fun f => decide (is_arp_reply f)) =
        (if arp_in_valid buf ∧ arp_in_request_for s.net_if_ip buf then
          [arp_reply_frame s.net_if_mac s.net_if_ip (buf.read 8 6) (buf.read 14 4)]
        else []) := by
    by_cases hv : arp_in_valid buf
    · obtain ⟨hlen, hok⟩ := (arp_in_valid_iff buf hb).1 hv
      have hsm : (buf.read 8 6).length = 6 := by
        unfold buf_t.read; unfold buf_t.inv at hinv
        exact mem_read_length _ _ _ (by omega)
      have hsi : (buf.read 14 4).length = 4 := by
        unfold buf_t.read; unfold buf_t.inv at hinv
        exact mem_read_length _ _ _ (by omega)
      have hrep := arp_reply_frame_is_arp_reply s.net_if_mac s.net_if_ip (buf.read 8 6)
        (buf.read 14 4) hmac hsm
      rw [arp_in_ok_eq s buf hlen hok]
      by_cases hreq : arp_in_request_for s.net_if_ip buf
      · rw [if_pos ((arp_in_request_iff s buf hb).1 hreq), if_pos ⟨hv, hreq⟩]
        cases hp : map_get s.arp_buf (buf.read 14 4) s.time with
        | none =>
          refine ⟨[arp_reply_frame s.net_if_mac s.net_if_ip (buf.read 8 6) (buf.read 14 4)],
            ?_, ?_⟩
          · rw [arp_resp_eq _ _ _ (by exact hcap) (by exact hmac) (by exact hip) hsi hsm]
            simp only [sent_frames_append, sent_frames, arp_reply_frame]
          · simp [hrep]
        | some pkt =>
          refine ⟨[(ethernet_out_buf s.net_if_mac pkt (buf.read 8 6) NET_PROTOCOL_IP).bytes,
            arp_reply_frame s.net_if_mac s.net_if_ip (buf.read 8 6) (buf.read 14 4)], ?_, ?_⟩
          · rw [arp_resp_eq _ _ _ (by exact hcap) (by exact hmac) (by exact hip) hsi hsm]
            simp only [sent_frames_append, sent_frames, arp_reply_frame, List.append_assoc,
              List.cons_append, List.nil_append]
          · simp [hrep, ethernet_out_buf_ip_not_arp]
      · rw [if_neg (fun h => hreq ((arp_in_request_iff s buf hb).2 h)), if_neg (fun h => hreq h.2)]
        cases hp : map_get s.arp_buf (buf.read 14 4) s.time with
        | none => exact ⟨[], by simp, by simp⟩
        | some pkt =>
          refine ⟨[(ethernet_out_buf s.net_if_mac pkt (buf.read 8 6) NET_PROTOCOL_IP).bytes],
            ?_, ?_⟩
          · simp only [sent_frames_append, sent_frames]
          · simp [ethernet_out_buf_ip_not_arp]
    · rw [arp_in_invalid s buf (fun h => hv ((arp_in_valid_iff buf hb).2 h)),
        if_neg (fun h => hv h.1)]
      exact ⟨[], by simp, by simp⟩
  obtain ⟨new, h1, h2⟩ := key
  refine ⟨new, h1, h2, ?_⟩
  constructor
  · rintro ⟨f, hf, hr⟩
    by_contra hc
    rw [if_neg hc] at h2
    have : f ∈ new.filter (fun f => decide (is_arp_reply f)) := by
      simp [List.mem_filter, hf, hr]
    rw [h2] at this
    simp at this
  · intro hc
    rw [if_pos hc] at h2
    have : arp_reply_frame s.net_if_mac s.net_if_ip (buf.read 8 6) (buf.read 14 4) ∈
        new.filter (fun f => decide (is_arp_reply f)) := by rw [h2]; simp
    rw [List.mem_filter] at this
    exact ⟨_, this.1, by simpa using this.2⟩

/-- Witness for C14: host A with a datagram pending for 10.0.0.3 receives an
ARP REQUEST from 10.0.0.3 for its own IP. -/
theorem arp_in_reply_iff_witness :
    ∃ new, sent_frames (arp_in host_a_pending (example_arp 1)).events =
        sent_frames host_a_pending.events ++ new ∧
      new.filter (fun f => decide (is_arp_reply f)) =
        (if arp_in_valid (example_arp 1) ∧
            arp_in_request_for host_a_pending.net_if_ip (example_arp 1) then
          [arp_reply_frame host_a_pending.net_if_mac host_a_pending.net_if_ip
            ((example_arp 1).read 8 6) ((example_arp 1).read 14 4)]
        else []) ∧
      ((∃ f ∈ new, is_arp_reply f) ↔
        (arp_in_valid (example_arp 1) ∧
          arp_in_request_for host_a_pending.net_if_ip (example_arp 1))) :=
  arp_in_reply_iff host_a_pending (example_arp 1) (by decide!) (by decide!) (by decide!)
    (by decide) (by decide)

/-! ### The cache -/

theorem ethernet_out_arp_table (s : Net) (buf : buf_ref) (mac : List Nat) (protocol : Nat) :
    (ethernet_out s buf mac protocol).arp_table = s.arp_table ∧
      (ethernet_out s buf mac protocol).time = s.time := by
  cases buf <;> exact ⟨rfl, rfl⟩

/-- Claim C20. For every inbound buffer: if its length is below 28, or the
hardware type is not 1, or the protocol type is not 0x0800, or the hardware
length is not 6, or the protocol length is not 4, or the opcode is neither
REQUEST nor REPLY, then `arp_in` leaves the ARP cache and the pending store
unchanged and hands nothing to the driver (the whole state is unchanged);
otherwise, whatever the cache held before and whatever the opcode and the
target IP, after `arp_in` the cache maps the sender IP of the packet to its
sender MAC. -/
theorem arp_in_updates_cache (s : Net) (buf : buf_t) (hb : IsBytes buf.payload) :
    (¬ arp_in_valid buf →
      (arp_in s buf).arp_table = s.arp_table ∧ (arp_in s buf).arp_buf = s.arp_buf ∧
        sent_frames (arp_in s buf).events = sent_frames s.events ∧ arp_in s buf = s) ∧
    (arp_in_valid buf →
      map_get (arp_in s buf).arp_table (buf.read 14 4) (arp_in s buf).time =
        some (buf.read 8 6)) := by
  constructor
  · intro hv
    rw [arp_in_invalid s buf (fun h => hv ((arp_in_valid_iff buf hb).2 h))]
    exact ⟨rfl, rfl, rfl, rfl⟩
  · intro hv
    obtain ⟨hlen, hok⟩ := (arp_in_valid_iff buf hb).1 hv
    rw [arp_in_ok_eq s buf hlen hok]
    split
    · unfold arp_resp
      rw [(ethernet_out_arp_table _ _ _ _).1, (ethernet_out_arp_table _ _ _ _).2]
      cases map_get s.arp_buf (buf.read 14 4) s.time <;> exact map_get_set_same _ _ _ _
    · cases map_get s.arp_buf (buf.read 14 4) s.time <;> exact map_get_set_same _ _ _ _

/-- Witness for C20: host A, whose cache is empty, receives an ARP packet from
10.0.0.3 with the unsupported opcode 3, and a valid ARP REPLY from 10.0.0.3. -/
theorem arp_in_updates_cache_witness :
    (¬ arp_in_valid (example_arp 3) ∧
      (arp_in host_a (example_arp 3)).arp_table = host_a.arp_table ∧
        (arp_in host_a (example_arp 3)).arp_buf = host_a.arp_buf ∧
        sent_frames (arp_in host_a (example_arp 3)).events = sent_frames host_a.events ∧
        arp_in host_a (example_arp 3) = host_a) ∧
    (arp_in_valid (example_arp 2) ∧
      map_get (arp_in host_a (example_arp 2)).arp_table ((example_arp 2).read 14 4)
        (arp_in host_a (example_arp 2)).time = some ((example_arp 2).read 8 6)) :=
  ⟨⟨by decide!, (arp_in_updates_cache host_a (example_arp 3) (by decide!)).1 (by decide!)⟩,
    ⟨by decide!, (arp_in_updates_cache host_a (example_arp 2) (by decide!)).2 (by decide!)⟩⟩

/-! ## Theorems: the frame of ethernet_out -/

theorem ethernet_out_events (s : Net) (buf : buf_ref) (mac : List Nat) (protocol : Nat) :
    (ethernet_out s buf mac protocol).events = s.events ++
      [Event.driver_send (ethernet_out_buf s.net_if_mac (s.get buf) mac protocol).bytes] := by
  cases buf <;> rfl

theorem ip_out_calls_append (a b : List Event) :
    ip_out_calls (a ++ b) = ip_out_calls a ++ ip_out_calls b := by
  induction a with
  | nil => rfl
  | cons e es ih => cases e <;> simp [ip_out_calls, ih]

theorem ethernet_out_ip_out_calls (s : Net) (buf : buf_ref) (mac : List Nat) (protocol : Nat) :
    ip_out_calls (ethernet_out s buf mac protocol).events = ip_out_calls s.events := by
  rw [ethernet_out_events, ip_out_calls_append]
  simp [ip_out_calls]

theorem arp_out_ip_out_calls (s : Net) (buf : buf_ref) (ip : List Nat) :
    ip_out_calls (arp_out s buf ip).events = ip_out_calls s.events := by
  unfold arp_out
  split
  · exact ethernet_out_ip_out_calls _ _ _ _
  · split
    · unfold arp_req
      rw [ethernet_out_ip_out_calls]
    · rfl

theorem ip_fragment_out_ip_out_calls (s : Net) (buf : buf_ref) (ip : List Nat)
    (protocol id offset mf : Nat) :
    ip_out_calls (ip_fragment_out s buf ip protocol id offset mf).events =
      ip_out_calls s.events := by
  unfold ip_fragment_out
  simp only
  rw [arp_out_ip_out_calls, set_events]
  simp [Net.emit, ip_out_calls_append, ip_out_calls]

theorem ip_out_loop_ip_out_calls (fuel : Nat) : ∀ (s : Net) (buf : buf_ref) (ip : List Nat)
    (protocol off : Nat),
    ip_out_calls (ip_out_loop fuel s buf ip protocol off).1.events = ip_out_calls s.events := by
  induction fuel with
  | zero => intro s buf ip protocol off; rfl
  | succ n ih =>
    intro s buf ip protocol off
    unfold ip_out_loop
    split
    · simp only
      rw [ih, ip_fragment_out_ip_out_calls, set_events]
    · rfl

/-- A call of `ip_out` is recorded once, and nothing below it calls `ip_out`
again. -/
theorem ip_out_ip_out_calls (s : Net) (buf : buf_ref) (ip : List Nat) (protocol : Nat) :
    ip_out_calls (ip_out s buf ip protocol).events =
      ip_out_calls s.events ++ [((s.get buf).bytes, ip, protocol)] := by
  have he : ip_out_calls (s.emit (Event.ip_out (s.get buf).bytes ip protocol)).events =
      ip_out_calls s.events ++ [((s.get buf).bytes, ip, protocol)] := by
    simp [Net.emit, ip_out_calls_append, ip_out_calls]
  unfold ip_out
  simp only
  split
  · rw [ip_fragment_out_ip_out_calls]
    exact he
  · rw [ip_fragment_out_ip_out_calls, set_events]
    simp only
    rw [ip_out_loop_ip_out_calls]
    exact he
theorem echo_reply_fields (R : List Nat) (hb : IsBytes R) (h8 : 8 ≤ R.length) :
    store16 (store16 (store16 (mem_write (mem_write R 0 [0]) 1 [0]) 2 0) 4 (load16 R 4)) 6
      (load16 R 6) = [0, 0, 0, 0] ++ R.drop 4 := by
  match R, h8 with
  | a0 :: a1 :: a2 :: a3 :: a4 :: a5 :: a6 :: a7 :: rest, _ =>
    have h4 : a4 < 256 := hb a4 (by simp)
    have h5 : a5 < 256 := hb a5 (by simp)
    have h6 : a6 < 256 := hb a6 (by simp)
    have h7 : a7 < 256 := hb a7 (by simp)
    have e4 : (a4 + 256 * a5) % 256 = a4 := by omega
    have e5 : (a4 + 256 * a5) / 256 % 256 = a5 := by
      have : (a4 + 256 * a5) / 256 = a5 := by omega
      rw [this]; omega
    have e6 : (a6 + 256 * a7) % 256 = a6 := by omega
    have e7 : (a6 + 256 * a7) / 256 % 256 = a7 := by
      have : (a6 + 256 * a7) / 256 = a7 := by omega
      rw [this]; omega
    simp [store16, mem_write, load16, e4, e5, e6, e7]

theorem isBytes_bytes (b : buf_t) (hb : IsBytes b.payload) : IsBytes b.bytes := by
  intro x hx
  exact hb x (List.mem_of_mem_drop (List.mem_of_mem_take hx))

/-- The message which `icmp_resp` builds in `txbuf` is the Echo-Reply to the
request. -/
theorem icmp_resp_buf_bytes (s : Net) (req : buf_t) (hinv : req.inv) (hb : IsBytes req.payload)
    (hlen : 8 ≤ req.len) (hcap : req.len < s.txbuf.payload.length / 2) :
    (icmp_resp_buf s.txbuf req).bytes = icmp_echo_reply_msg req.bytes := by
  have hl := bytes_length req hinv
  have hR := isBytes_bytes req hb
  have hrd : req.read 0 req.len = req.bytes := by
    unfold buf_t.read buf_t.bytes; rw [Nat.add_zero]
  have h0 := udp_send_txbuf s req.bytes (by rw [hl]; exact hcap)
  rw [hl] at h0
  obtain ⟨h0l, h0d, h0p, h0b⟩ := h0
  have hi0 : ((buf_init s.txbuf req.len).write 0 req.bytes).inv := by
    unfold buf_t.inv; rw [h0l, h0d, h0p]; omega
  have g4 : req.get16 4 = load16 req.bytes 4 := load16_of_bytes req 4 (by omega)
  have g6 : req.get16 6 = load16 req.bytes 6 := load16_of_bytes req 6 (by omega)
  unfold icmp_resp_buf
  simp only [hrd, ICMP_TYPE_ECHO_REPLY, g4, g6]
  generalize hT : (buf_init s.txbuf req.len).write 0 req.bytes = T at *
  have i1 : (T.set8 0 0).inv := by unfold buf_t.inv at *; simpa using hi0
  have i2 : ((T.set8 0 0).set8 1 0).inv := by unfold buf_t.inv at *; simpa using hi0
  have i3 : (((T.set8 0 0).set8 1 0).set16 2 0).inv := by unfold buf_t.inv at *; simpa using hi0
  have i4 : ((((T.set8 0 0).set8 1 0).set16 2 0).set16 4 (load16 req.bytes 4)).inv := by
    unfold buf_t.inv at *; simpa using hi0
  have i5 : (((((T.set8 0 0).set8 1 0).set16 2 0).set16 4 (load16 req.bytes 4)).set16 6
      (load16 req.bytes 6)).inv := by unfold buf_t.inv at *; simpa using hi0
  have hb5 : (((((T.set8 0 0).set8 1 0).set16 2 0).set16 4 (load16 req.bytes 4)).set16 6
      (load16 req.bytes 6)).bytes = [0, 0, 0, 0] ++ req.bytes.drop 4 := by
    rw [bytes_set16 _ _ _ i4 (by simp; omega), bytes_set16 _ _ _ i3 (by simp; omega),
      bytes_set16 _ _ _ i2 (by simp; omega)]
    unfold buf_t.set8
    rw [bytes_write _ _ _ (by unfold buf_t.inv at *; simpa using hi0) (by simp; omega),
      bytes_write _ _ _ hi0 (by simp; omega), h0b]
    exact echo_reply_fields req.bytes hR (by omega)
  have hrd5 : ∀ b : buf_t, b.read 0 b.len = b.bytes := by
    intro b; unfold buf_t.read buf_t.bytes; rw [Nat.add_zero]
  rw [hrd5, bytes_set16 _ _ _ i5 (by simp; omega), hb5]
  rfl

theorem icmp_echo_reply_msg_spec (req : List Nat) (hb : IsBytes req) (hlen : 8 ≤ req.length) :
    (icmp_echo_reply_msg req).length = req.length ∧
      mem_read (icmp_echo_reply_msg req) 0 2 = [0, 0] ∧
      (icmp_echo_reply_msg req).drop 4 = req.drop 4 ∧
      checksum16 (icmp_echo_reply_msg req) = 0 := by
  have hr0 : IsBytes ([0, 0, 0, 0] ++ req.drop 4) := by
    intro x hx
    rw [List.mem_append] at hx
    rcases hx with hx | hx
    · simp at hx; omega
    · exact hb x (List.mem_of_mem_drop hx)
  refine ⟨?_, ?_, ?_, ?_⟩
  · simp [icmp_echo_reply_msg, store16, mem_write_length]; omega
  · match req, hlen with
    | a0 :: a1 :: a2 :: a3 :: a4 :: a5 :: a6 :: a7 :: rest, _ =>
      simp [icmp_echo_reply_msg, store16, mem_write, mem_read]
  · match req, hlen with
    | a0 :: a1 :: a2 :: a3 :: a4 :: a5 :: a6 :: a7 :: rest, _ =>
      simp [icmp_echo_reply_msg, store16, mem_write]
  · unfold icmp_echo_reply_msg
    refine checksum16_fill _ 2 hr0 (by decide) (by simp) ?_
    simp [load16]

/-- Claim C16. For every inbound ICMP buffer and source IP: `icmp_in` hands a
message to `ip_out` if and only if the buffer length is at least 8, the type
is 8 (Echo-Request) and the code is 0; in that case exactly one message is
handed over, for the source IP with protocol ICMP, of the same length as the
request, with type 0 and code 0, with identifier, sequence and all data bytes
after the header as in the request, and with a checksum field such that
`checksum16` over the whole reply is `0x0000`. -/
theorem icmp_in_echo_reply (s : Net) (buf : buf_t) (src_ip : List Nat) (hinv : buf.inv)
    (hb : IsBytes buf.payload) (hcap : buf.len < s.txbuf.payload.length / 2) :
    ip_out_calls (icmp_in s buf src_ip).events = ip_out_calls s.events ++
        (if 8 ≤ buf.len ∧ buf.get8 0 = 8 ∧ buf.get8 1 = 0 then
          [(icmp_echo_reply_msg buf.bytes, src_ip, NET_PROTOCOL_ICMP)]
        else []) ∧
      (8 ≤ buf.len →
        (icmp_echo_reply_msg buf.bytes).length = buf.len ∧
        mem_read (icmp_echo_reply_msg buf.bytes) 0 2 = [0, 0] ∧
        (icmp_echo_reply_msg buf.bytes).drop 4 = buf.bytes.drop 4 ∧
        checksum16 (icmp_echo_reply_msg buf.bytes) = 0x0000) := by
  constructor
  · unfold icmp_in
    by_cases hlen : buf.len < sizeof_icmp_hdr_t
    · rw [if_pos hlen, if_neg (by simp only [sizeof_icmp_hdr_t] at hlen; omega)]
      simp
    · rw [if_neg hlen]
      simp only [sizeof_icmp_hdr_t] at hlen
      by_cases hreq : buf.get8 0 = ICMP_TYPE_ECHO_REQUEST ∧ buf.get8 1 = 0
      · rw [if_pos hreq, if_pos ⟨by omega, hreq⟩]
        unfold icmp_resp
        rw [ip_out_ip_out_calls]
        simp only [Net.get]
        rw [icmp_resp_buf_bytes s buf hinv hb (by omega) hcap]
      · rw [if_neg hreq, if_neg (fun h => hreq h.2)]
        simp
  · intro hlen
    have hl := bytes_length buf hinv
    have := icmp_echo_reply_msg_spec buf.bytes (isBytes_bytes buf hb) (by omega)
    rw [hl] at this
    exact this

/-- Witness for C16: host A receives an Echo-Request from 10.0.0.3. -/
theorem icmp_in_echo_reply_witness :
    (8 ≤ example_echo_request.len ∧ example_echo_request.get8 0 = 8 ∧
        example_echo_request.get8 1 = 0) ∧
      ip_out_calls (icmp_in host_a example_echo_request [10, 0, 0, 3]).events =
        ip_out_calls host_a.events ++
        (if 8 ≤ example_echo_request.len ∧ example_echo_request.get8 0 = 8 ∧
            example_echo_request.get8 1 = 0 then
          [(icmp_echo_reply_msg example_echo_request.bytes, [10, 0, 0, 3], NET_PROTOCOL_ICMP)]
        else []) ∧
      (icmp_echo_reply_msg example_echo_request.bytes).length = example_echo_request.len ∧
      mem_read (icmp_echo_reply_msg example_echo_request.bytes) 0 2 = [0, 0] ∧
      (icmp_echo_reply_msg example_echo_request.bytes).drop 4 =
        example_echo_request.bytes.drop 4 ∧
      checksum16 (icmp_echo_reply_msg example_echo_request.bytes) = 0x0000 :=
  have h := icmp_in_echo_reply host_a example_echo_request [10, 0, 0, 3] (by decide!)
    (by decide!) (by decide!)
  ⟨by decide!, h.1, h.2 (by decide)⟩

/-! ## Theorems: ip_fragment_out and ip_in -/

/-- What `ip_in` hands to the registry for a datagram it accepts, when the
header fits into the total length: the bytes between the header and the total
length, the protocol byte, and the source address of the header. -/
theorem ip_in_accept_exact (s : Net) (buf : buf_t) (hinv : buf.inv)
    (hbytes : IsBytes buf.payload) (h : ip_in_accepts s.net_if_ip buf)
    (hfit : 4 * (buf.get8 0 % 16) ≤ swap16 (buf.get16 2)) :
    ∃ rest, (ip_in s buf).events = s.events ++
      Event.net_in
        (mem_read buf.payload (buf.data + 4 * (buf.get8 0 % 16))
          (swap16 (buf.get16 2) - 4 * (buf.get8 0 % 16)))
        (buf.get8 9) (buf.read 12 4) :: rest := by
  have htl : swap16 (buf.get16 2) ≤ buf.len := h.2.2.1
  unfold ip_in
  rw [ip_in_check_eq _ _ hinv hbytes, if_pos h]
  simp only
  have hb : buf_remove_header (if swap16 (buf.get16 2) < buf.len then
      buf_remove_padding buf (buf.len - swap16 (buf.get16 2)) else buf)
      (load8 buf.payload buf.data % 16 * IP_HDR_LEN_PER_BYTE) =
      { len := swap16 (buf.get16 2) - 4 * (buf.get8 0 % 16),
        data := buf.data + 4 * (buf.get8 0 % 16), payload := buf.payload } := by
    have e0 : load8 buf.payload buf.data = buf.get8 0 := by
      unfold buf_t.get8; rw [Nat.add_zero]
    rw [e0]
    simp only [IP_HDR_LEN_PER_BYTE]
    rw [show buf.get8 0 % 16 * 4 = 4 * (buf.get8 0 % 16) by omega]
    by_cases hp : swap16 (buf.get16 2) < buf.len
    · rw [if_pos hp]
      unfold buf_remove_padding
      rw [if_neg (by omega)]
      unfold buf_remove_header
      simp only
      rw [if_neg (by omega)]
      congr 1
      omega
    · rw [if_neg hp]
      unfold buf_remove_header
      rw [if_neg (by omega)]
      congr 1
      omega
  rw [hb]
  generalize hbd : buf_t.mk (swap16 (buf.get16 2) - 4 * (buf.get8 0 % 16))
    (buf.data + 4 * (buf.get8 0 % 16)) buf.payload = b
  have hbp : b.payload = buf.payload := by rw [← hbd]
  have hbb : b.bytes = mem_read buf.payload (buf.data + 4 * (buf.get8 0 % 16))
      (swap16 (buf.get16 2) - 4 * (buf.get8 0 % 16)) := by rw [← hbd]; rfl
  obtain ⟨es, he⟩ := net_in_events s b (load8 b.payload (buf.data + 9)) (.own (buf.data + 12))
  have hev : Event.net_in b.bytes (load8 b.payload (buf.data + 9))
      ((addr_ptr.own (buf.data + 12)).deref b NET_IP_LEN) =
      Event.net_in (mem_read buf.payload (buf.data + 4 * (buf.get8 0 % 16))
        (swap16 (buf.get16 2) - 4 * (buf.get8 0 % 16))) (buf.get8 9) (buf.read 12 4) := by
    rw [hbb]
    simp only [addr_ptr.deref, hbp]
    rfl
  rw [hev] at he
  split
  · obtain ⟨es2, he2⟩ := icmp_unreachable_extends (net_in s b (load8 b.payload (buf.data + 9))
      (.own (buf.data + 12))).1
      (buf_add_header b (load8 buf.payload buf.data % 16 * IP_HDR_LEN_PER_BYTE))
      (mem_read (buf_add_header b (load8 buf.payload buf.data % 16 * IP_HDR_LEN_PER_BYTE)).payload
        (buf.data + 12) NET_IP_LEN) ICMP_CODE_PROTOCOL_UNREACH
    exact ⟨es ++ es2, by rw [he2, he]; simp⟩
  · exact ⟨es, he⟩

/-- A received buffer which holds a datagram with a header as `ip_fragment_out`
writes it, for the local IP, followed by link padding, passes the checks of
`ip_in`; the fields are read back as they were written. -/
theorem ip_in_accepts_built (rb : buf_t) (A B P pad : List Nat) (id ff protocol : Nat)
    (hA : A.length = 4) (hB : B.length = 4) (hn : P.length + 20 < 65536)
    (hinv : rb.inv)
    (hrb : rb.bytes = ip_hdr_bytes (P.length + 20) id ff protocol
      (checksum16 (ip_hdr_bytes (P.length + 20) id ff protocol 0 A B)) A B ++ P ++ pad) :
    ip_in_accepts B rb ∧ rb.get8 0 % 16 = 5 ∧ swap16 (rb.get16 2) = P.length + 20 ∧
      rb.get8 9 = protocol % 256 ∧ rb.read 12 4 = A ∧
      mem_read rb.payload (rb.data + 20) P.length = P := by
  have hc := checksum16_lt (ip_hdr_bytes (P.length + 20) id ff protocol 0 A B)
  generalize hcdef : checksum16 (ip_hdr_bytes (P.length + 20) id ff protocol 0 A B) = c at hc hrb
  have hlen : rb.len = 20 + P.length + pad.length := by
    rw [← bytes_length rb hinv, hrb]
    simp [ip_hdr_bytes, hA, hB]
    omega
  have hmr : ∀ i k, i + k ≤ rb.len → rb.read i k = mem_read rb.bytes i k := by
    intro i k hik
    unfold buf_t.read buf_t.bytes
    rw [mem_read_read _ _ _ _ _ hik]
  match A, hA, B, hB with
  | [x0, x1, x2, x3], _, [y0, y1, y2, y3], _ =>
    have g0 : rb.get8 0 = 0x45 := by
      have := get8_of_read rb 0 1 0 _ (hmr 0 1 (by omega)) (by rw [hrb]; simp [mem_read, ip_hdr_bytes])
      rw [this, hrb]; simp [mem_read, ip_hdr_bytes]
    have g9 : rb.get8 9 = protocol % 256 := by
      have := get8_of_read rb 9 1 0 _ (hmr 9 1 (by omega)) (by rw [hrb]; simp [mem_read, ip_hdr_bytes])
      rw [Nat.add_zero] at this
      rw [this, hrb]; simp [mem_read, ip_hdr_bytes]
    have g2 : rb.get16 2 = (P.length + 20) / 256 % 256 + 256 * ((P.length + 20) % 256) := by
      unfold buf_t.get16
      rw [load16_of_bytes rb 2 (by omega), hrb]
      simp [load16, ip_hdr_bytes]
    have g10 : rb.get16 10 = c := by
      unfold buf_t.get16
      rw [load16_of_bytes rb 10 (by omega), hrb]
      simp [load16, ip_hdr_bytes]
      omega
    have r12 : rb.read 12 4 = [x0, x1, x2, x3] := by
      rw [hmr 12 4 (by omega), hrb]; simp [mem_read, ip_hdr_bytes]
    have r16 : rb.read 16 4 = [y0, y1, y2, y3] := by
      rw [hmr 16 4 (by omega), hrb]; simp [mem_read, ip_hdr_bytes]
    have rP : mem_read rb.payload (rb.data + 20) P.length = P := by
      have := hmr 20 P.length (by omega)
      unfold buf_t.read at this
      rw [this, hrb]; simp [mem_read, ip_hdr_bytes]
    have hz : (rb.set16 10 0).read 0 20 =
        ip_hdr_bytes (P.length + 20) id ff protocol 0 [x0, x1, x2, x3] [y0, y1, y2, y3] := by
      have h1 : (rb.set16 10 0).read 0 20 = mem_read (rb.set16 10 0).bytes 0 20 := by
        unfold buf_t.read buf_t.bytes
        rw [mem_read_read _ _ _ _ _ (by simp; omega)]
      rw [h1, bytes_set16 rb 10 0 hinv (by omega), hrb]
      simp [store16, mem_write, mem_read, ip_hdr_bytes]
    have hsw : swap16 (rb.get16 2) = P.length + 20 := by rw [g2]; exact swap16_be _ hn
    refine ⟨⟨by omega, by rw [g0], by rw [hsw]; omega, by rw [g0], ?_, r16⟩, by rw [g0], hsw, g9,
      r12, rP⟩
    rw [g0, g10, show 4 * (0x45 % 16) = 20 by rfl, hz, hcdef]

/-- Claim C17. Round trip `ip_fragment_out` -> `ip_in`: for every payload of
length at most 65515, protocol number, id, offset, more-fragments flag and
destination IP B, and any trailing link-padding bytes: the datagram which
`ip_fragment_out` builds on a host with local IP A and hands to `arp_out` (a
20-byte header with version 4, header length 5, the total length big-endian
and the header checksum, then the payload), followed by the padding, when
given to `ip_in` on a host with local IP B, passes every validation check and
is dispatched to the registry as exactly the payload (padding stripped) with
the protocol and the source IP A. -/
theorem ip_fragment_round_trip (sA sB : Net) (bref : buf_ref) (rb : buf_t)
    (protocol id offset mf : Nat) (pad : List Nat)
    (hA : sA.net_if_ip.length = 4) (hB : sB.net_if_ip.length = 4) (hp : protocol < 256)
    (hn : (sA.get bref).len ≤ 65515) (hhead : 20 ≤ (sA.get bref).data)
    (hinv : (sA.get bref).inv) (hrinv : rb.inv) (hrbytes : IsBytes rb.payload)
    (hrb : rb.bytes = (ip_fragment_out_buf sA.net_if_ip (sA.get bref) sB.net_if_ip protocol id
      offset mf).bytes ++ pad) :
    ip_fragment_out sA bref sB.net_if_ip protocol id offset mf =
        arp_out ((sA.emit (Event.ip_fragment_out (sA.get bref).bytes sB.net_if_ip protocol id
          offset mf)).set bref (ip_fragment_out_buf sA.net_if_ip (sA.get bref) sB.net_if_ip
            protocol id offset mf)) bref sB.net_if_ip ∧
      (ip_fragment_out_buf sA.net_if_ip (sA.get bref) sB.net_if_ip protocol id offset mf).bytes =
        ip_hdr_bytes ((sA.get bref).len + 20) id
          (if mf ≠ 0 then IP_MORE_FRAGMENT ||| offset else offset) protocol
          (checksum16 (ip_hdr_bytes ((sA.get bref).len + 20) id
            (if mf ≠ 0 then IP_MORE_FRAGMENT ||| offset else offset) protocol 0
            sA.net_if_ip sB.net_if_ip))
          sA.net_if_ip sB.net_if_ip ++ (sA.get bref).bytes ∧
      ip_in_accepts sB.net_if_ip rb ∧
      ∃ rest, (ip_in sB rb).events = sB.events ++
        Event.net_in (sA.get bref).bytes protocol sA.net_if_ip :: rest := by
  have hbytes := ip_fragment_out_buf_bytes sA.net_if_ip (sA.get bref) sB.net_if_ip protocol id
    offset mf hA hB hhead hinv
  have hl := bytes_length _ hinv
  refine ⟨?_, hbytes, ?_⟩
  · cases bref <;> rfl
  · rw [hbytes, ← hl] at hrb
    obtain ⟨hacc, h5, htl, h9, h12, hP⟩ := ip_in_accepts_built rb sA.net_if_ip sB.net_if_ip
      (sA.get bref).bytes pad id _ protocol hA hB (by rw [hl]; omega) hrinv hrb
    refine ⟨hacc, ?_⟩
    obtain ⟨rest, he⟩ := ip_in_accept_exact sB rb hrinv hrbytes hacc (by rw [h5, htl]; omega)
    rw [h5, htl, h9, h12, Nat.mod_eq_of_lt hp,
      show (sA.get bref).bytes.length + 20 - 4 * 5 = (sA.get bref).bytes.length by omega,
      show rb.data + 4 * 5 = rb.data + 20 by rfl, hP] at he
    exact ⟨rest, he⟩

/-- Witness for C17: the payload "ping" sent from host A to host B as a
fragment with id 7, offset 185 and the more-fragments flag set, received with
22 bytes of link padding. -/
theorem ip_fragment_round_trip_witness :
    ip_fragment_out host_a_ping .txbuf host_b.net_if_ip 17 7 185 1 =
        arp_out ((host_a_ping.emit (Event.ip_fragment_out (host_a_ping.get .txbuf).bytes
          host_b.net_if_ip 17 7 185 1)).set .txbuf (ip_fragment_out_buf host_a_ping.net_if_ip
            (host_a_ping.get .txbuf) host_b.net_if_ip 17 7 185 1)) .txbuf host_b.net_if_ip ∧
      (ip_fragment_out_buf host_a_ping.net_if_ip (host_a_ping.get .txbuf) host_b.net_if_ip
          17 7 185 1).bytes =
        ip_hdr_bytes ((host_a_ping.get .txbuf).len + 20) 7
          (if 1 ≠ 0 then IP_MORE_FRAGMENT ||| 185 else 185) 17
          (checksum16 (ip_hdr_bytes ((host_a_ping.get .txbuf).len + 20) 7
            (if 1 ≠ 0 then IP_MORE_FRAGMENT ||| 185 else 185) 17 0
            host_a_ping.net_if_ip host_b.net_if_ip))
          host_a_ping.net_if_ip host_b.net_if_ip ++ (host_a_ping.get .txbuf).bytes ∧
      ip_in_accepts host_b.net_if_ip example_fragment_rx ∧
      ∃ rest, (ip_in host_b example_fragment_rx).events = host_b.events ++
        Event.net_in (host_a_ping.get .txbuf).bytes 17 host_a_ping.net_if_ip :: rest :=
  ip_fragment_round_trip host_a_ping host_b .txbuf example_fragment_rx 17 7 185 1
    (List.replicate 22 0xee) (by decide) (by decide) (by decide) (by decide!) (by decide!)
    (by decide!) (by decide!) (by decide!) (by decide!)

/-! ## Theorems: ip_in and the flags/fragment field -/

theorem swap16_swap16 (v : Nat) (hv : v < 65536) : swap16 (swap16 v) = v := by
  unfold swap16
  obtain ⟨vh, vl, hvv, hvl, hvh⟩ : ∃ vh vl, v = 256 * vh + vl ∧ vl < 256 ∧ vh < 256 :=
    ⟨v / 256, v % 256, by omega, by omega, by omega⟩
  have e1 : v % 256 = vl := by omega
  have e2 : v / 256 % 256 = vh := by
    have : v / 256 = vh := by omega
    rw [this]; omega
  rw [e1, e2]
  have e3 : (vl * 256 + vh) % 256 = vh := by omega
  have e4 : (vl * 256 + vh) / 256 % 256 = vl := by
    have : (vl * 256 + vh) / 256 = vl := by omega
    rw [this]; omega
  rw [e3, e4]
  omega

theorem swap16_lt (v : Nat) : swap16 v < 65536 := by
  unfold swap16
  have h1 : v % 256 < 256 := Nat.mod_lt _ (by norm_num)
  have h2 : v / 256 % 256 < 256 := Nat.mod_lt _ (by norm_num)
  omega

theorem get8_set16_of_ne (b : buf_t) (k off v : Nat)
    (h : b.data + off + 2 ≤ b.payload.length) (hk : k < off ∨ off + 2 ≤ k) :
    (b.set16 off v).get8 k = b.get8 k := by
  unfold buf_t.get8 buf_t.set16 load8 store16
  dsimp only
  rcases hk with hk | hk
  · exact getD_mem_write_left _ _ _ _ (by simp; omega) (by omega)
  · exact getD_mem_write_right _ _ _ _ (by simp; omega) (by simp; omega)

theorem get16_set16_of_ne (b : buf_t) (k off v : Nat)
    (h : b.data + off + 2 ≤ b.payload.length) (hk : k + 2 ≤ off ∨ off + 2 ≤ k) :
    (b.set16 off v).get16 k = b.get16 k := by
  unfold buf_t.get16 buf_t.set16 load16 store16
  dsimp only
  rcases hk with hk | hk
  · rw [getD_mem_write_left _ _ _ _ (by simp; omega) (by omega),
      getD_mem_write_left _ _ _ _ (by simp; omega) (by omega)]
  · rw [getD_mem_write_right _ _ _ _ (by simp; omega) (by simp; omega),
      getD_mem_write_right _ _ _ _ (by simp; omega) (by simp; omega)]

theorem get16_set16_same (b : buf_t) (off v : Nat)
    (h : b.data + off + 2 ≤ b.payload.length) (hv : v < 65536) :
    (b.set16 off v).get16 off = v := by
  unfold buf_t.get16 buf_t.set16
  exact load16_store16 _ _ _ h hv

theorem read_set16_of_ne (b : buf_t) (q n off v : Nat)
    (h : b.data + off + 2 ≤ b.payload.length) (hq : q + n ≤ off ∨ off + 2 ≤ q) :
    (b.set16 off v).read q n = b.read q n := by
  unfold buf_t.read buf_t.set16 store16
  dsimp only
  rcases hq with hq | hq
  · exact mem_read_write_left _ _ _ _ _ (by simp; omega) (by omega)
  · exact mem_read_write_right _ _ _ _ _ (by simp; omega) (by simp; omega)

theorem set16_set16_same (b : buf_t) (off v w : Nat)
    (h : b.data + off + 2 ≤ b.payload.length) :
    (b.set16 off v).set16 off w = b.set16 off w := by
  unfold buf_t.set16 store16
  simp only
  rw [mem_write_mem_write_same _ _ [v % 256, v / 256 % 256] [w % 256, w / 256 % 256]
    (by simp; omega) rfl]

/-- The checks of `ip_in` do not look at the flags/fragment field: a datagram
that passes them passes them with any other value of the field, once the
header checksum is recomputed. -/
theorem with_fragment_field_accepts (ip : List Nat) (buf : buf_t) (ff : Nat) (hinv : buf.inv)
    (hff : ff < 65536) (hacc : ip_in_accepts ip buf) :
    (with_fragment_field buf ff).len = buf.len ∧
      (with_fragment_field buf ff).data = buf.data ∧
      (with_fragment_field buf ff).payload.length = buf.payload.length ∧
      swap16 ((with_fragment_field buf ff).get16 6) = ff ∧
      ip_in_accepts ip (with_fragment_field buf ff) := by
  obtain ⟨h20, hver, htl, hhl, _, hdst⟩ := hacc
  unfold buf_t.inv at hinv
  have hcap : ∀ off, off + 2 ≤ 20 → buf.data + off + 2 ≤ buf.payload.length := by
    intro off h; omega
  unfold with_fragment_field
  simp only
  generalize hb0 : buf.set16 6 (swap16 ff) = b0
  have l0 : b0.len = buf.len := by rw [← hb0]; rfl
  have d0 : b0.data = buf.data := by rw [← hb0]; rfl
  have p0 : b0.payload.length = buf.payload.length := by rw [← hb0]; simp
  generalize hb1 : b0.set16 10 0 = b1
  have l1 : b1.len = buf.len := by rw [← hb1]; exact l0
  have d1 : b1.data = buf.data := by rw [← hb1]; exact d0
  have p1 : b1.payload.length = buf.payload.length := by rw [← hb1]; simpa using p0
  have hc := checksum16_lt (b1.read 0 (4 * (b1.get8 0 % 16)))
  generalize hcd : checksum16 (b1.read 0 (4 * (b1.get8 0 % 16))) = c at hc
  have g80 : b1.get8 0 = buf.get8 0 := by
    rw [← hb1, get8_set16_of_ne _ _ _ _ (by rw [d0, p0]; omega) (by omega), ← hb0,
      get8_set16_of_ne _ _ _ _ (by omega) (by omega)]
  have w80 : (b1.set16 10 c).get8 0 = buf.get8 0 := by
    rw [get8_set16_of_ne _ _ _ _ (by rw [d1, p1]; omega) (by omega), g80]
  have w2 : (b1.set16 10 c).get16 2 = buf.get16 2 := by
    rw [get16_set16_of_ne _ _ _ _ (by rw [d1, p1]; omega) (by omega), ← hb1,
      get16_set16_of_ne _ _ _ _ (by rw [d0, p0]; omega) (by omega), ← hb0,
      get16_set16_of_ne _ _ _ _ (by omega) (by omega)]
  have w6 : (b1.set16 10 c).get16 6 = swap16 ff := by
    rw [get16_set16_of_ne _ _ _ _ (by rw [d1, p1]; omega) (by omega), ← hb1,
      get16_set16_of_ne _ _ _ _ (by rw [d0, p0]; omega) (by omega), ← hb0,
      get16_set16_same _ _ _ (by omega) (swap16_lt ff)]
  have w10 : (b1.set16 10 c).get16 10 = c :=
    get16_set16_same _ _ _ (by rw [d1, p1]; omega) hc
  have wz : (b1.set16 10 c).set16 10 0 = b1 := by
    rw [set16_set16_same _ _ _ _ (by rw [d1, p1]; omega), ← hb1,
      set16_set16_same _ _ _ _ (by rw [d0, p0]; omega)]
  have w16 : (b1.set16 10 c).read 16 4 = buf.read 16 4 := by
    rw [read_set16_of_ne _ _ _ _ _ (by rw [d1, p1]; omega) (by omega), ← hb1,
      read_set16_of_ne _ _ _ _ _ (by rw [d0, p0]; omega) (by omega), ← hb0,
      read_set16_of_ne _ _ _ _ _ (by omega) (by omega)]
  refine ⟨l1, d1, by simpa using p1, by rw [w6]; exact swap16_swap16 ff hff, ?_⟩
  unfold ip_in_accepts
  rw [g80] at hcd
  rw [w80, w2, w10, wz, w16]
  simp only [set16_len, l1]
  exact ⟨h20, hver, htl, hhl, hcd.symm, hdst⟩

/-- Counterexample to C18 as stated: host B receives the datagram which host A
builds from "ping" with the more-fragments flag set and fragment offset 185
(flags/fragment field 0x20b9); it passes the checks of `ip_in` and its payload
is dispatched to the registry. -/
theorem ip_in_dispatches_fragment :
    swap16 (example_fragment_rx.get16 6) = 0x2000 + 185 ∧
      ip_in_accepts host_b.net_if_ip example_fragment_rx ∧
      (ip_in host_b example_fragment_rx).events =
        [Event.net_in [112, 105, 110, 103] 17 [10, 0, 0, 2]] := by
  decide!

/-- Claim C18, as amended. The validation of `ip_in` does not examine the
more-fragments flag or the fragment offset: for every inbound datagram which
`ip_in` accepts and every value of the flags/fragment field, the datagram with
that value in the field and the header checksum recomputed is accepted and
dispatched to the registry as well. -/
theorem ip_in_ignores_fragment_field (s : Net) (buf : buf_t) (ff : Nat) (hinv : buf.inv)
    (hbytes : IsBytes buf.payload) (hff : ff < 65536)
    (hacc : ip_in_accepts s.net_if_ip buf) :
    swap16 ((with_fragment_field buf ff).get16 6) = ff ∧
      ip_in_accepts s.net_if_ip (with_fragment_field buf ff) ∧
      ∃ p proto src rest, (ip_in s (with_fragment_field buf ff)).events =
        s.events ++ Event.net_in p proto src :: rest := by
  obtain ⟨hl, hd, hp, h6, ha⟩ := with_fragment_field_accepts s.net_if_ip buf ff hinv hff hacc
  refine ⟨h6, ha, ?_⟩
  refine ip_in_accept_events s _ (by unfold buf_t.inv at *; rw [hl, hd, hp]; exact hinv) ?_ ha
  unfold with_fragment_field buf_t.set16
  exact store16_isBytes _ _ _ (store16_isBytes _ _ _ (store16_isBytes _ _ _ hbytes))

/-- Witness for C18 as amended: the example UDP datagram received by host A,
turned into a fragment with the more-fragments flag and offset 185. -/
theorem ip_in_ignores_fragment_field_witness :
    swap16 ((with_fragment_field (example_rx example_udp 0xee) 0x20b9).get16 6) = 0x20b9 ∧
      ip_in_accepts host_a.net_if_ip (with_fragment_field (example_rx example_udp 0xee) 0x20b9) ∧
      ∃ p proto src rest,
        (ip_in host_a (with_fragment_field (example_rx example_udp 0xee) 0x20b9)).events =
          host_a.events ++ Event.net_in p proto src :: rest :=
  ip_in_ignores_fragment_field host_a (example_rx example_udp 0xee) 0x20b9 (by decide!)
    (by decide!) (by decide) (by decide!)

/-! ## Theorems: ip_in and the header length -/

/-- Evaluation for C19: host A receives, in a buffer of 46 bytes, a datagram
with header length 6 words and total length 20. It passes the validation of
`ip_in` although `4 * hdr_len = 24` exceeds the total length: the removal of
24 header bytes from the 20 that remain after the padding removal fails, and
what is dispatched as payload is the 20 header bytes. With header length 15
words the datagram passes as well, and `4 * hdr_len = 60` exceeds the buffer
length too: the header checksum is computed over 60 bytes, the last 14 of
which lie behind the received buffer (storage bytes `dd`). -/
theorem ip_in_accepts_oversized_header :
    (example_rx example_header_over_total 0xee).inv ∧
      (example_rx example_header_over_total 0xee).len = 46 ∧
      ip_in_accepts host_a.net_if_ip (example_rx example_header_over_total 0xee) ∧
      4 * ((example_rx example_header_over_total 0xee).get8 0 % 16) = 24 ∧
      swap16 ((example_rx example_header_over_total 0xee).get16 2) = 20 ∧
      (ip_in host_a (example_rx example_header_over_total 0xee)).events.head? =
        some (Event.net_in example_header_over_total 6 [10, 0, 0, 3]) ∧
      (example_rx example_long_header 0xee).inv ∧
      (example_rx example_long_header 0xee).len = 46 ∧
      ip_in_accepts host_a.net_if_ip (example_rx example_long_header 0xee) ∧
      4 * ((example_rx example_long_header 0xee).get8 0 % 16) = 60 ∧
      swap16 ((example_rx example_long_header 0xee).get16 2) = 20 ∧
      (((example_rx example_long_header 0xee).set16 10 0).read 0 60).drop 46 =
        List.replicate 14 0xdd ∧
      (ip_in host_a (example_rx example_long_header 0xee)).events.head? =
        some (Event.net_in example_long_header 6 [10, 0, 0, 3]) := by
  decide!

/-! ## Theorems: what transport_checksum leaves behind -/

theorem deref_length (p : addr_ptr) (b : buf_t) (h : p.readable b.payload.length) :
    (p.deref b 4).length = 4 := by
  cases p with
  | val bytes => exact h
  | own pos => exact mem_read_length _ _ _ h

/-- The buffer which `transport_checksum` leaves, for addresses read through
any pointers: the bytes under the pseudo-header are restored; for an odd
segment length the byte after the segment has been zeroed by the padding. -/
theorem transport_checksum_snd_ptr (protocol : Nat) (buf : buf_t) (sp dp : addr_ptr)
    (hs : sp.readable buf.payload.length) (hd : dp.readable buf.payload.length)
    (hhead : 12 ≤ buf.data)
    (htail : buf.data + buf.len + buf.len % 2 ≤ buf.payload.length) :
    (transport_checksum protocol buf sp dp).2 =
      if buf.len % 2 = 0 then buf
      else { buf with payload := mem_write buf.payload (buf.data + buf.len) [0] } := by
  obtain ⟨len, data, P⟩ := buf
  simp only at hhead htail hs hd
  unfold transport_checksum
  have hd12 : ¬ data < 12 := by omega
  simp only [sizeof_udp_peso_hdr_t, buf_add_header, NET_IP_LEN, hd12, if_false]
  have hsrc := deref_length sp { len := len + 12, data := data - 12, payload := P } hs
  generalize sp.deref { len := len + 12, data := data - 12, payload := P } 4 = src at hsrc
  have hdst := deref_length dp
    (({ len := len + 12, data := data - 12, payload := P } : buf_t).write 0 src)
    (by simpa using hd)
  generalize dp.deref (({ len := len + 12, data := data - 12, payload := P } : buf_t).write 0
    src) 4 = dst at hdst
  simp only [buf_t.write, buf_t.set8, buf_t.set16, buf_t.read, buf_t.bytes, store16,
    store16_swap16_bytes, Nat.add_sub_cancel, Nat.add_zero]
  have hpar : (len + 12) % 2 = len % 2 := by omega
  rcases Nat.mod_two_eq_zero_or_one len with h0 | h1
  · rw [hpar, h0]
    simp only [ne_eq, not_true_eq_false, if_false, if_true, buf_remove_header]
    rw [if_neg (by omega)]
    simp only [Nat.add_sub_cancel, buf_t.mk.injEq, true_and]
    refine ⟨by omega, ?_⟩
    apply list_ext_getD
    · simp only [mem_write_length]
    · intro i hi
      have htmp : (mem_read P (data - 12) 12).length = 12 := mem_read_length _ _ _ (by omega)
      simp (disch := (first | omega | (simp only [mem_write_length, mem_read_length, List.length_cons, List.length_nil, List.length_replicate]; first | done | omega))) only
        [getD_mem_write_full, getD_mem_read, mem_read_length]
      simp only [List.length_cons, List.length_nil, hsrc, hdst]
      split_ifs <;> first | rfl | omega | (congr 1; omega)
  · rw [hpar, h1]
    simp only [ne_eq, one_ne_zero, not_false_eq_true, if_true, if_false, buf_add_padding]
    rw [if_neg (by simp only [mem_write_length]; omega)]
    have hp1 : ¬ (len + 12 + 1 < 1) := by omega
    have hp2 : ¬ (len + 12 < 12) := by omega
    simp only [buf_remove_padding, buf_remove_header, hp1, hp2, if_false, Nat.add_sub_cancel,
      buf_t.mk.injEq, true_and]
    refine ⟨by omega, ?_⟩
    apply list_ext_getD
    · simp only [mem_write_length]
    · intro i hi
      have htmp : (mem_read P (data - 12) 12).length = 12 := mem_read_length _ _ _ (by omega)
      simp (disch := (first | omega | (simp only [mem_write_length, mem_read_length, List.length_cons, List.length_nil, List.length_replicate]; first | done | omega))) only
        [getD_mem_write_full, getD_mem_read, mem_read_length]
      simp only [List.length_cons, List.length_nil, List.length_replicate, hsrc, hdst]
      split_ifs <;> first | rfl | omega | (congr 1; omega)

/-- Claim C21, as amended. `transport_checksum` leaves the buffer as it found
it: for every buffer with at least 12 bytes of head-room and, when the segment
length is odd, at least one byte of storage behind the segment, every segment
length, protocol and addresses, given by value or lying in the buffer's own
storage, after the call the data start and the length of the buffer, every
byte of the segment and the 12 bytes immediately preceding the segment are
equal to their values before the call; the storage keeps its size and no byte
of it changes except, for an odd length, the padding byte right behind the
segment. -/
theorem transport_checksum_restores (protocol : Nat) (buf : buf_t) (src dst : addr_ptr)
    (hs : src.readable buf.payload.length) (hd : dst.readable buf.payload.length)
    (hhead : 12 ≤ buf.data)
    (htail : buf.data + buf.len + buf.len % 2 ≤ buf.payload.length) :
    (transport_checksum protocol buf src dst).2.data = buf.data ∧
      (transport_checksum protocol buf src dst).2.len = buf.len ∧
      (transport_checksum protocol buf src dst).2.bytes = buf.bytes ∧
      mem_read (transport_checksum protocol buf src dst).2.payload (buf.data - 12) 12 =
        mem_read buf.payload (buf.data - 12) 12 ∧
      (transport_checksum protocol buf src dst).2.payload.length = buf.payload.length ∧
      ∀ i, i ≠ buf.data + buf.len →
        (transport_checksum protocol buf src dst).2.payload.getD i 0 = buf.payload.getD i 0 := by
  rw [transport_checksum_snd_ptr protocol buf src dst hs hd hhead htail]
  split
  · exact ⟨rfl, rfl, rfl, rfl, rfl, fun _ _ => rfl⟩
  · refine ⟨rfl, rfl, ?_, ?_, by simp only [mem_write_length], ?_⟩
    · exact bytes_write_outside buf [0] (by simp only [List.length_cons, List.length_nil]; omega)
    · exact mem_read_write_left _ _ _ _ _
        (by simp only [List.length_cons, List.length_nil]; omega) (by omega)
    · intro i hi
      simp only
      rw [getD_mem_write_full _ _ _ _ (by simp only [List.length_cons, List.length_nil]; omega),
        if_neg (by simp only [List.length_cons, List.length_nil]; omega)]

/-- Witness for C21 as amended: a segment of the odd length 13 in the receive
buffer of the example datagram, the source address read from the IP header
before it. -/
theorem transport_checksum_restores_witness :
    (transport_checksum 17 example_odd_segment (.own 26) (.val [10, 0, 0, 2])).2.data =
        example_odd_segment.data ∧
      (transport_checksum 17 example_odd_segment (.own 26) (.val [10, 0, 0, 2])).2.len =
        example_odd_segment.len ∧
      (transport_checksum 17 example_odd_segment (.own 26) (.val [10, 0, 0, 2])).2.bytes =
        example_odd_segment.bytes ∧
      mem_read (transport_checksum 17 example_odd_segment (.own 26)
          (.val [10, 0, 0, 2])).2.payload (example_odd_segment.data - 12) 12 =
        mem_read example_odd_segment.payload (example_odd_segment.data - 12) 12 ∧
      (transport_checksum 17 example_odd_segment (.own 26) (.val [10, 0, 0, 2])).2.payload.length =
        example_odd_segment.payload.length ∧
      ∀ i, i ≠ example_odd_segment.data + example_odd_segment.len →
        (transport_checksum 17 example_odd_segment (.own 26)
          (.val [10, 0, 0, 2])).2.payload.getD i 0 = example_odd_segment.payload.getD i 0 :=
  transport_checksum_restores 17 example_odd_segment (.own 26) (.val [10, 0, 0, 2])
    (by decide!) (by decide!) (by decide) (by decide!)

/-- Counterexample to C21 as stated: a segment of the odd length 13 which ends
at the last byte of the storage, with 12 bytes of head-room. The padding byte
cannot be added, `transport_checksum` removes one byte of padding all the
same, and the buffer comes back with length 12: the last byte of the segment
is cut off. Data start, storage and the 12 bytes before the segment are as
before. -/
theorem transport_checksum_cuts_tight_segment :
    example_tight_segment.inv ∧ 12 ≤ example_tight_segment.data ∧
      example_tight_segment.len = 13 ∧
      (transport_checksum 17 example_tight_segment (.val [10, 0, 0, 3])
        (.val [10, 0, 0, 2])).2.len = 12 ∧
      (transport_checksum 17 example_tight_segment (.val [10, 0, 0, 3])
        (.val [10, 0, 0, 2])).2.data = example_tight_segment.data ∧
      (transport_checksum 17 example_tight_segment (.val [10, 0, 0, 3])
        (.val [10, 0, 0, 2])).2.payload = example_tight_segment.payload ∧
      (transport_checksum 17 example_tight_segment (.val [10, 0, 0, 3])
        (.val [10, 0, 0, 2])).2.bytes = [1, 2, 3, 4, 5, 6, 7, 8, 9, 10, 11, 12] ∧
      example_tight_segment.bytes = [1, 2, 3, 4, 5, 6, 7, 8, 9, 10, 11, 12, 13] := by
  decide!

end NetLab
